import Mathlib

/-
Verification of the NovelAI lorebook tools (lorebook_converter.py and
lorebook_key_sanity_checker.py) against their natural-language specification.

The Python code is shallowly embedded: Python strings are Lean `String`s and
the string primitives used by the code (strip, split, startswith, lower,
join, int(), isdigit, replace, repr) are modelled as executable functions
over `String.data`.  The converter's serializer and parser are translated
line by line from the source; nondeterministic inputs (uuid4 and
datetime.now) are threaded explicitly as a generator `Nat -> String` plus a
counter, and an integer timestamp.
-/

namespace NAI

/-! ## Python string primitives -/

/-- Python whitespace characters (the set stripped by `str.strip`). -/
def isPyWs (c : Char) : Bool :=
  c = ' ' || c = '\t' || c = '\n' || c = '\x0d' || c = '\x0b' || c = '\x0c'

/-- Left strip on character lists. -/
def ldrop (l : List Char) : List Char := l.dropWhile isPyWs

/-- Right strip on character lists. -/
def rdrop (l : List Char) : List Char := (l.reverse.dropWhile isPyWs).reverse

/-- Python `s.strip()` on character lists. -/
def stripData (l : List Char) : List Char := rdrop (ldrop l)

/-- Python `s.strip()`. -/
def pyStrip (s : String) : String := ⟨stripData s.data⟩

/-- Python `s.startswith(p)`. -/
def pyStartsWith (s p : String) : Bool := p.data.isPrefixOf s.data

/-- Python `s.lower()` (ASCII model). -/
def pyLower (s : String) : String := ⟨s.data.map Char.toLower⟩

/-- Python `c in s` for a single character. -/
def pyContainsChar (s : String) (c : Char) : Bool := s.data.contains c

/-- Split a character list at every occurrence of `c`
(Python `s.split(c)`: `[] ↦ [[]]`). -/
def splitCharData (c : Char) : List Char → List (List Char)
  | [] => [[]]
  | x :: xs =>
    let r := splitCharData c xs
    if x = c then [] :: r
    else
      match r with
      | y :: ys => (x :: y) :: ys
      | [] => [[x]]

/-- Python `s.split(c)` for a one-character separator. -/
def pySplitChar (c : Char) (s : String) : List String :=
  (splitCharData c s.data).map String.mk

/-- Break a character list at the first occurrence of `c`; the second
component is `none` when `c` does not occur (Python `s.split(c, 1)`). -/
def breakAtChar (c : Char) : List Char → List Char × Option (List Char)
  | [] => ([], none)
  | x :: xs =>
    if x = c then ([], some xs)
    else
      let r := breakAtChar c xs
      (x :: r.1, r.2)

/-- The part of `s` before the first `c` (Python `s.split(c, 1)[0]`). -/
def beforeFirst (c : Char) (s : String) : String := ⟨(breakAtChar c s.data).1⟩

/-- The part of `s` after the first `c` (Python `s.split(c, 1)[1]`; the source
only evaluates this under a guard ensuring `c` occurs, so the `none` case is
an unreachable default). -/
def afterFirst (c : Char) (s : String) : String := ⟨((breakAtChar c s.data).2).getD []⟩

/-- Python `sep.join(xs)`. -/
def pyJoin (sep : String) : List String → String
  | [] => ""
  | [x] => x
  | x :: y :: xs => x ++ sep ++ pyJoin sep (y :: xs)

/-- Python `str.replace(pat, rep)` on character lists: leftmost,
non-overlapping, all occurrences.  The source only uses a non-empty concrete
pattern; an empty pattern is returned unchanged in this model. -/
def replaceAllData (pat rep : List Char) : List Char → List Char
  | [] => []
  | x :: xs =>
    if h : pat.isPrefixOf (x :: xs) ∧ pat ≠ [] then
      rep ++ replaceAllData pat rep ((x :: xs).drop pat.length)
    else
      x :: replaceAllData pat rep xs
termination_by l => l.length
decreasing_by
  · simp only [List.length_drop, List.length_cons]
    have hlen : pat.length ≤ xs.length + 1 := by
      have := List.IsPrefix.length_le (List.isPrefixOf_iff_prefix.mp h.1)
      simpa using this
    have hpos : 0 < pat.length := List.length_pos.mpr h.2
    omega
  · simp

/-- Python `s.replace(pat, rep)`. -/
def pyReplace (pat rep s : String) : String := ⟨replaceAllData pat.data rep.data s.data⟩

/-- Python `str(b)` for booleans. -/
def pyBoolStr (b : Bool) : String := if b then "True" else "False"

/-- Decimal digit character for `d < 10`. -/
def digitChar (d : Nat) : Char := Char.ofNat (48 + d)

/-- Little-endian decimal digits, recursion bounded by a fuel argument so
that the definition is structural (and kernel-reducible); `n` always has
fewer than `n + 1` digits, so the fuel never runs out below. -/
def natDigitsRevAux : Nat → Nat → List Char
  | 0, _ => []
  | fuel + 1, n =>
    if n < 10 then [digitChar n] else digitChar (n % 10) :: natDigitsRevAux fuel (n / 10)

/-- Little-endian decimal digits of a natural number. -/
def natDigitsRev (n : Nat) : List Char := natDigitsRevAux (n + 1) n

/-- Python `str(n)` for a natural number. -/
def pyStrNat (n : Nat) : String := ⟨(natDigitsRev n).reverse⟩

/-- Python `str(i)` for integers. -/
def pyStrInt (i : Int) : String :=
  if i < 0 then "-" ++ pyStrNat i.natAbs else pyStrNat i.toNat

/-- Numeric value of a digit character. -/
def digitVal (c : Char) : Nat := c.toNat - 48

/-- Value of a little-endian digit list. -/
def digitsValRev : List Char → Nat
  | [] => 0
  | c :: cs => digitVal c + 10 * digitsValRev cs

/-- Value of a big-endian digit list (how Python `int()` reads digits). -/
def digitsVal (l : List Char) : Nat := digitsValRev l.reverse

/-- Model of Python `int(s)` under `try/except`: optional sign followed by a
non-empty run of decimal digits, surrounding whitespace ignored; `none`
models the exception path. -/
def pyParseIntCore : List Char → Option Int
  | [] => none
  | c :: ds =>
    if c = '-' then
      (if ds ≠ [] ∧ ds.all Char.isDigit then some (-(digitsVal ds : Int)) else none)
    else if c = '+' then
      (if ds ≠ [] ∧ ds.all Char.isDigit then some (digitsVal ds) else none)
    else if (c :: ds).all Char.isDigit then some (digitsVal (c :: ds)) else none

def pyParseInt (s : String) : Option Int := pyParseIntCore (stripData s.data)

/-- Python `s.isdigit()` (ASCII model). -/
def pyIsDigit (s : String) : Bool := s.data ≠ [] && s.data.all Char.isDigit

/-- One escaped character of Python `repr` for quote character `q`. -/
def pyReprCharEsc (q : Char) (c : Char) : List Char :=
  if c = '\\' then ['\\', '\\']
  else if c = '\n' then ['\\', 'n']
  else if c = '\x0d' then ['\\', 'r']
  else if c = '\t' then ['\\', 't']
  else if c = q then ['\\', q]
  else [c]

/-- Model of Python `repr(s)` for strings over the printable subset: quotes
with `'` unless the string contains `'` and no `"`, escaping the backslash,
newline, carriage return, tab and the quote character. -/
def pyRepr (s : String) : String :=
  let q : Char := if s.data.contains '\x27' && !(s.data.contains '"') then '"' else '\x27'
  ⟨q :: (s.data.flatMap (pyReprCharEsc q) ++ [q])⟩

/-! ## Data model (the lorebook JSON record form) -/

/-- Per-entry rendering configuration.  The source's field `prefix` is a Lean
keyword and is embedded as `prefixStr`. -/
structure ContextConfig where
  prefixStr : String
  suffix : String
  tokenBudget : Int
  reservedTokens : Int
  budgetPriority : Int
  trimDirection : String
  insertionType : String
  maximumTrimType : String
  insertionPosition : Int
deriving DecidableEq, Repr

/-- Settings values: type inferred at parse time by literal shape. -/
inductive SettingValue where
  | b (v : Bool)
  | i (v : Int)
  | s (v : String)
deriving DecidableEq, Repr

/-- Python `str(v)` for a settings value. -/
def settingValueStr : SettingValue → String
  | .b v => pyBoolStr v
  | .i v => pyStrInt v
  | .s v => v

/-- A bias group (`bias` is a JSON number; the parser never reads it back and
it is embedded as an integer). -/
structure BiasGroup where
  phrases : List String
  bias : Int
  enabled : Bool
deriving DecidableEq, Repr

/-- An advanced condition. -/
structure AdvancedCondition where
  type : String
  key : String
  range : Int
deriving DecidableEq, Repr

/-- A category record. -/
structure Category where
  name : String
  id : String
  enabled : Bool
  createSubcontext : Bool
  subcontextSettings : ContextConfig
  useCategoryDefaults : Bool
  categoryDefaults : List (String × SettingValue)
  categoryBiasGroups : List BiasGroup
  settings : List (String × SettingValue)
deriving DecidableEq, Repr

/-- A lore entry record. -/
structure Entry where
  text : String
  contextConfig : ContextConfig
  lastUpdatedAt : Int
  displayName : String
  id : String
  keys : List String
  searchRange : Int
  enabled : Bool
  forceActivation : Bool
  keyRelative : Bool
  nonStoryActivatable : Bool
  category : String
  loreBiasGroups : List BiasGroup
  advancedConditions : List AdvancedCondition
deriving DecidableEq, Repr

/-- The root lorebook document.  `settings` is a Python dict embedded as an
insertion-ordered association list with unique keys. -/
structure Lorebook where
  lorebookVersion : Int
  entries : List Entry
  categories : List Category
  settings : List (String × SettingValue)
deriving DecidableEq, Repr

/-! ## Default synthesizer (`_get_default_context_config`) -/

/-- `LorebookConverter._get_default_context_config`. -/
def get_default_context_config : ContextConfig where
  prefixStr := ""
  suffix := "\n"
  tokenBudget := 100
  reservedTokens := 0
  budgetPriority := 400
  trimDirection := "trimBottom"
  insertionType := "newline"
  maximumTrimType := "sentence"
  insertionPosition := -1

/-! ## Serializer (`_generate_txt_content`)

`json_to_txt` first builds `reverse_category_map` (a dict from category id to
name, in list order, so a later duplicate id overwrites an earlier one) and
then calls `_generate_txt_content`; the map is passed here explicitly. -/

/-- The reverse category map lookup `self.reverse_category_map.get(id, 'Unknown')`:
the name of the last category with the given id, or `Unknown`. -/
def reverseCategoryLookup (cats : List Category) (cid : String) : String :=
  match cats.reverse.find? (fun c => c.id == cid) with
  | some c => c.name
  | none => "Unknown"

/-- A run of `n` copies of one character (`"=" * n`, `"-" * n`). -/
def charRun (c : Char) (n : Nat) : String := ⟨List.replicate n c⟩

/-- The `CONTENT:` body for one entry: `Title:`/`Description:` lines when the
`----` micro-format is detected, else the raw text as one appended chunk. -/
def contentLines (text : String) : List String :=
  if pyStartsWith text "----\n" then
    let parts := (breakAtChar '\n' text.data).2.getD []
    -- text.split('\n', 2): ["----", parts2.1, rest]
    match breakAtChar '\n' parts with
    | (t, some rest) =>
      ["Title: " ++ String.mk t, "Description: " ++ String.mk rest]
    | (_, none) => [text]
  else [text]

/-- The lines for one category block. -/
def categoryLines (category : Category) : List String :=
  ["Category: " ++ category.name,
   "ID: " ++ category.id,
   "Enabled: " ++ pyBoolStr category.enabled]
  ++ (if category.createSubcontext then ["Creates Subcontext: Yes"] else [])
  ++ [""]

/-- The lines for one advanced condition. -/
def conditionLines (condition : AdvancedCondition) : List String :=
  ["  Type: " ++ condition.type,
   "  Key: " ++ condition.key,
   "  Range: " ++ pyStrInt condition.range,
   ""]

/-- The lines for one bias group. -/
def biasLines (bias : BiasGroup) : List String :=
  (if bias.phrases ≠ [] then ["  Phrases: " ++ pyJoin ", " bias.phrases] else [])
  ++ ["  Bias: " ++ pyStrInt bias.bias,
      "  Enabled: " ++ pyBoolStr bias.enabled,
      ""]

/-- The lines for one `ENTRY #i` block. -/
def entryLines (cats : List Category) (i : Nat) (entry : Entry) : List String :=
  ["ENTRY #" ++ pyStrNat i,
   charRun '=' 60,
   "Display Name: " ++ entry.displayName,
   "ID: " ++ entry.id,
   "Category: " ++ reverseCategoryLookup cats entry.category ++ " (" ++ entry.category ++ ")",
   "Activation Keys: " ++ pyJoin ", " entry.keys,
   "Enabled: " ++ pyBoolStr entry.enabled,
   "Force Activation: " ++ pyBoolStr entry.forceActivation,
   "Search Range: " ++ pyStrInt entry.searchRange,
   "",
   "CONTENT:",
   charRun '-' 20]
  ++ contentLines entry.text
  ++ ["", "CONTEXT CONFIGURATION:", charRun '-' 25]
  ++ [if entry.contextConfig.prefixStr ≠ "" then
        "Prefix: " ++ pyRepr entry.contextConfig.prefixStr
      else "Prefix: \x27\x27"]
  ++ [if entry.contextConfig.suffix ≠ "" then
        "Suffix: " ++ pyRepr entry.contextConfig.suffix
      else "Suffix: \x27\\n\x27"]
  ++ ["Token Budget: " ++ pyStrInt entry.contextConfig.tokenBudget,
      "Budget Priority: " ++ pyStrInt entry.contextConfig.budgetPriority,
      "Trim Direction: " ++ entry.contextConfig.trimDirection,
      "",
      "ADVANCED CONDITIONS:",
      charRun '-' 22]
  ++ (if entry.advancedConditions ≠ [] then
        entry.advancedConditions.flatMap conditionLines
      else ["  (No advanced conditions)"])
  ++ ["", "LORE BIAS GROUPS:", charRun '-' 18]
  ++ (if entry.loreBiasGroups ≠ [] then
        entry.loreBiasGroups.flatMap biasLines
      else ["  (No lore bias groups)"])
  ++ ["", ""]

/-- The numbered `ENTRY #i` blocks, `i` counting from `i0`
(`enumerate(lorebook['entries'], 1)` starts at 1). -/
def entriesLines (cats : List Category) (i0 : Nat) : List Entry → List String
  | [] => []
  | e :: es => entryLines cats i0 e ++ entriesLines cats (i0 + 1) es

/-- The full line list built by `_generate_txt_content`; `exportedAt` stands
for `datetime.now().strftime(...)`. -/
def generateLines (exportedAt : String) (lorebook : Lorebook) : List String :=
  [charRun '=' 80,
   "NOVELAI LOREBOOK",
   charRun '=' 80,
   "Version: " ++ pyStrInt lorebook.lorebookVersion,
   "Exported: " ++ exportedAt,
   ""]
  ++ (if lorebook.categories ≠ [] then
        ["CATEGORIES", charRun '-' 40] ++ lorebook.categories.flatMap categoryLines
      else [])
  ++ (if lorebook.entries ≠ [] then
        ["LORE ENTRIES", charRun '-' 40] ++ entriesLines lorebook.categories 1 lorebook.entries
      else [])
  ++ (if lorebook.settings ≠ [] then
        ["SETTINGS", charRun '-' 40]
        ++ lorebook.settings.map (fun p => p.1 ++ ": " ++ settingValueStr p.2)
      else [])

/-- `_generate_txt_content`: the joined text (`'\n'.join(lines)`). -/
def generate_txt_content (exportedAt : String) (lorebook : Lorebook) : String :=
  pyJoin "\n" (generateLines exportedAt lorebook)

/-! ## Category resolver and default synthesizer -/

/-- Core of `_find_or_create_category_id` over a category list: first exact
name match wins; otherwise a fresh default category is appended. -/
def find_or_create_core (freshId name : String) (cats : List Category) :
    String × List Category :=
  match cats.find? (fun c => c.name == name) with
  | some c => (c.id, cats)
  | none =>
    let newCategory : Category :=
      { name := name
        id := freshId
        enabled := true
        createSubcontext := false
        subcontextSettings := get_default_context_config
        useCategoryDefaults := false
        categoryDefaults := []
        categoryBiasGroups := []
        settings := [] }
    (freshId, cats ++ [newCategory])

/-- `LorebookConverter._find_or_create_category_id` (the fresh uuid is passed
in explicitly); mutates the document's category list as a side effect. -/
def find_or_create_category_id (freshId category_name : String) (lorebook : Lorebook) :
    String × Lorebook :=
  let r := find_or_create_core freshId category_name lorebook.categories
  (r.1, { lorebook with categories := r.2 })

/-- `LorebookConverter._get_category_name`: first id match, else `Unknown`. -/
def get_category_name (category_id : String) (cats : List Category) : String :=
  match cats.find? (fun c => c.id == category_id) with
  | some c => c.name
  | none => "Unknown"

/-! ## Parser (`_parse_txt_content`) -/

/-- The parser's `current_section` values (`None` is `Option.none`). -/
inductive SectionState where
  | categories
  | entries
  | settings
deriving DecidableEq, Repr

/-- The mutable parsing state: the lorebook dict under construction plus the
section and in-progress records; `uuidCount` counts calls to `uuid.uuid4()`. -/
structure ParseState where
  version : Int
  entries : List Entry
  categories : List Category
  settings : List (String × SettingValue)
  currentSection : Option SectionState
  currentEntry : Option Entry
  currentCategory : Option Category
  uuidCount : Nat
deriving DecidableEq, Repr

/-- Python dict assignment `d[k] = v`: overwrite in place, else append. -/
def dictInsert (k : String) (v : SettingValue) (m : List (String × SettingValue)) :
    List (String × SettingValue) :=
  if m.any (fun p => p.1 == k) then
    m.map (fun p => if p.1 == k then (k, v) else p)
  else m ++ [(k, v)]

/-- The fresh category dict opened by a `Category:` line. -/
def newCategory (name freshId : String) : Category where
  name := name
  id := freshId
  enabled := true
  createSubcontext := false
  subcontextSettings := get_default_context_config
  useCategoryDefaults := false
  categoryDefaults := []
  categoryBiasGroups := []
  settings := []

/-- The fresh entry dict opened by an `ENTRY #` line (`now` stands for
`int(datetime.now().timestamp() * 1000)`). -/
def newEntry (freshId : String) (now : Int) : Entry where
  text := ""
  contextConfig := get_default_context_config
  lastUpdatedAt := now
  displayName := ""
  id := freshId
  keys := []
  searchRange := 1000
  enabled := true
  forceActivation := false
  keyRelative := false
  nonStoryActivatable := false
  category := ""
  loreBiasGroups := []
  advancedConditions := []

/-- The bounded lookahead triggered by a `Title:` line: scan forward until a
structural boundary, take the first `Description:` line's value, and drop a
leading `Type: ` chunk. -/
def lookaheadDescription : List String → String
  | [] => ""
  | l :: rest =>
    let s := pyStrip l
    if pyStartsWith s "=" || pyStartsWith s "-" || pyStartsWith s "CONTEXT"
        || pyStartsWith s "ADVANCED" || pyStartsWith s "LORE" then ""
    else if pyStartsWith s "Description:" then
      let description := pyStrip (afterFirst ':' s)
      if pyStartsWith description "Type: " then
        if pyContainsChar description '\n' then afterFirst '\n' description else ""
      else description
    else lookaheadDescription rest

/-- Flushing an optional open entry (`if current_entry: append`). -/
def optEntry : Option Entry → List Entry
  | some e => [e]
  | none => []

/-- Flushing an optional open category (`if current_category: append`). -/
def optCategory : Option Category → List Category
  | some c => [c]
  | none => []

/-- Processing of one stripped line in the `categories` section. -/
def categoryStep (gen : Nat → String) (st : ParseState) (line : String) : ParseState :=
  if pyStartsWith line "Category:" then
    { st with
      categories := st.categories ++ optCategory st.currentCategory
      currentCategory := some (newCategory (pyStrip (afterFirst ':' line)) (gen st.uuidCount))
      uuidCount := st.uuidCount + 1 }
  else if pyStartsWith line "ID:" then
    match st.currentCategory with
    | some c => { st with currentCategory := some { c with id := pyStrip (afterFirst ':' line) } }
    | none => st
  else if pyStartsWith line "Enabled:" then
    match st.currentCategory with
    | some c =>
      { st with
        currentCategory := some { c with enabled := pyLower (pyStrip (afterFirst ':' line)) == "true" } }
    | none => st
  else if pyStartsWith line "Creates Subcontext:" then
    match st.currentCategory with
    | some c =>
      { st with
        currentCategory := some { c with createSubcontext := pyLower (pyStrip (afterFirst ':' line)) == "true" } }
    | none => st
  else st

/-- Processing of one stripped line in the `entries` section; `rest` is the
remaining line list, used only by the `Title:` lookahead. -/
def entryStep (gen : Nat → String) (now : Int) (st : ParseState) (line : String)
    (rest : List String) : ParseState :=
  if pyStartsWith line "ENTRY #" then
    { st with
      entries := st.entries ++ optEntry st.currentEntry
      currentEntry := some (newEntry (gen st.uuidCount) now)
      uuidCount := st.uuidCount + 1 }
  else
    match st.currentEntry with
    | none => st
    | some e =>
      if pyStartsWith line "Display Name:" then
        { st with currentEntry := some { e with displayName := pyStrip (afterFirst ':' line) } }
      else if pyStartsWith line "ID:" then
        { st with currentEntry := some { e with id := pyStrip (afterFirst ':' line) } }
      else if pyStartsWith line "Category:" then
        let category_line := pyStrip (afterFirst ':' line)
        if pyContainsChar category_line '(' then
          let category_id :=
            pyStrip (beforeFirst ')' ((pySplitChar '(' category_line).getD 1 ""))
          { st with currentEntry := some { e with category := category_id } }
        else
          let r := find_or_create_core (gen st.uuidCount) category_line st.categories
          let bumped := if r.2 = st.categories then st.uuidCount else st.uuidCount + 1
          { st with
            categories := r.2
            uuidCount := bumped
            currentEntry := some { e with category := r.1 } }
      else if pyStartsWith line "Activation Keys:" then
        let keys_str := pyStrip (afterFirst ':' line)
        { st with
          currentEntry := some { e with keys := (pySplitChar ',' keys_str).map pyStrip } }
      else if pyStartsWith line "Enabled:" then
        { st with
          currentEntry := some { e with enabled := pyLower (pyStrip (afterFirst ':' line)) == "true" } }
      else if pyStartsWith line "Force Activation:" then
        { st with
          currentEntry := some { e with forceActivation := pyLower (pyStrip (afterFirst ':' line)) == "true" } }
      else if pyStartsWith line "Search Range:" then
        match pyParseInt (pyStrip (afterFirst ':' line)) with
        | some n => { st with currentEntry := some { e with searchRange := n } }
        | none => st
      else if pyStartsWith line "Title:" then
        let title := pyStrip (afterFirst ':' line)
        let description := lookaheadDescription rest
        let text := "----\n" ++ title ++ "\nType: "
          ++ get_category_name e.category st.categories ++ "\n" ++ description
        { st with currentEntry := some { e with text := text } }
      else if pyStartsWith line "Token Budget:" then
        match pyParseInt (pyStrip (afterFirst ':' line)) with
        | some n =>
          { st with
            currentEntry := some { e with contextConfig := { e.contextConfig with tokenBudget := n } } }
        | none => st
      else if pyStartsWith line "Budget Priority:" then
        match pyParseInt (pyStrip (afterFirst ':' line)) with
        | some n =>
          { st with
            currentEntry := some { e with contextConfig := { e.contextConfig with budgetPriority := n } } }
        | none => st
      else if pyStartsWith line "Trim Direction:" then
        { st with
          currentEntry := some { e with
            contextConfig := { e.contextConfig with trimDirection := pyStrip (afterFirst ':' line) } } }
      else st

/-- Type inference for a settings value literal (`true`/`false` → boolean,
all-digit → integer, else string). -/
def typeValue (value : String) : SettingValue :=
  if pyLower value == "true" then .b true
  else if pyLower value == "false" then .b false
  else if pyIsDigit value then .i (digitsVal value.data)
  else .s value

/-- Processing of one stripped line in the `settings` section. -/
def settingsStep (st : ParseState) (line : String) : ParseState :=
  if pyContainsChar line ':' then
    let key := pyStrip (beforeFirst ':' line)
    let value := pyStrip (afterFirst ':' line)
    { st with settings := dictInsert key (typeValue value) st.settings }
  else st

/-- One iteration of the parser's `while` loop on line `l`; `rest` is the
remaining line list (the loop only reads ahead, never skips ahead). -/
def stepLine (gen : Nat → String) (now : Int) (st : ParseState) (l : String)
    (rest : List String) : ParseState :=
  let line := pyStrip l
  if line == "" || pyStartsWith line "=" || pyStartsWith line "-" then st
  else if pyStartsWith line "Version:" then
    match pyParseInt (pyStrip (afterFirst ':' line)) with
    | some n => { st with version := n }
    | none => st
  else if line == "CATEGORIES" then { st with currentSection := some .categories }
  else if line == "LORE ENTRIES" then { st with currentSection := some .entries }
  else if line == "SETTINGS" then { st with currentSection := some .settings }
  else
    match st.currentSection with
    | some .categories => categoryStep gen st line
    | some .entries => entryStep gen now st line rest
    | some .settings => settingsStep st line
    | none => st

/-- The parser's main loop over the line list. -/
def processLines (gen : Nat → String) (now : Int) (st : ParseState) :
    List String → ParseState
  | [] => st
  | l :: rest => processLines gen now (stepLine gen now st l rest) rest

/-- The initial parse state (`lorebook = {...}` at the top of the parser). -/
def initState : ParseState where
  version := 6
  entries := []
  categories := []
  settings := [("orderByKeyLocations", .b false)]
  currentSection := none
  currentEntry := none
  currentCategory := none
  uuidCount := 0

/-- Final flush: any still-open entry and category are appended. -/
def finishParse (st : ParseState) : Lorebook where
  lorebookVersion := st.version
  entries := st.entries ++ optEntry st.currentEntry
  categories := st.categories ++ optCategory st.currentCategory
  settings := st.settings

/-- `_parse_txt_content` on an already-split line list. -/
def parseLines (gen : Nat → String) (now : Int) (lines : List String) : Lorebook :=
  finishParse (processLines gen now initState lines)

/-- `LorebookConverter._parse_txt_content`: split on newlines, run the state
machine, flush. -/
def parse_txt_content (gen : Nat → String) (now : Int) (txt_content : String) : Lorebook :=
  parseLines gen now (pySplitChar '\n' txt_content)


/-! ## Derived definitions: representability, invariants, checker, examples -/

/-- `optSp v` is the stripped remainder of `" " ++ v` as it appears after a
field label: empty when `v` is empty, else the space plus `v`. -/
def optSp (v : String) : String := if v = "" then "" else " " ++ v

/-- Validity of an original settings value for the text round trip. -/
def settingValOK : SettingValue → Prop
  | .b _ => True
  | .i n => 0 ≤ n
  | .s v => stripData v.data = v.data ∧ ¬ '\n' ∈ v.data
      ∧ pyLower v ≠ "true" ∧ pyLower v ≠ "false" ∧ pyIsDigit v = false

instance (sv : SettingValue) : Decidable (settingValOK sv) := by
  cases sv <;> simp only [settingValOK] <;> infer_instance

/-- All the falsity checks an entries-section noise line must pass, bundled
into one decidable test. -/
def entryNoiseCheck (S : String) : Bool :=
  !(S == "") && !pyStartsWith S "=" && !pyStartsWith S "-"
  && !pyStartsWith S "Version:"
  && !(S == "CATEGORIES") && !(S == "LORE ENTRIES") && !(S == "SETTINGS")
  && !pyStartsWith S "ENTRY #" && !pyStartsWith S "Display Name:"
  && !pyStartsWith S "ID:" && !pyStartsWith S "Category:"
  && !pyStartsWith S "Activation Keys:" && !pyStartsWith S "Enabled:"
  && !pyStartsWith S "Force Activation:" && !pyStartsWith S "Search Range:"
  && !pyStartsWith S "Title:" && !pyStartsWith S "Token Budget:"
  && !pyStartsWith S "Budget Priority:" && !pyStartsWith S "Trim Direction:"

/-- A category whose serialized block parses back to the same value. -/
def RepresentableCategory (c : Category) : Prop :=
  stripData c.name.data = c.name.data ∧ c.name ≠ "" ∧ ¬ '\n' ∈ c.name.data
  ∧ ¬ '(' ∈ c.name.data
  ∧ stripData c.id.data = c.id.data ∧ ¬ '\n' ∈ c.id.data
  ∧ c.createSubcontext = false
  ∧ c.subcontextSettings = get_default_context_config
  ∧ c.useCategoryDefaults = false ∧ c.categoryDefaults = [] ∧ c.categoryBiasGroups = []
  ∧ c.settings = []

instance (c : Category) : Decidable (RepresentableCategory c) := by
  unfold RepresentableCategory
  infer_instance

/-- An entry whose serialized block parses back to the same value (up to the
re-stamped `lastUpdatedAt`). -/
def RepresentableEntry (e : Entry) : Prop :=
  stripData e.displayName.data = e.displayName.data ∧ ¬ '\n' ∈ e.displayName.data
  ∧ stripData e.id.data = e.id.data ∧ ¬ '\n' ∈ e.id.data
  ∧ stripData e.category.data = e.category.data ∧ ¬ '\n' ∈ e.category.data
  ∧ ¬ '(' ∈ e.category.data ∧ ¬ ')' ∈ e.category.data
  ∧ e.keys ≠ []
  ∧ (∀ k ∈ e.keys, stripData k.data = k.data ∧ k ≠ "" ∧ ¬ ',' ∈ k.data ∧ ¬ '\n' ∈ k.data)
  ∧ e.text = ""
  ∧ e.keyRelative = false ∧ e.nonStoryActivatable = false
  ∧ e.advancedConditions = [] ∧ e.loreBiasGroups = []
  ∧ e.contextConfig.prefixStr = "" ∧ e.contextConfig.suffix = "\n"
  ∧ e.contextConfig.reservedTokens = 0
  ∧ e.contextConfig.insertionType = "newline"
  ∧ e.contextConfig.maximumTrimType = "sentence"
  ∧ e.contextConfig.insertionPosition = -1
  ∧ stripData e.contextConfig.trimDirection.data = e.contextConfig.trimDirection.data
  ∧ ¬ '\n' ∈ e.contextConfig.trimDirection.data

instance (e : Entry) : Decidable (RepresentableEntry e) := by
  unfold RepresentableEntry
  infer_instance

/-- A settings key the text form can carry faithfully. -/
def RepresentableSettingKey (k : String) : Prop :=
  stripData k.data = k.data ∧ k.data ≠ [] ∧ ¬ ':' ∈ k.data ∧ ¬ '\n' ∈ k.data
  ∧ k ≠ "Version"
  ∧ k.data.head? ≠ some '=' ∧ k.data.head? ≠ some '-'

instance (k : String) : Decidable (RepresentableSettingKey k) := by
  unfold RepresentableSettingKey
  infer_instance

/-- A settings map the text form can carry faithfully: the parser seeds
`orderByKeyLocations`, so it must be the first key; keys are unique. -/
def RepresentableSettings (s : List (String × SettingValue)) : Prop :=
  (∃ v0 srest, s = ("orderByKeyLocations", v0) :: srest)
  ∧ (s.map Prod.fst).Nodup
  ∧ ∀ p ∈ s, RepresentableSettingKey p.1 ∧ settingValOK p.2

instance (s : List (String × SettingValue)) : Decidable (RepresentableSettings s) := by
  unfold RepresentableSettings
  have : Decidable (∃ v0 srest, s = ("orderByKeyLocations", v0) :: srest) := by
    cases s with
    | nil => exact isFalse (by simp)
    | cons p t =>
      by_cases hp : p.1 = "orderByKeyLocations"
      · exact isTrue ⟨p.2, t, by rw [← hp]⟩
      · exact isFalse (by
          rintro ⟨v0, srest, he⟩
          apply hp
          injection he with h1 _
          rw [h1])
  infer_instance

/-- A lorebook the text round trip preserves (up to `lastUpdatedAt`). -/
def RepresentableLorebook (L : Lorebook) : Prop :=
  (∀ c ∈ L.categories, RepresentableCategory c)
  ∧ (∀ e ∈ L.entries, RepresentableEntry e)
  ∧ RepresentableSettings L.settings

instance (L : Lorebook) : Decidable (RepresentableLorebook L) := by
  unfold RepresentableLorebook
  infer_instance

/-- The per-entry `lastUpdatedAt` re-stamp applied by the parser. -/
def stampEntry (now : Int) (e : Entry) : Entry := { e with lastUpdatedAt := now }

/-- The falsity checks a no-section noise line must pass. -/
def noneNoiseCheck (S : String) : Bool :=
  !(S == "") && !pyStartsWith S "=" && !pyStartsWith S "-"
  && !pyStartsWith S "Version:"
  && !(S == "CATEGORIES") && !(S == "LORE ENTRIES") && !(S == "SETTINGS")

/-- The `for line in lines` loop of `extract_entry_info`, threading the
`title`, `entry_type` and `description` accumulators. -/
def extractLoop : List String → String → String → String → String × String × String
  | [], title, entry_type, description => (title, entry_type, description)
  | line :: rest, title, entry_type, description =>
    if pyStartsWith line "----" then extractLoop rest title entry_type description
    else if pyStartsWith line "Type:" then
      extractLoop rest title (pyLower (pyStrip (pyReplace "Type:" "" line))) description
    else if pyStrip line != "" && !pyStartsWith line "Type:" then
      if title = "" then extractLoop rest (pyStrip line) entry_type description
      else extractLoop rest title entry_type (description ++ pyStrip line ++ " ")
    else extractLoop rest title entry_type description

/-- `FinalSimpleKeySanityChecker.extract_entry_info` on the entry's `text` and
`displayName` fields. -/
def extract_entry_info (text display_name : String) : String × String × String :=
  let lines := pySplitChar '\n' text
  let r := extractLoop lines "" "" ""
  let title := if r.1 = "" ∧ display_name ≠ "" then display_name else r.1
  (title, r.2.1, pyStrip r.2.2)

/-- The checker's `type_patterns` dict. -/
def type_patterns : List (String × List String) :=
  [("character", ["character", "characters", "person", "people", "individual",
      "npc", "protagonist", "antagonist"]),
   ("organization", ["organization", "organisation", "group", "faction", "guild",
      "cult", "company", "order", "society", "clan", "organizations"]),
   ("location", ["location", "locations", "place", "area", "region", "site",
      "spot", "venue", "destination"]),
   ("item", ["item", "items", "object", "objects", "artifact", "artifacts",
      "equipment", "gear", "tool", "weapon", "weaponry"]),
   ("race", ["race", "races", "species", "subrace", "subspecies"])]

/-- `FinalSimpleKeySanityChecker.get_entry_type_category`. -/
def get_entry_type_category (entry_type : String) : String :=
  let entry_type_lower := pyLower entry_type
  match type_patterns.find? (fun p => p.2.contains entry_type_lower) with
  | some p => p.1
  | none => "other"

/-- `FinalSimpleKeySanityChecker.should_check_entry`. -/
def should_check_entry (entry_type : String) : Bool :=
  ["character", "organization", "location", "item", "race"].contains
    (get_entry_type_category entry_type)

/-- The six context-config fields that no parser rule mutates. -/
def defaultCfgInv (e : Entry) : Prop :=
  e.contextConfig.prefixStr = "" ∧ e.contextConfig.suffix = "\n"
  ∧ e.contextConfig.reservedTokens = 0 ∧ e.contextConfig.insertionType = "newline"
  ∧ e.contextConfig.maximumTrimType = "sentence"
  ∧ e.contextConfig.insertionPosition = -1

instance (e : Entry) : Decidable (defaultCfgInv e) := by
  unfold defaultCfgInv
  infer_instance

/-- The invariant over the parse state: all closed and open entries. -/
def stateCfgInv (st : ParseState) : Prop :=
  (∀ e ∈ st.entries, defaultCfgInv e)
  ∧ (∀ e, st.currentEntry = some e → defaultCfgInv e)

/-- The seeded settings key is present. -/
def hasOBKL (st : ParseState) : Prop :=
  "orderByKeyLocations" ∈ st.settings.map Prod.fst

/-- The section transition a line causes: everything `stepLine` ever does to
`currentSection`. -/
def sectionStep (sec : Option SectionState) (l : String) : Option SectionState :=
  let line := pyStrip l
  if line == "" || pyStartsWith line "=" || pyStartsWith line "-" then sec
  else if pyStartsWith line "Version:" then sec
  else if line == "CATEGORIES" then some SectionState.categories
  else if line == "LORE ENTRIES" then some SectionState.entries
  else if line == "SETTINGS" then some SectionState.settings
  else sec

/-- A line that, processed while `sec` is the current section, writes the
`orderByKeyLocations` settings key: the settings section is active, the
stripped line carries a colon, and the part before the colon strips to
exactly that key. -/
def isOverrideAt (sec : Option SectionState) (l : String) : Prop :=
  sec = some SectionState.settings ∧ pyContainsChar (pyStrip l) ':' = true
  ∧ pyStrip (beforeFirst ':' (pyStrip l)) = "orderByKeyLocations"

/-- Some line of the list, in the section current when it is reached, writes
the `orderByKeyLocations` key. -/
def OverrideInLines : Option SectionState → List String → Prop
  | _, [] => False
  | sec0, l :: rest => isOverrideAt sec0 l ∨ OverrideInLines (sectionStep sec0 l) rest

/-- The seeded key still maps to its seeded value `False`. -/
def obklFalse (st : ParseState) : Prop :=
  st.settings.find? (fun p => p.1 == "orderByKeyLocations")
    = some ("orderByKeyLocations", SettingValue.b false)

/-- The uuid4 stub used in concrete runs. -/
def uuidStub : Nat → String := fun _ => "u"

/-- A representable lorebook exercising every section. -/
def C1wit_book : Lorebook :=
  ⟨7,
   [⟨"", { get_default_context_config with tokenBudget := 250 }, 3, "Hero", "eid1",
      ["sword", "magic sword"], 2000, true, false, false, false, "cid1", [], []⟩],
   [⟨"People", "cid1", true, false, get_default_context_config, false, [], [], []⟩],
   [("orderByKeyLocations", SettingValue.b true), ("customSetting", SettingValue.i 5)]⟩

/-- A lorebook inside the claim's stated scope (resolved category id, no
comma-bearing keys, no pass-through category fields, nonempty ids, timestamp
equal to the parse-time stamp) whose round trip still differs: empty `keys`
come back as `[""]`. -/
def C1ex_book : Lorebook :=
  ⟨6,
   [⟨"", get_default_context_config, 0, "Town", "eid", [], 1000, true, false,
      false, false, "cid", [], []⟩],
   [⟨"Place", "cid", true, false, get_default_context_config, false, [], [], []⟩],
   [("orderByKeyLocations", SettingValue.b false)]⟩

/-- A lorebook whose single entry carries an unresolved category id. -/
def C2ex_book : Lorebook :=
  ⟨6,
   [⟨"", get_default_context_config, 0, "Orphan", "eid2", ["k"], 1000, true,
      false, false, false, "ghost", [], []⟩],
   [],
   [("orderByKeyLocations", SettingValue.b false)]⟩

/-- A lorebook with one category that creates a subcontext. -/
def C3ex_book : Lorebook :=
  ⟨6, [],
   [⟨"Sub", "cid3", true, true, get_default_context_config, false, [], [], []⟩],
   [("orderByKeyLocations", SettingValue.b false)]⟩

/-- The open-entry state the skip/fallback witness runs in. -/
def C4wit_state : ParseState :=
  ⟨6, [], [], [], some SectionState.entries, some (newEntry "e" 0), none, 0⟩

/-! ## Lemma toolkit: stripping -/

theorem rdrop_append (l₁ l₂ : List Char) :
    rdrop (l₁ ++ l₂) = if rdrop l₂ = [] then rdrop l₁ else l₁ ++ rdrop l₂ := by
  unfold rdrop
  rw [List.reverse_append, List.dropWhile_append]
  by_cases h : (l₂.reverse.dropWhile isPyWs).isEmpty
  · rw [if_pos h]
    have h2 : l₂.reverse.dropWhile isPyWs = [] := by
      simpa [List.isEmpty_iff] using h
    simp [h2]
  · rw [if_neg h]
    have h2 : l₂.reverse.dropWhile isPyWs ≠ [] := by
      simpa [List.isEmpty_iff] using h
    have h3 : ¬((l₂.reverse.dropWhile isPyWs).reverse = []) := by
      simpa using h2
    simp [h3, List.reverse_append]

theorem ldrop_length_le (l : List Char) : (ldrop l).length ≤ l.length :=
  List.IsSuffix.length_le (List.dropWhile_suffix _)

theorem rdrop_length_le (l : List Char) : (rdrop l).length ≤ l.length := by
  unfold rdrop
  have := List.IsSuffix.length_le (List.dropWhile_suffix (l := l.reverse) isPyWs)
  simpa using this

theorem ldrop_eq_self_of_strip (l : List Char) (h : stripData l = l) : ldrop l = l := by
  have h1 : (stripData l).length ≤ (ldrop l).length := rdrop_length_le _
  have h2 : (ldrop l).length ≤ l.length := ldrop_length_le l
  have h3 : (ldrop l).length = l.length := by rw [h] at h1; omega
  exact List.IsSuffix.eq_of_length (List.dropWhile_suffix _) h3

theorem rdrop_eq_self_of_strip (l : List Char) (h : stripData l = l) : rdrop l = l := by
  have h1 := ldrop_eq_self_of_strip l h
  unfold stripData at h
  rwa [h1] at h

theorem stripData_of_parts (l : List Char) (h1 : ldrop l = l) (h2 : rdrop l = l) :
    stripData l = l := by
  unfold stripData
  rw [h1, h2]

theorem ldrop_cons_of_not_ws (a : Char) (l : List Char) (h : isPyWs a = false) :
    ldrop (a :: l) = a :: l := by
  simp [ldrop, List.dropWhile_cons, h]

theorem head_not_ws_of_strip (a : Char) (l : List Char) (h : stripData (a :: l) = a :: l) :
    isPyWs a = false := by
  have h1 := ldrop_eq_self_of_strip _ h
  by_contra hcon
  have ha : isPyWs a = true := by
    cases hb : isPyWs a
    · exact absurd hb hcon
    · rfl
  have : ldrop (a :: l) = ldrop l := by simp [ldrop, List.dropWhile_cons, ha]
  rw [h1] at this
  have hlen : (ldrop l).length ≤ l.length := ldrop_length_le l
  rw [← this] at hlen
  simp at hlen

/-- The compositional strip lemma: prefixing a strip-stable non-empty chunk
to a strip-stable chunk is strip-stable. -/
theorem stripData_concat (p v : List Char) (hp : stripData p = p) (hpne : p ≠ [])
    (hv : stripData v = v) : stripData (p ++ v) = p ++ v := by
  have hlp := ldrop_eq_self_of_strip p hp
  have hrp := rdrop_eq_self_of_strip p hp
  have hrv := rdrop_eq_self_of_strip v hv
  unfold stripData ldrop
  rw [List.dropWhile_append]
  have hlpe : (List.dropWhile isPyWs p).isEmpty = false := by
    rw [show List.dropWhile isPyWs p = p from hlp]
    simpa [List.isEmpty_iff] using hpne
  rw [hlpe]
  simp only [Bool.false_eq_true, if_false]
  rw [show List.dropWhile isPyWs p = p from hlp]
  rw [rdrop_append]
  by_cases hve : v = []
  · subst hve
    rw [show rdrop ([] : List Char) = [] from rfl, if_pos rfl, hrp, List.append_nil]
  · rw [hrv, if_neg hve]

/-- Stripping a field line `p ++ " " ++ v` (label `p` ending in the colon,
one separating space, strip-stable value `v`). -/
theorem stripData_label (p v : List Char) (hp : stripData p = p) (hpne : p ≠ [])
    (hv : stripData v = v) :
    stripData (p ++ ' ' :: v) = p ++ (if v = [] then [] else ' ' :: v) := by
  have hlp := ldrop_eq_self_of_strip p hp
  have hrp := rdrop_eq_self_of_strip p hp
  have hrv := rdrop_eq_self_of_strip v hv
  unfold stripData ldrop
  rw [show p ++ ' ' :: v = p ++ ([' '] ++ v) by simp]
  rw [List.dropWhile_append]
  have hlpe : (List.dropWhile isPyWs p).isEmpty = false := by
    rw [show List.dropWhile isPyWs p = p from hlp]
    simpa [List.isEmpty_iff] using hpne
  rw [hlpe]
  simp only [Bool.false_eq_true, if_false]
  rw [show List.dropWhile isPyWs p = p from hlp]
  rw [rdrop_append, rdrop_append]
  by_cases hve : v = []
  · subst hve
    rw [show rdrop ([] : List Char) = [] from rfl, if_pos rfl,
        show rdrop ([' '] : List Char) = [] from rfl, if_pos rfl, hrp]
    simp
  · rw [hrv, if_neg hve]
    have h2 : ¬([' '] ++ v = []) := by simp
    rw [if_neg h2, if_neg hve]
    simp

theorem string_eq_empty_iff_data (v : String) : v = "" ↔ v.data = [] := by
  constructor
  · intro h; subst h; rfl
  · intro h; apply String.ext; simpa using h

theorem data_pyStrip (s : String) : (pyStrip s).data = stripData s.data := rfl

theorem pyStrip_label_value (lab v : String)
    (hlab : stripData lab.data = lab.data) (hlabne : lab.data ≠ [])
    (hv : stripData v.data = v.data) :
    pyStrip (lab ++ " " ++ v) = lab ++ optSp v := by
  apply String.ext
  have hd : (lab ++ " " ++ v).data = lab.data ++ ' ' :: v.data := by
    simp [String.data_append]
  have hd2 : (lab ++ optSp v).data
      = lab.data ++ (if v.data = [] then [] else ' ' :: v.data) := by
    by_cases hve : v = ""
    · have hvd : v.data = [] := (string_eq_empty_iff_data v).mp hve
      simp [optSp, hve, hvd]
    · have hvd : v.data ≠ [] := fun h => hve ((string_eq_empty_iff_data v).mpr h)
      simp [optSp, hve, hvd, String.data_append]
  rw [data_pyStrip, hd, hd2]
  rw [stripData_label lab.data v.data hlab hlabne hv]

theorem pyStrip_optSp (v : String) (hv : stripData v.data = v.data) :
    pyStrip (optSp v) = v := by
  by_cases hve : v = ""
  · simp [optSp, hve]; rfl
  · apply String.ext
    show stripData (optSp v).data = v.data
    have hvd : v.data ≠ [] := fun h => hve ((string_eq_empty_iff_data v).mpr h)
    simp only [optSp, if_neg hve, String.data_append]
    show stripData ([' '] ++ v.data) = v.data
    unfold stripData ldrop
    rw [List.dropWhile_append]
    have h1 : (List.dropWhile isPyWs [' ']).isEmpty = true := by decide
    rw [h1]
    simp only [if_true]
    rw [show List.dropWhile isPyWs v.data = v.data from ldrop_eq_self_of_strip _ hv]
    exact rdrop_eq_self_of_strip _ hv

theorem pyStrip_of_stable (v : String) (hv : stripData v.data = v.data) : pyStrip v = v :=
  String.ext hv

/-! ## Lemma toolkit: first-colon splitting -/

theorem breakAtChar_not_mem (c : Char) (l : List Char) (h : ¬ c ∈ l) :
    breakAtChar c l = (l, none) := by
  induction l with
  | nil => rfl
  | cons x xs ih =>
    have hx : ¬(x = c) := by
      intro he; exact h (by simp [he])
    have hxs : ¬ c ∈ xs := fun hm => h (by simp [hm])
    simp [breakAtChar, hx, ih hxs]

theorem breakAtChar_append_first (c : Char) (w t : List Char) (hw : ¬ c ∈ w) :
    breakAtChar c (w ++ c :: t) = (w, some t) := by
  induction w with
  | nil => simp [breakAtChar]
  | cons x xs ih =>
    have hx : ¬(x = c) := by
      intro he; exact hw (by simp [he])
    have hxs : ¬ c ∈ xs := fun hm => hw (by simp [hm])
    simp [breakAtChar, hx, ih hxs]

/-- The value extracted from a stripped field line `w ++ ":" ++ optSp v` is
exactly `v` when the label part `w` is colon-free and `v` is strip-stable. -/
theorem afterFirst_label (w v : String) (hw : ¬ ':' ∈ w.data)
    (hv : stripData v.data = v.data) :
    pyStrip (afterFirst ':' (w ++ ":" ++ optSp v)) = v := by
  have hd : (w ++ ":" ++ optSp v).data = w.data ++ ':' :: (optSp v).data := by
    simp [String.data_append]
  rw [show afterFirst ':' (w ++ ":" ++ optSp v)
        = ⟨((breakAtChar ':' (w.data ++ ':' :: (optSp v).data)).2).getD []⟩ by
      unfold afterFirst; rw [hd]]
  rw [breakAtChar_append_first ':' w.data (optSp v).data hw]
  show pyStrip (optSp v) = v
  exact pyStrip_optSp v hv

/-! ## Lemma toolkit: decimal integers -/

theorem digitChar_isDigit (d : Nat) (h : d < 10) : (digitChar d).isDigit = true := by
  interval_cases d <;> decide

theorem digitVal_digitChar (d : Nat) (h : d < 10) : digitVal (digitChar d) = d := by
  interval_cases d <;> decide

theorem natDigitsRevAux_irrel (n : Nat) :
    ∀ f, n < f → natDigitsRevAux f n = natDigitsRevAux (n + 1) n := by
  induction n using Nat.strong_induction_on with
  | _ n ih =>
    intro f hf
    cases f with
    | zero => omega
    | succ f =>
      show (if n < 10 then [digitChar n]
          else digitChar (n % 10) :: natDigitsRevAux f (n / 10))
        = (if n < 10 then [digitChar n]
          else digitChar (n % 10) :: natDigitsRevAux n (n / 10))
      by_cases h10 : n < 10
      · rw [if_pos h10, if_pos h10]
      · rw [if_neg h10, if_neg h10]
        have hd : n / 10 < n := Nat.div_lt_self (by omega) (by omega)
        rw [ih (n / 10) hd f (by omega), ih (n / 10) hd n (by omega)]

/-- The defining equation of `natDigitsRev`, fuel eliminated. -/
theorem natDigitsRev_eq (n : Nat) :
    natDigitsRev n = if n < 10 then [digitChar n]
      else digitChar (n % 10) :: natDigitsRev (n / 10) := by
  show (if n < 10 then [digitChar n]
      else digitChar (n % 10) :: natDigitsRevAux n (n / 10)) = _
  by_cases h10 : n < 10
  · rw [if_pos h10, if_pos h10]
  · rw [if_neg h10, if_neg h10]
    have hd : n / 10 < n := Nat.div_lt_self (by omega) (by omega)
    rw [natDigitsRevAux_irrel (n / 10) n hd]
    rfl

theorem natDigitsRev_all_digits (n : Nat) :
    ∀ c ∈ natDigitsRev n, c.isDigit = true := by
  induction n using Nat.strong_induction_on with
  | _ n ih =>
    rw [natDigitsRev_eq]
    split
    · rename_i h
      intro c hc
      simp only [List.mem_singleton] at hc
      subst hc
      exact digitChar_isDigit n h
    · rename_i h
      intro c hc
      rcases List.mem_cons.mp hc with h1 | h1
      · subst h1
        exact digitChar_isDigit (n % 10) (Nat.mod_lt _ (by omega))
      · exact ih (n / 10) (Nat.div_lt_self (by omega) (by omega)) c h1

theorem natDigitsRev_ne_nil (n : Nat) : natDigitsRev n ≠ [] := by
  rw [natDigitsRev_eq]
  split <;> simp

theorem digitsValRev_natDigitsRev (n : Nat) : digitsValRev (natDigitsRev n) = n := by
  induction n using Nat.strong_induction_on with
  | _ n ih =>
    rw [natDigitsRev_eq]
    split
    · rename_i h
      simp [digitsValRev, digitVal_digitChar n h]
    · rename_i h
      have h2 := ih (n / 10) (Nat.div_lt_self (by omega) (by omega))
      simp only [digitsValRev, digitVal_digitChar (n % 10) (Nat.mod_lt _ (by omega)), h2]
      omega

theorem digitsVal_pyStrNat (n : Nat) : digitsVal (pyStrNat n).data = n := by
  show digitsValRev (natDigitsRev n).reverse.reverse = n
  rw [List.reverse_reverse]
  exact digitsValRev_natDigitsRev n

theorem pyStrNat_all_digits (n : Nat) : ∀ c ∈ (pyStrNat n).data, c.isDigit = true := by
  intro c hc
  have h2 : c ∈ (natDigitsRev n).reverse := hc
  exact natDigitsRev_all_digits n c (List.mem_reverse.mp h2)

theorem pyStrNat_ne_empty (n : Nat) : (pyStrNat n).data ≠ [] := by
  show (natDigitsRev n).reverse ≠ []
  simpa using natDigitsRev_ne_nil n

theorem not_ws_of_isDigit (c : Char) (h : c.isDigit = true) : isPyWs c = false := by
  have h1 : c ≠ ' ' := fun he => by subst he; exact absurd h (by decide)
  have h2 : c ≠ '\t' := fun he => by subst he; exact absurd h (by decide)
  have h3 : c ≠ '\n' := fun he => by subst he; exact absurd h (by decide)
  have h4 : c ≠ '\x0d' := fun he => by subst he; exact absurd h (by decide)
  have h5 : c ≠ '\x0b' := fun he => by subst he; exact absurd h (by decide)
  have h6 : c ≠ '\x0c' := fun he => by subst he; exact absurd h (by decide)
  simp [isPyWs, h1, h2, h3, h4, h5, h6]

theorem dropWhile_eq_self_of_all (l : List Char) (h : ∀ c ∈ l, isPyWs c = false) :
    List.dropWhile isPyWs l = l := by
  cases l with
  | nil => rfl
  | cons a l => simp [List.dropWhile_cons, h a (by simp)]

theorem stripData_of_all_not_ws (l : List Char) (h : ∀ c ∈ l, isPyWs c = false) :
    stripData l = l := by
  unfold stripData ldrop rdrop
  rw [dropWhile_eq_self_of_all l h,
      dropWhile_eq_self_of_all l.reverse (fun c hc => h c (by simpa using hc)),
      List.reverse_reverse]

theorem stripData_pyStrNat (n : Nat) :
    stripData (pyStrNat n).data = (pyStrNat n).data :=
  stripData_of_all_not_ws _ (fun c hc => not_ws_of_isDigit c (pyStrNat_all_digits n c hc))

theorem stripData_pyStrInt (i : Int) :
    stripData (pyStrInt i).data = (pyStrInt i).data := by
  unfold pyStrInt
  split
  · apply stripData_of_all_not_ws
    intro c hc
    rw [String.data_append] at hc
    rcases List.mem_append.mp hc with h1 | h1
    · have : c = '-' := by simpa using h1
      subst this; decide
    · exact not_ws_of_isDigit c (pyStrNat_all_digits _ c h1)
  · exact stripData_pyStrNat _

theorem pyParseIntCore_cons (c : Char) (ds : List Char) :
    pyParseIntCore (c :: ds) =
      if c = '-' then
        (if ds ≠ [] ∧ ds.all Char.isDigit then some (-(digitsVal ds : Int)) else none)
      else if c = '+' then
        (if ds ≠ [] ∧ ds.all Char.isDigit then some (digitsVal ds) else none)
      else if (c :: ds).all Char.isDigit then some (digitsVal (c :: ds)) else none := rfl

theorem pyParseInt_pyStrNat (n : Nat) : pyParseInt (pyStrNat n) = some (n : Int) := by
  unfold pyParseInt
  rw [stripData_pyStrNat]
  rcases hd : (pyStrNat n).data with _ | ⟨c, ds⟩
  · exact absurd hd (pyStrNat_ne_empty n)
  · have hall : (c :: ds).all Char.isDigit = true := by
      rw [List.all_eq_true]
      intro x hx
      exact pyStrNat_all_digits n x (by rw [hd]; exact hx)
    have hcd : c.isDigit = true := by
      have := List.all_eq_true.mp hall c (by simp)
      simpa using this
    have hc1 : ¬(c = '-') := fun he => by subst he; exact absurd hcd (by decide)
    have hc2 : ¬(c = '+') := fun he => by subst he; exact absurd hcd (by decide)
    rw [pyParseIntCore_cons, if_neg hc1, if_neg hc2, if_pos hall]
    have h3 : digitsVal (c :: ds) = n := by
      rw [← hd]; exact digitsVal_pyStrNat n
    rw [h3]

theorem pyParseInt_pyStrInt (i : Int) : pyParseInt (pyStrInt i) = some i := by
  by_cases h : i < 0
  · unfold pyParseInt
    rw [stripData_pyStrInt]
    unfold pyStrInt
    rw [if_pos h]
    have hd : (("-" : String) ++ pyStrNat i.natAbs).data = '-' :: (pyStrNat i.natAbs).data := by
      simp [String.data_append]
    rw [hd, pyParseIntCore_cons]
    have hall : (pyStrNat i.natAbs).data.all Char.isDigit = true := by
      rw [List.all_eq_true]
      exact fun x hx => pyStrNat_all_digits _ x hx
    rw [if_pos rfl, if_pos ⟨pyStrNat_ne_empty _, hall⟩, digitsVal_pyStrNat]
    congr 1
    omega
  · have h2 : pyStrInt i = pyStrNat i.toNat := by
      unfold pyStrInt
      rw [if_neg h]
    rw [h2, pyParseInt_pyStrNat]
    congr 1
    omega

/-! ## Lemma toolkit: splitting and joining -/

theorem splitCharData_not_mem (c : Char) (l : List Char) (h : ¬ c ∈ l) :
    splitCharData c l = [l] := by
  induction l with
  | nil => rfl
  | cons x xs ih =>
    have hx : ¬(x = c) := fun he => h (by simp [he])
    have hxs : ¬ c ∈ xs := fun hm => h (by simp [hm])
    simp [splitCharData, hx, ih hxs]

theorem splitCharData_ne_nil (c : Char) (l : List Char) : splitCharData c l ≠ [] := by
  cases l with
  | nil => simp [splitCharData]
  | cons x xs =>
    simp only [splitCharData]
    split
    · simp
    · split
      · simp
      · simp

theorem splitCharData_cons (c x : Char) (l : List Char) :
    splitCharData c (x :: l) =
      if x = c then [] :: splitCharData c l
      else
        match splitCharData c l with
        | y :: ys => (x :: y) :: ys
        | [] => [[x]] := rfl

theorem splitCharData_append_cons (c : Char) (w t : List Char) (hw : ¬ c ∈ w) :
    splitCharData c (w ++ c :: t) = w :: splitCharData c t := by
  induction w with
  | nil => simp [splitCharData]
  | cons x xs ih =>
    have hx : ¬(x = c) := fun he => hw (by simp [he])
    have hxs : ¬ c ∈ xs := fun hm => hw (by simp [hm])
    rw [List.cons_append, splitCharData_cons, if_neg hx, ih hxs]

theorem mk_data (s : String) : String.mk s.data = s := rfl

/-- Join/split cancellation on newlines: splitting the `'\n'.join` of
newline-free lines recovers the lines. -/
theorem pySplitChar_pyJoin_newline (lines : List String)
    (h : ∀ l ∈ lines, ¬ '\n' ∈ l.data) (hne : lines ≠ []) :
    pySplitChar '\n' (pyJoin "\n" lines) = lines := by
  induction lines with
  | nil => exact absurd rfl hne
  | cons x xs ih =>
    cases xs with
    | nil =>
      show (splitCharData '\n' x.data).map String.mk = [x]
      rw [splitCharData_not_mem '\n' x.data (h x (by simp))]
      simp [mk_data]
    | cons y ys =>
      have hx : ¬ '\n' ∈ x.data := h x (by simp)
      have hxs : ∀ l ∈ y :: ys, ¬ '\n' ∈ l.data := fun l hl => h l (by simp [hl])
      have ihx := ih hxs (by simp)
      show (splitCharData '\n' (x ++ "\n" ++ pyJoin "\n" (y :: ys)).data).map String.mk
          = x :: y :: ys
      have hd : (x ++ "\n" ++ pyJoin "\n" (y :: ys)).data
          = x.data ++ '\n' :: (pyJoin "\n" (y :: ys)).data := by
        simp [String.data_append]
      rw [hd, splitCharData_append_cons '\n' x.data _ hx]
      simp only [List.map_cons, mk_data]
      congr 1

theorem stripData_cons_ws (a : Char) (l : List Char) (h : isPyWs a = true) :
    stripData (a :: l) = stripData l := by
  unfold stripData ldrop
  rw [List.dropWhile_cons, if_pos h]

/-- Parsing back a comma-space-joined key list: splitting on commas and
stripping each piece recovers the keys, provided each key is strip-stable and
comma-free. -/
theorem parse_keys_join (keys : List String)
    (h : ∀ k ∈ keys, stripData k.data = k.data ∧ ¬ ',' ∈ k.data) (hne : keys ≠ []) :
    (pySplitChar ',' (pyJoin ", " keys)).map pyStrip = keys := by
  induction keys with
  | nil => exact absurd rfl hne
  | cons x xs ih =>
    cases xs with
    | nil =>
      show ((splitCharData ',' x.data).map String.mk).map pyStrip = [x]
      rw [splitCharData_not_mem ',' x.data (h x (by simp)).2]
      simp [mk_data, pyStrip_of_stable x (h x (by simp)).1]
    | cons y ys =>
      have hx := h x (by simp)
      have hxs : ∀ k ∈ y :: ys, stripData k.data = k.data ∧ ¬ ',' ∈ k.data :=
        fun k hk => h k (by simp [hk])
      have ihx := ih hxs (by simp)
      show ((splitCharData ',' (x ++ ", " ++ pyJoin ", " (y :: ys)).data).map String.mk).map pyStrip
          = x :: y :: ys
      have hd : (x ++ ", " ++ pyJoin ", " (y :: ys)).data
          = x.data ++ ',' :: (' ' :: (pyJoin ", " (y :: ys)).data) := by
        simp [String.data_append]
      rw [hd, splitCharData_append_cons ',' x.data _ hx.2]
      simp only [List.map_cons, mk_data, pyStrip_of_stable x hx.1]
      congr 1
      -- splitting " " ++ join: the leading space sticks to the first chunk
      -- and is removed by the per-piece strip
      rcases hsp : splitCharData ',' (pyJoin ", " (y :: ys)).data with _ | ⟨z, zs⟩
      · exact absurd hsp (splitCharData_ne_nil _ _)
      · have hstep : splitCharData ',' (' ' :: (pyJoin ", " (y :: ys)).data)
            = (' ' :: z) :: zs := by
          simp only [splitCharData, hsp]
          rw [if_neg (by decide)]
        rw [hstep]
        have hys : ((splitCharData ',' (pyJoin ", " (y :: ys)).data).map String.mk).map pyStrip
            = y :: ys := ihx
        rw [hsp] at hys
        simp only [List.map_cons] at hys ⊢
        have hz : pyStrip ⟨' ' :: z⟩ = pyStrip ⟨z⟩ := by
          apply String.ext
          exact stripData_cons_ws ' ' z (by decide)
        rw [hz]
        exact hys

/-! ## Lemma toolkit: more stripping shapes -/

theorem data_mk (l : List Char) : (String.mk l).data = l := rfl

theorem rdrop_append_singleton (x : List Char) (a : Char) (ha : isPyWs a = false) :
    rdrop (x ++ [a]) = x ++ [a] := by
  unfold rdrop
  rw [List.reverse_append]
  simp [List.dropWhile_cons, ha]

theorem stripData_of_ends (a : Char) (mid : List Char) (b : Char)
    (ha : isPyWs a = false) (hb : isPyWs b = false) :
    stripData (a :: (mid ++ [b])) = a :: (mid ++ [b]) := by
  unfold stripData ldrop
  rw [List.dropWhile_cons, if_neg (by simp [ha])]
  rw [show a :: (mid ++ [b]) = (a :: mid) ++ [b] by simp]
  exact rdrop_append_singleton (a :: mid) b hb

/-- Stripping a line with a stable non-empty prefix only right-strips the rest. -/
theorem stripData_prefix_stable (p w : List Char) (hp : stripData p = p) (hpne : p ≠ []) :
    stripData (p ++ w) = p ++ rdrop w := by
  have hlp := ldrop_eq_self_of_strip p hp
  have hrp := rdrop_eq_self_of_strip p hp
  unfold stripData ldrop
  rw [List.dropWhile_append]
  have hlpe : (List.dropWhile isPyWs p).isEmpty = false := by
    rw [show List.dropWhile isPyWs p = p from hlp]
    simpa [List.isEmpty_iff] using hpne
  rw [hlpe]
  simp only [Bool.false_eq_true, if_false]
  rw [show List.dropWhile isPyWs p = p from hlp]
  rw [rdrop_append]
  by_cases hrw : rdrop w = []
  · rw [if_pos hrw, hrp, hrw, List.append_nil]
  · rw [if_neg hrw]

/-! ## Lemma toolkit: step-by-step parser evaluation -/

theorem pyStartsWith_append (p x : String) : pyStartsWith (p ++ x) p = true := by
  unfold pyStartsWith
  rw [String.data_append, List.isPrefixOf_iff_prefix]
  exact List.prefix_append _ _

theorem String_beq_false_of_colon (S T : String) (hS : ':' ∈ S.data) (hT : ¬ ':' ∈ T.data) :
    (S == T) = false := by
  rw [beq_eq_false_iff_ne]
  intro h
  subst h
  exact hT hS

theorem String_beq_false_of_ne (S T : String) (h : S.data ≠ T.data) : (S == T) = false := by
  rw [beq_eq_false_iff_ne]
  intro he
  exact h (by rw [he])

/-- A prefix `w ++ ":"` matches a line `k ++ ":" ++ X` with colon-free `w`,`k`
exactly when `w = k`. -/
theorem colon_label_prefix_iff (w k X : List Char) (hw : ¬ ':' ∈ w) (hk : ¬ ':' ∈ k) :
    (w ++ [':']).isPrefixOf (k ++ ':' :: X) = (decide (w = k)) := by
  induction w generalizing k with
  | nil =>
    cases k with
    | nil => simp [List.isPrefixOf]
    | cons b k' =>
      have hb : ¬(b = ':') := fun he => hk (by simp [he])
      have hb2 : ¬((':' : Char) = b) := fun he => hb he.symm
      simp [List.isPrefixOf, hb2]
  | cons a w' ih =>
    have ha : ¬(a = ':') := fun he => hw (by simp [he])
    cases k with
    | nil =>
      simp [List.isPrefixOf, ha]
    | cons b k' =>
      have hw' : ¬ ':' ∈ w' := fun hm => hw (by simp [hm])
      have hk' : ¬ ':' ∈ k' := fun hm => hk (by simp [hm])
      by_cases hab : a = b
      · subst hab
        simp only [List.cons_append, List.isPrefixOf, beq_self_eq_true, Bool.true_and]
        show (w' ++ [':']).isPrefixOf (k' ++ ':' :: X) = decide (a :: w' = a :: k')
        rw [ih k' hw' hk']
        by_cases he : w' = k'
        · simp [he]
        · simp [he, fun hc : a :: w' = a :: k' => he (by injection hc)]
      · have h1 : (a == b) = false := beq_eq_false_iff_ne.mpr hab
        have h2 : ¬(a :: w' = b :: k') := fun hc => hab (by injection hc)
        simp [List.isPrefixOf, h1, h2]

/-- The top dispatch lemma: a line whose stripped form fails all structural
guards falls through to the per-section processing. -/
theorem stepLine_dispatch (gen : Nat → String) (now : Int) (st : ParseState)
    (l : String) (rest : List String) (S : String) (hS : pyStrip l = S)
    (h1 : (S == "") = false)
    (h2 : pyStartsWith S "=" = false) (h3 : pyStartsWith S "-" = false)
    (h4 : pyStartsWith S "Version:" = false)
    (h5 : (S == "CATEGORIES") = false) (h6 : (S == "LORE ENTRIES") = false)
    (h7 : (S == "SETTINGS") = false) :
    stepLine gen now st l rest =
      match st.currentSection with
      | some .categories => categoryStep gen st S
      | some .entries => entryStep gen now st S rest
      | some .settings => settingsStep st S
      | none => st := by
  unfold stepLine
  simp only [hS, h1, h2, h3, h4, h5, h6, h7, Bool.or_self, Bool.or_false,
    Bool.false_eq_true, if_false]

/-- A structurally-skipped line (blank, `=`-run, `-`-run) leaves the state
unchanged. -/
theorem stepLine_skip (gen : Nat → String) (now : Int) (st : ParseState)
    (l : String) (rest : List String) (S : String) (hS : pyStrip l = S)
    (h : (S == "" || pyStartsWith S "=" || pyStartsWith S "-") = true) :
    stepLine gen now st l rest = st := by
  unfold stepLine
  simp only [hS, h, if_true]

/-- A `Version:` line with a well-formed integer literal sets the version. -/
theorem stepLine_version (gen : Nat → String) (now : Int) (st : ParseState)
    (rest : List String) (i : Int) :
    stepLine gen now st ("Version: " ++ pyStrInt i) rest = { st with version := i } := by
  have hS : pyStrip ("Version: " ++ pyStrInt i) = "Version:" ++ optSp (pyStrInt i) := by
    have h := pyStrip_label_value "Version:" (pyStrInt i) (by decide) (by decide)
      (stripData_pyStrInt i)
    rw [show ("Version:" : String) ++ " " = "Version: " from by decide] at h
    exact h
  have hex : pyStrip (afterFirst ':' ("Version:" ++ optSp (pyStrInt i))) = pyStrInt i := by
    have h := afterFirst_label "Version" (pyStrInt i) (by decide) (stripData_pyStrInt i)
    rw [show ("Version" : String) ++ ":" = "Version:" from by decide] at h
    exact h
  unfold stepLine
  simp only [hS]
  rw [if_neg (by
    simp only [Bool.or_eq_true, not_or]
    refine ⟨⟨?_, ?_⟩, ?_⟩
    · simp [String.ext_iff, String.data_append, optSp]
    · simp [pyStartsWith, String.data_append, List.isPrefixOf]
    · simp [pyStartsWith, String.data_append, List.isPrefixOf])]
  rw [if_pos (pyStartsWith_append "Version:" (optSp (pyStrInt i)))]
  rw [hex, pyParseInt_pyStrInt]

/-! ## Per-line parser lemmas for serialized field lines -/

theorem pyStrip_labelline (lab labsp : String) (v : String)
    (hcat : labsp = lab ++ " ") (hlab1 : stripData lab.data = lab.data)
    (hlab2 : lab.data ≠ []) (hv : stripData v.data = v.data) :
    pyStrip (labsp ++ v) = lab ++ optSp v := by
  subst hcat
  exact pyStrip_label_value lab v hlab1 hlab2 hv

theorem afterFirst_labelline (w lab : String) (v : String) (hcat : lab = w ++ ":")
    (hw : ¬ ':' ∈ w.data) (hv : stripData v.data = v.data) :
    pyStrip (afterFirst ':' (lab ++ optSp v)) = v := by
  subst hcat
  exact afterFirst_label w v hw hv

theorem stepLine_header_categories (gen : Nat → String) (now : Int) (st : ParseState)
    (rest : List String) :
    stepLine gen now st "CATEGORIES" rest = { st with currentSection := some .categories } := rfl

theorem stepLine_header_entries (gen : Nat → String) (now : Int) (st : ParseState)
    (rest : List String) :
    stepLine gen now st "LORE ENTRIES" rest = { st with currentSection := some .entries } := rfl

theorem stepLine_header_settings (gen : Nat → String) (now : Int) (st : ParseState)
    (rest : List String) :
    stepLine gen now st "SETTINGS" rest = { st with currentSection := some .settings } := rfl

/-- A line that matches no rule at all leaves the state unchanged in the
`entries` section, whatever the open-entry slot holds. -/
theorem stepLine_entry_noise (gen : Nat → String) (now : Int) (st : ParseState)
    (l : String) (rest : List String) (S : String) (hS : pyStrip l = S)
    (hsec : st.currentSection = some .entries)
    (h1 : (S == "") = false)
    (h2 : pyStartsWith S "=" = false) (h3 : pyStartsWith S "-" = false)
    (h4 : pyStartsWith S "Version:" = false)
    (h5 : (S == "CATEGORIES") = false) (h6 : (S == "LORE ENTRIES") = false)
    (h7 : (S == "SETTINGS") = false)
    (f0 : pyStartsWith S "ENTRY #" = false)
    (f1 : pyStartsWith S "Display Name:" = false)
    (f2 : pyStartsWith S "ID:" = false)
    (f3 : pyStartsWith S "Category:" = false)
    (f4 : pyStartsWith S "Activation Keys:" = false)
    (f5 : pyStartsWith S "Enabled:" = false)
    (f6 : pyStartsWith S "Force Activation:" = false)
    (f7 : pyStartsWith S "Search Range:" = false)
    (f8 : pyStartsWith S "Title:" = false)
    (f9 : pyStartsWith S "Token Budget:" = false)
    (f10 : pyStartsWith S "Budget Priority:" = false)
    (f11 : pyStartsWith S "Trim Direction:" = false) :
    stepLine gen now st l rest = st := by
  rw [stepLine_dispatch gen now st l rest S hS h1 h2 h3 h4 h5 h6 h7]
  simp only [hsec]
  unfold entryStep
  simp only [f0, f1, f2, f3, f4, f5, f6, f7, f8, f9, f10, f11,
    Bool.false_eq_true, if_false]
  rcases st.currentEntry with _ | e <;> rfl

/-- An `ENTRY #n` line flushes any open entry and opens a fresh skeleton. -/
theorem stepLine_entry_header (gen : Nat → String) (now : Int) (st : ParseState)
    (rest : List String) (n : Nat) (hsec : st.currentSection = some .entries) :
    stepLine gen now st ("ENTRY #" ++ pyStrNat n) rest =
      { st with
        entries := st.entries ++ optEntry st.currentEntry
        currentEntry := some (newEntry (gen st.uuidCount) now)
        uuidCount := st.uuidCount + 1 } := by
  have hS : pyStrip ("ENTRY #" ++ pyStrNat n) = "ENTRY #" ++ pyStrNat n := by
    apply String.ext
    rw [data_pyStrip, String.data_append]
    exact stripData_concat _ _ (by decide) (by decide) (stripData_pyStrNat n)
  rw [stepLine_dispatch gen now st _ rest _ hS
    (String_beq_false_of_ne _ _ (by simp [String.data_append]))
    (by simp [pyStartsWith, String.data_append, List.isPrefixOf])
    (by simp [pyStartsWith, String.data_append, List.isPrefixOf])
    (by simp [pyStartsWith, String.data_append, List.isPrefixOf])
    (String_beq_false_of_ne _ _ (by simp [String.data_append]))
    (String_beq_false_of_ne _ _ (by simp [String.data_append]))
    (String_beq_false_of_ne _ _ (by simp [String.data_append]))]
  simp only [hsec]
  unfold entryStep
  rw [if_pos (pyStartsWith_append "ENTRY #" (pyStrNat n))]
  rw [hsec]

theorem stepLine_entry_displayName (gen : Nat → String) (now : Int) (st : ParseState)
    (e : Entry) (rest : List String) (dn : String)
    (hsec : st.currentSection = some .entries) (hcur : st.currentEntry = some e)
    (hdn : stripData dn.data = dn.data) :
    stepLine gen now st ("Display Name: " ++ dn) rest
      = { st with currentEntry := some { e with displayName := dn } } := by
  have hS := pyStrip_labelline "Display Name:" "Display Name: " dn (by decide) (by decide)
    (by decide) hdn
  have hex := afterFirst_labelline "Display Name" "Display Name:" dn (by decide)
    (by decide) hdn
  rw [stepLine_dispatch gen now st _ rest _ hS
    (String_beq_false_of_ne _ _ (by simp [String.data_append]))
    (by simp [pyStartsWith, String.data_append, List.isPrefixOf])
    (by simp [pyStartsWith, String.data_append, List.isPrefixOf])
    (by simp [pyStartsWith, String.data_append, List.isPrefixOf])
    (String_beq_false_of_ne _ _ (by simp [String.data_append]))
    (String_beq_false_of_ne _ _ (by simp [String.data_append]))
    (String_beq_false_of_ne _ _ (by simp [String.data_append]))]
  simp only [hsec]
  unfold entryStep
  rw [if_neg (by
    rw [show ¬(pyStartsWith ("Display Name:" ++ optSp dn) "ENTRY #" = true) ↔
      (pyStartsWith ("Display Name:" ++ optSp dn) "ENTRY #" = false) from by simp]
    simp [pyStartsWith, String.data_append, List.isPrefixOf])]
  simp only [hcur]
  rw [if_pos (pyStartsWith_append "Display Name:" (optSp dn))]
  rw [hex, hsec]

theorem stepLine_entry_id (gen : Nat → String) (now : Int) (st : ParseState)
    (e : Entry) (rest : List String) (eid : String)
    (hsec : st.currentSection = some .entries) (hcur : st.currentEntry = some e)
    (hid : stripData eid.data = eid.data) :
    stepLine gen now st ("ID: " ++ eid) rest
      = { st with currentEntry := some { e with id := eid } } := by
  have hS := pyStrip_labelline "ID:" "ID: " eid (by decide) (by decide) (by decide) hid
  have hex := afterFirst_labelline "ID" "ID:" eid (by decide) (by decide) hid
  rw [stepLine_dispatch gen now st _ rest _ hS
    (String_beq_false_of_ne _ _ (by simp [String.data_append]))
    (by simp [pyStartsWith, String.data_append, List.isPrefixOf])
    (by simp [pyStartsWith, String.data_append, List.isPrefixOf])
    (by simp [pyStartsWith, String.data_append, List.isPrefixOf])
    (String_beq_false_of_ne _ _ (by simp [String.data_append]))
    (String_beq_false_of_ne _ _ (by simp [String.data_append]))
    (String_beq_false_of_ne _ _ (by simp [String.data_append]))]
  simp only [hsec]
  unfold entryStep
  rw [if_neg (by
    rw [show ¬(pyStartsWith ("ID:" ++ optSp eid) "ENTRY #" = true) ↔
      (pyStartsWith ("ID:" ++ optSp eid) "ENTRY #" = false) from by simp]
    simp [pyStartsWith, String.data_append, List.isPrefixOf])]
  simp only [hcur]
  rw [if_neg (by
    rw [show ¬(pyStartsWith ("ID:" ++ optSp eid) "Display Name:" = true) ↔
      (pyStartsWith ("ID:" ++ optSp eid) "Display Name:" = false) from by simp]
    simp [pyStartsWith, String.data_append, List.isPrefixOf])]
  rw [if_pos (pyStartsWith_append "ID:" (optSp eid))]
  rw [hex, hsec]

theorem stepLine_entry_enabled (gen : Nat → String) (now : Int) (st : ParseState)
    (e : Entry) (rest : List String) (b : Bool)
    (hsec : st.currentSection = some .entries) (hcur : st.currentEntry = some e) :
    stepLine gen now st ("Enabled: " ++ pyBoolStr b) rest
      = { st with currentEntry := some { e with enabled := b } } := by
  have hbv : stripData (pyBoolStr b).data = (pyBoolStr b).data := by cases b <;> decide
  have hS := pyStrip_labelline "Enabled:" "Enabled: " (pyBoolStr b) (by decide) (by decide)
    (by decide) hbv
  have hex := afterFirst_labelline "Enabled" "Enabled:" (pyBoolStr b) (by decide)
    (by decide) hbv
  rw [stepLine_dispatch gen now st _ rest _ hS
    (String_beq_false_of_ne _ _ (by simp [String.data_append]))
    (by simp [pyStartsWith, String.data_append, List.isPrefixOf])
    (by simp [pyStartsWith, String.data_append, List.isPrefixOf])
    (by simp [pyStartsWith, String.data_append, List.isPrefixOf])
    (String_beq_false_of_ne _ _ (by simp [String.data_append]))
    (String_beq_false_of_ne _ _ (by simp [String.data_append]))
    (String_beq_false_of_ne _ _ (by simp [String.data_append]))]
  simp only [hsec]
  unfold entryStep
  rw [if_neg (by
    rw [show ¬(pyStartsWith ("Enabled:" ++ optSp (pyBoolStr b)) "ENTRY #" = true) ↔
      (pyStartsWith ("Enabled:" ++ optSp (pyBoolStr b)) "ENTRY #" = false) from by simp]
    simp [pyStartsWith, String.data_append, List.isPrefixOf])]
  simp only [hcur]
  rw [if_neg (by
    rw [show ¬(pyStartsWith ("Enabled:" ++ optSp (pyBoolStr b)) "Display Name:" = true) ↔
      (pyStartsWith ("Enabled:" ++ optSp (pyBoolStr b)) "Display Name:" = false) from by simp]
    simp [pyStartsWith, String.data_append, List.isPrefixOf])]
  rw [if_neg (by
    rw [show ¬(pyStartsWith ("Enabled:" ++ optSp (pyBoolStr b)) "ID:" = true) ↔
      (pyStartsWith ("Enabled:" ++ optSp (pyBoolStr b)) "ID:" = false) from by simp]
    simp [pyStartsWith, String.data_append, List.isPrefixOf])]
  rw [if_neg (by
    rw [show ¬(pyStartsWith ("Enabled:" ++ optSp (pyBoolStr b)) "Category:" = true) ↔
      (pyStartsWith ("Enabled:" ++ optSp (pyBoolStr b)) "Category:" = false) from by simp]
    simp [pyStartsWith, String.data_append, List.isPrefixOf])]
  rw [if_neg (by
    rw [show ¬(pyStartsWith ("Enabled:" ++ optSp (pyBoolStr b)) "Activation Keys:" = true) ↔
      (pyStartsWith ("Enabled:" ++ optSp (pyBoolStr b)) "Activation Keys:" = false) from by simp]
    simp [pyStartsWith, String.data_append, List.isPrefixOf])]
  rw [if_pos (pyStartsWith_append "Enabled:" (optSp (pyBoolStr b)))]
  rw [hex, hsec]
  have hb : (pyLower (pyBoolStr b) == "true") = b := by cases b <;> decide
  rw [hb]

theorem data_ne_nil_of_ne_empty (s : String) (h : s ≠ "") : s.data ≠ [] :=
  fun hd => h ((string_eq_empty_iff_data s).mpr hd)

theorem stripData_commasep (J : List Char) (hJ : stripData J = J) (hne : J ≠ []) :
    stripData (',' :: ' ' :: J) = ',' :: ' ' :: J := by
  have hrJ := rdrop_eq_self_of_strip J hJ
  unfold stripData ldrop
  rw [List.dropWhile_cons, if_neg (by decide)]
  rw [show (',' :: ' ' :: J) = [','] ++ ([' '] ++ J) by simp]
  rw [rdrop_append, rdrop_append, hrJ, if_neg hne]
  rw [if_neg (by simp)]

/-- The comma-space join of non-empty strip-stable keys is itself strip-stable
and non-empty. -/
theorem pyJoin_keys_stable (keys : List String) (hne : keys ≠ [])
    (h : ∀ k ∈ keys, stripData k.data = k.data ∧ k ≠ "") :
    stripData (pyJoin ", " keys).data = (pyJoin ", " keys).data
      ∧ (pyJoin ", " keys).data ≠ [] := by
  induction keys with
  | nil => exact absurd rfl hne
  | cons x xs ih =>
    cases xs with
    | nil =>
      exact ⟨(h x (by simp)).1, data_ne_nil_of_ne_empty x (h x (by simp)).2⟩
    | cons y ys =>
      have hx := h x (by simp)
      have hxd := data_ne_nil_of_ne_empty x hx.2
      have hih := ih (by simp) (fun k hk => h k (List.mem_cons_of_mem x hk))
      have hd : (x ++ ", " ++ pyJoin ", " (y :: ys)).data
          = x.data ++ (',' :: ' ' :: (pyJoin ", " (y :: ys)).data) := by
        simp [String.data_append]
      constructor
      · show stripData (x ++ ", " ++ pyJoin ", " (y :: ys)).data
            = (x ++ ", " ++ pyJoin ", " (y :: ys)).data
        rw [hd]
        exact stripData_concat x.data _ hx.1 hxd
          (stripData_commasep _ hih.1 hih.2)
      · show (x ++ ", " ++ pyJoin ", " (y :: ys)).data ≠ []
        rw [hd]
        simp [hxd]

theorem stepLine_entry_keys (gen : Nat → String) (now : Int) (st : ParseState)
    (e : Entry) (rest : List String) (keys : List String)
    (hsec : st.currentSection = some .entries) (hcur : st.currentEntry = some e)
    (hne : keys ≠ [])
    (hks : ∀ k ∈ keys, stripData k.data = k.data ∧ k ≠ "" ∧ ¬ ',' ∈ k.data) :
    stepLine gen now st ("Activation Keys: " ++ pyJoin ", " keys) rest
      = { st with currentEntry := some { e with keys := keys } } := by
  have hstable := pyJoin_keys_stable keys hne (fun k hk => ⟨(hks k hk).1, (hks k hk).2.1⟩)
  have hS := pyStrip_labelline "Activation Keys:" "Activation Keys: " (pyJoin ", " keys)
    (by decide) (by decide) (by decide) hstable.1
  have hex := afterFirst_labelline "Activation Keys" "Activation Keys:" (pyJoin ", " keys)
    (by decide) (by decide) hstable.1
  have hsplit := parse_keys_join keys (fun k hk => ⟨(hks k hk).1, (hks k hk).2.2⟩) hne
  rw [stepLine_dispatch gen now st _ rest _ hS
    (String_beq_false_of_ne _ _ (by simp [String.data_append]))
    (by simp [pyStartsWith, String.data_append, List.isPrefixOf])
    (by simp [pyStartsWith, String.data_append, List.isPrefixOf])
    (by simp [pyStartsWith, String.data_append, List.isPrefixOf])
    (String_beq_false_of_ne _ _ (by simp [String.data_append]))
    (String_beq_false_of_ne _ _ (by simp [String.data_append]))
    (String_beq_false_of_ne _ _ (by simp [String.data_append]))]
  simp only [hsec]
  unfold entryStep
  simp only [hcur]
  rw [hex]
  simp [pyStartsWith, String.data_append, List.isPrefixOf, hsec, hsplit]

theorem stepLine_entry_forceActivation (gen : Nat → String) (now : Int) (st : ParseState)
    (e : Entry) (rest : List String) (b : Bool)
    (hsec : st.currentSection = some .entries) (hcur : st.currentEntry = some e) :
    stepLine gen now st ("Force Activation: " ++ pyBoolStr b) rest
      = { st with currentEntry := some { e with forceActivation := b } } := by
  have hbv : stripData (pyBoolStr b).data = (pyBoolStr b).data := by cases b <;> decide
  have hS := pyStrip_labelline "Force Activation:" "Force Activation: " (pyBoolStr b)
    (by decide) (by decide) (by decide) hbv
  have hex := afterFirst_labelline "Force Activation" "Force Activation:" (pyBoolStr b)
    (by decide) (by decide) hbv
  have hb : (pyLower (pyBoolStr b) == "true") = b := by cases b <;> decide
  rw [stepLine_dispatch gen now st _ rest _ hS
    (String_beq_false_of_ne _ _ (by simp [String.data_append]))
    (by simp [pyStartsWith, String.data_append, List.isPrefixOf])
    (by simp [pyStartsWith, String.data_append, List.isPrefixOf])
    (by simp [pyStartsWith, String.data_append, List.isPrefixOf])
    (String_beq_false_of_ne _ _ (by simp [String.data_append]))
    (String_beq_false_of_ne _ _ (by simp [String.data_append]))
    (String_beq_false_of_ne _ _ (by simp [String.data_append]))]
  simp only [hsec]
  unfold entryStep
  simp only [hcur]
  rw [hex, hb]
  simp [pyStartsWith, String.data_append, List.isPrefixOf, hsec]

theorem stepLine_entry_searchRange (gen : Nat → String) (now : Int) (st : ParseState)
    (e : Entry) (rest : List String) (i : Int)
    (hsec : st.currentSection = some .entries) (hcur : st.currentEntry = some e) :
    stepLine gen now st ("Search Range: " ++ pyStrInt i) rest
      = { st with currentEntry := some { e with searchRange := i } } := by
  have hS := pyStrip_labelline "Search Range:" "Search Range: " (pyStrInt i)
    (by decide) (by decide) (by decide) (stripData_pyStrInt i)
  have hex := afterFirst_labelline "Search Range" "Search Range:" (pyStrInt i)
    (by decide) (by decide) (stripData_pyStrInt i)
  rw [stepLine_dispatch gen now st _ rest _ hS
    (String_beq_false_of_ne _ _ (by simp [String.data_append]))
    (by simp [pyStartsWith, String.data_append, List.isPrefixOf])
    (by simp [pyStartsWith, String.data_append, List.isPrefixOf])
    (by simp [pyStartsWith, String.data_append, List.isPrefixOf])
    (String_beq_false_of_ne _ _ (by simp [String.data_append]))
    (String_beq_false_of_ne _ _ (by simp [String.data_append]))
    (String_beq_false_of_ne _ _ (by simp [String.data_append]))]
  simp only [hsec]
  unfold entryStep
  simp only [hcur]
  rw [hex, pyParseInt_pyStrInt]
  simp [pyStartsWith, String.data_append, List.isPrefixOf, hsec]

theorem stepLine_entry_tokenBudget (gen : Nat → String) (now : Int) (st : ParseState)
    (e : Entry) (rest : List String) (i : Int)
    (hsec : st.currentSection = some .entries) (hcur : st.currentEntry = some e) :
    stepLine gen now st ("Token Budget: " ++ pyStrInt i) rest
      = { st with currentEntry := some { e with
          contextConfig := { e.contextConfig with tokenBudget := i } } } := by
  have hS := pyStrip_labelline "Token Budget:" "Token Budget: " (pyStrInt i)
    (by decide) (by decide) (by decide) (stripData_pyStrInt i)
  have hex := afterFirst_labelline "Token Budget" "Token Budget:" (pyStrInt i)
    (by decide) (by decide) (stripData_pyStrInt i)
  rw [stepLine_dispatch gen now st _ rest _ hS
    (String_beq_false_of_ne _ _ (by simp [String.data_append]))
    (by simp [pyStartsWith, String.data_append, List.isPrefixOf])
    (by simp [pyStartsWith, String.data_append, List.isPrefixOf])
    (by simp [pyStartsWith, String.data_append, List.isPrefixOf])
    (String_beq_false_of_ne _ _ (by simp [String.data_append]))
    (String_beq_false_of_ne _ _ (by simp [String.data_append]))
    (String_beq_false_of_ne _ _ (by simp [String.data_append]))]
  simp only [hsec]
  unfold entryStep
  simp only [hcur]
  rw [hex, pyParseInt_pyStrInt]
  simp [pyStartsWith, String.data_append, List.isPrefixOf, hsec]

theorem stepLine_entry_budgetPriority (gen : Nat → String) (now : Int) (st : ParseState)
    (e : Entry) (rest : List String) (i : Int)
    (hsec : st.currentSection = some .entries) (hcur : st.currentEntry = some e) :
    stepLine gen now st ("Budget Priority: " ++ pyStrInt i) rest
      = { st with currentEntry := some { e with
          contextConfig := { e.contextConfig with budgetPriority := i } } } := by
  have hS := pyStrip_labelline "Budget Priority:" "Budget Priority: " (pyStrInt i)
    (by decide) (by decide) (by decide) (stripData_pyStrInt i)
  have hex := afterFirst_labelline "Budget Priority" "Budget Priority:" (pyStrInt i)
    (by decide) (by decide) (stripData_pyStrInt i)
  rw [stepLine_dispatch gen now st _ rest _ hS
    (String_beq_false_of_ne _ _ (by simp [String.data_append]))
    (by simp [pyStartsWith, String.data_append, List.isPrefixOf])
    (by simp [pyStartsWith, String.data_append, List.isPrefixOf])
    (by simp [pyStartsWith, String.data_append, List.isPrefixOf])
    (String_beq_false_of_ne _ _ (by simp [String.data_append]))
    (String_beq_false_of_ne _ _ (by simp [String.data_append]))
    (String_beq_false_of_ne _ _ (by simp [String.data_append]))]
  simp only [hsec]
  unfold entryStep
  simp only [hcur]
  rw [hex, pyParseInt_pyStrInt]
  simp [pyStartsWith, String.data_append, List.isPrefixOf, hsec]

theorem stepLine_entry_trimDirection (gen : Nat → String) (now : Int) (st : ParseState)
    (e : Entry) (rest : List String) (td : String)
    (hsec : st.currentSection = some .entries) (hcur : st.currentEntry = some e)
    (htd : stripData td.data = td.data) :
    stepLine gen now st ("Trim Direction: " ++ td) rest
      = { st with currentEntry := some { e with
          contextConfig := { e.contextConfig with trimDirection := td } } } := by
  have hS := pyStrip_labelline "Trim Direction:" "Trim Direction: " td (by decide) (by decide)
    (by decide) htd
  have hex := afterFirst_labelline "Trim Direction" "Trim Direction:" td (by decide)
    (by decide) htd
  rw [stepLine_dispatch gen now st _ rest _ hS
    (String_beq_false_of_ne _ _ (by simp [String.data_append]))
    (by simp [pyStartsWith, String.data_append, List.isPrefixOf])
    (by simp [pyStartsWith, String.data_append, List.isPrefixOf])
    (by simp [pyStartsWith, String.data_append, List.isPrefixOf])
    (String_beq_false_of_ne _ _ (by simp [String.data_append]))
    (String_beq_false_of_ne _ _ (by simp [String.data_append]))
    (String_beq_false_of_ne _ _ (by simp [String.data_append]))]
  simp only [hsec]
  unfold entryStep
  simp only [hcur]
  rw [hex]
  simp [pyStartsWith, String.data_append, List.isPrefixOf, hsec]

/-- The resolved `Category: name (id)` line of a serialized entry: the parser
takes the id from the parentheses, whatever the rendered name was. -/
theorem stepLine_entry_category (gen : Nat → String) (now : Int) (st : ParseState)
    (e : Entry) (rest : List String) (revName cat : String)
    (hsec : st.currentSection = some .entries) (hcur : st.currentEntry = some e)
    (hrn : stripData revName.data = revName.data) (hrne : revName.data ≠ [])
    (hrnp : ¬ '(' ∈ revName.data)
    (hcs : stripData cat.data = cat.data)
    (hcp1 : ¬ '(' ∈ cat.data) (hcp2 : ¬ ')' ∈ cat.data) :
    stepLine gen now st ("Category: " ++ revName ++ " (" ++ cat ++ ")") rest
      = { st with currentEntry := some { e with category := cat } } := by
  have hgrp : ("Category: " ++ revName ++ " (" ++ cat ++ ")" : String)
      = "Category: " ++ (revName ++ " (" ++ cat ++ ")") := by
    apply String.ext
    simp [String.data_append]
  obtain ⟨r, rt, hrd⟩ : ∃ r rt, revName.data = r :: rt := by
    cases hk : revName.data with
    | nil => exact absurd hk hrne
    | cons a b => exact ⟨a, b, rfl⟩
  have hrhead : isPyWs r = false := by
    have := hrn
    rw [hrd] at this
    exact head_not_ws_of_strip r rt this
  have hvdata : (revName ++ " (" ++ cat ++ ")").data
      = r :: ((rt ++ ' ' :: '(' :: cat.data) ++ [')']) := by
    simp [String.data_append, hrd]
  have hv : stripData (revName ++ " (" ++ cat ++ ")").data
      = (revName ++ " (" ++ cat ++ ")").data := by
    rw [hvdata]
    exact stripData_of_ends r _ ')' hrhead (by decide)
  have hS0 := pyStrip_labelline "Category:" "Category: " (revName ++ " (" ++ cat ++ ")")
    (by decide) (by decide) (by decide) hv
  have hS : pyStrip ("Category: " ++ revName ++ " (" ++ cat ++ ")")
      = "Category:" ++ optSp (revName ++ " (" ++ cat ++ ")") := by
    rw [hgrp]
    exact hS0
  have hex := afterFirst_labelline "Category" "Category:" (revName ++ " (" ++ cat ++ ")")
    (by decide) (by decide) hv
  have hcontains : pyContainsChar (revName ++ " (" ++ cat ++ ")") '(' = true := by
    simp [pyContainsChar, hvdata]
  have hsplit : pySplitChar '(' (revName ++ " (" ++ cat ++ ")")
      = [⟨revName.data ++ [' ']⟩, ⟨cat.data ++ [')']⟩] := by
    show (splitCharData '(' (revName ++ " (" ++ cat ++ ")").data).map String.mk = _
    have hsh : (revName ++ " (" ++ cat ++ ")").data
        = (revName.data ++ [' ']) ++ '(' :: (cat.data ++ [')']) := by
      simp [String.data_append]
    rw [hsh, splitCharData_append_cons '(' _ _ (by
      intro hm
      rcases List.mem_append.mp hm with hm1 | hm1
      · exact hrnp hm1
      · simp at hm1)]
    rw [splitCharData_not_mem '(' _ (by
      intro hm
      rcases List.mem_append.mp hm with hm1 | hm1
      · exact hcp1 hm1
      · simp at hm1)]
    rfl
  have hbreak2 : breakAtChar ')' (cat.data ++ [')']) = (cat.data, some []) := by
    have : cat.data ++ [')'] = cat.data ++ ')' :: [] := by simp
    rw [this]
    exact breakAtChar_append_first ')' _ _ hcp2
  have hid : pyStrip (beforeFirst ')'
      ((pySplitChar '(' (revName ++ " (" ++ cat ++ ")")).getD 1 "")) = cat := by
    rw [hsplit]
    show pyStrip ⟨(breakAtChar ')' (cat.data ++ [')'])).1⟩ = cat
    rw [hbreak2]
    show pyStrip ⟨cat.data⟩ = cat
    rw [mk_data]
    exact pyStrip_of_stable cat hcs
  rw [stepLine_dispatch gen now st _ rest _ hS
    (String_beq_false_of_ne _ _ (by simp [String.data_append]))
    (by simp [pyStartsWith, String.data_append, List.isPrefixOf])
    (by simp [pyStartsWith, String.data_append, List.isPrefixOf])
    (by simp [pyStartsWith, String.data_append, List.isPrefixOf])
    (String_beq_false_of_ne _ _ (by simp [String.data_append]))
    (String_beq_false_of_ne _ _ (by simp [String.data_append]))
    (String_beq_false_of_ne _ _ (by simp [String.data_append]))]
  simp only [hsec]
  unfold entryStep
  simp only [hcur]
  rw [hex]
  simp only [hcontains]
  rw [hid]
  simp [pyStartsWith, String.data_append, List.isPrefixOf, hsec, hcontains, hid]

/-! ## Per-line parser lemmas: categories section, banner, settings -/

theorem stepLine_cat_category (gen : Nat → String) (now : Int) (st : ParseState)
    (rest : List String) (name : String)
    (hsec : st.currentSection = some .categories)
    (hname : stripData name.data = name.data) :
    stepLine gen now st ("Category: " ++ name) rest
      = { st with
          categories := st.categories ++ optCategory st.currentCategory
          currentCategory := some (newCategory name (gen st.uuidCount))
          uuidCount := st.uuidCount + 1 } := by
  have hS := pyStrip_labelline "Category:" "Category: " name (by decide) (by decide)
    (by decide) hname
  have hex := afterFirst_labelline "Category" "Category:" name (by decide) (by decide) hname
  rw [stepLine_dispatch gen now st _ rest _ hS
    (String_beq_false_of_ne _ _ (by simp [String.data_append]))
    (by simp [pyStartsWith, String.data_append, List.isPrefixOf])
    (by simp [pyStartsWith, String.data_append, List.isPrefixOf])
    (by simp [pyStartsWith, String.data_append, List.isPrefixOf])
    (String_beq_false_of_ne _ _ (by simp [String.data_append]))
    (String_beq_false_of_ne _ _ (by simp [String.data_append]))
    (String_beq_false_of_ne _ _ (by simp [String.data_append]))]
  simp only [hsec]
  unfold categoryStep
  rw [if_pos (pyStartsWith_append "Category:" (optSp name))]
  rw [hex, hsec]

theorem stepLine_cat_id (gen : Nat → String) (now : Int) (st : ParseState)
    (c : Category) (rest : List String) (cid : String)
    (hsec : st.currentSection = some .categories)
    (hcat : st.currentCategory = some c)
    (hid : stripData cid.data = cid.data) :
    stepLine gen now st ("ID: " ++ cid) rest
      = { st with currentCategory := some { c with id := cid } } := by
  have hS := pyStrip_labelline "ID:" "ID: " cid (by decide) (by decide) (by decide) hid
  have hex := afterFirst_labelline "ID" "ID:" cid (by decide) (by decide) hid
  rw [stepLine_dispatch gen now st _ rest _ hS
    (String_beq_false_of_ne _ _ (by simp [String.data_append]))
    (by simp [pyStartsWith, String.data_append, List.isPrefixOf])
    (by simp [pyStartsWith, String.data_append, List.isPrefixOf])
    (by simp [pyStartsWith, String.data_append, List.isPrefixOf])
    (String_beq_false_of_ne _ _ (by simp [String.data_append]))
    (String_beq_false_of_ne _ _ (by simp [String.data_append]))
    (String_beq_false_of_ne _ _ (by simp [String.data_append]))]
  simp only [hsec]
  unfold categoryStep
  simp only [hcat]
  rw [hex]
  simp [pyStartsWith, String.data_append, List.isPrefixOf, hsec]

theorem stepLine_cat_enabled (gen : Nat → String) (now : Int) (st : ParseState)
    (c : Category) (rest : List String) (b : Bool)
    (hsec : st.currentSection = some .categories)
    (hcat : st.currentCategory = some c) :
    stepLine gen now st ("Enabled: " ++ pyBoolStr b) rest
      = { st with currentCategory := some { c with enabled := b } } := by
  have hbv : stripData (pyBoolStr b).data = (pyBoolStr b).data := by cases b <;> decide
  have hS := pyStrip_labelline "Enabled:" "Enabled: " (pyBoolStr b) (by decide) (by decide)
    (by decide) hbv
  have hex := afterFirst_labelline "Enabled" "Enabled:" (pyBoolStr b) (by decide)
    (by decide) hbv
  have hb : (pyLower (pyBoolStr b) == "true") = b := by cases b <;> decide
  rw [stepLine_dispatch gen now st _ rest _ hS
    (String_beq_false_of_ne _ _ (by simp [String.data_append]))
    (by simp [pyStartsWith, String.data_append, List.isPrefixOf])
    (by simp [pyStartsWith, String.data_append, List.isPrefixOf])
    (by simp [pyStartsWith, String.data_append, List.isPrefixOf])
    (String_beq_false_of_ne _ _ (by simp [String.data_append]))
    (String_beq_false_of_ne _ _ (by simp [String.data_append]))
    (String_beq_false_of_ne _ _ (by simp [String.data_append]))]
  simp only [hsec]
  unfold categoryStep
  simp only [hcat]
  rw [hex, hb]
  simp [pyStartsWith, String.data_append, List.isPrefixOf, hsec]

/-- Any guarded line falling through the dispatch leaves the state unchanged
when no section is active. -/
theorem stepLine_none_noise (gen : Nat → String) (now : Int) (st : ParseState)
    (l : String) (rest : List String) (S : String) (hS : pyStrip l = S)
    (hsec : st.currentSection = none)
    (h1 : (S == "") = false)
    (h2 : pyStartsWith S "=" = false) (h3 : pyStartsWith S "-" = false)
    (h4 : pyStartsWith S "Version:" = false)
    (h5 : (S == "CATEGORIES") = false) (h6 : (S == "LORE ENTRIES") = false)
    (h7 : (S == "SETTINGS") = false) :
    stepLine gen now st l rest = st := by
  rw [stepLine_dispatch gen now st l rest S hS h1 h2 h3 h4 h5 h6 h7]
  simp only [hsec]

/-- The `Exported:` banner line is ignored (no section is active yet). -/
theorem stepLine_exported (gen : Nat → String) (now : Int) (st : ParseState)
    (rest : List String) (ts : String) (hsec : st.currentSection = none) :
    stepLine gen now st ("Exported: " ++ ts) rest = st := by
  have hd : ("Exported: " ++ ts).data = "Exported:".data ++ (' ' :: ts.data) := by
    simp [String.data_append]
  have hS : pyStrip ("Exported: " ++ ts) = ⟨"Exported:".data ++ rdrop (' ' :: ts.data)⟩ := by
    apply String.ext
    rw [data_pyStrip, hd, data_mk]
    exact stripData_prefix_stable _ _ (by decide) (by decide)
  refine stepLine_none_noise gen now st _ rest _ hS hsec ?_ ?_ ?_ ?_ ?_ ?_ ?_
  · exact String_beq_false_of_ne _ _ (by simp [data_mk])
  · simp [pyStartsWith, data_mk, List.isPrefixOf]
  · simp [pyStartsWith, data_mk, List.isPrefixOf]
  · simp [pyStartsWith, data_mk, List.isPrefixOf]
  · exact String_beq_false_of_ne _ _ (by simp [data_mk])
  · exact String_beq_false_of_ne _ _ (by simp [data_mk])
  · exact String_beq_false_of_ne _ _ (by simp [data_mk])

/-! ## Settings value typing round trip -/

theorem toLower_eq_self_of_isDigit (c : Char) (h : c.isDigit = true) : c.toLower = c := by
  unfold Char.toLower
  have hval : c.toNat ≤ 57 := by
    unfold Char.isDigit at h
    simp only [Bool.and_eq_true, decide_eq_true_eq] at h
    exact h.2
  rw [if_neg (by omega)]

theorem pyLower_of_all_digits (v : String) (h : ∀ c ∈ v.data, c.isDigit = true) :
    pyLower v = v := by
  apply String.ext
  show v.data.map Char.toLower = v.data
  calc v.data.map Char.toLower = v.data.map id := by
        apply List.map_congr_left
        intro c hc
        exact toLower_eq_self_of_isDigit c (h c hc)
    _ = v.data := List.map_id v.data

theorem typeValue_pyStrNat (m : Nat) : typeValue (pyStrNat m) = .i m := by
  have hlow := pyLower_of_all_digits (pyStrNat m) (pyStrNat_all_digits m)
  obtain ⟨c, t, hd⟩ : ∃ c t, (pyStrNat m).data = c :: t := by
    cases hk : (pyStrNat m).data with
    | nil => exact absurd hk (pyStrNat_ne_empty m)
    | cons a b => exact ⟨a, b, rfl⟩
  have hcd : c.isDigit = true := pyStrNat_all_digits m c (by rw [hd]; simp)
  have hc57 : c.toNat ≤ 57 := by
    unfold Char.isDigit at hcd
    simp only [Bool.and_eq_true, decide_eq_true_eq] at hcd
    exact hcd.2
  unfold typeValue
  rw [hlow]
  rw [if_neg (by
    intro hb
    have he : pyStrNat m = "true" := by simpa using hb
    have hct : c = 't' := by
      have := congrArg String.data he
      rw [hd] at this
      injection this with h1 _
    subst hct
    exact absurd hc57 (by decide))]
  rw [if_neg (by
    intro hb
    have he : pyStrNat m = "false" := by simpa using hb
    have hcf : c = 'f' := by
      have := congrArg String.data he
      rw [hd] at this
      injection this with h1 _
    subst hcf
    exact absurd hc57 (by decide))]
  rw [if_pos (by
    unfold pyIsDigit
    rw [Bool.and_eq_true]
    refine ⟨by simpa using pyStrNat_ne_empty m, ?_⟩
    rw [List.all_eq_true]
    exact fun x hx => pyStrNat_all_digits m x hx)]
  rw [digitsVal_pyStrNat]

/-- Parsing back a rendered settings value recovers the original. -/
theorem typeValue_settingValueStr (sv : SettingValue) (h : settingValOK sv) :
    typeValue (settingValueStr sv) = sv := by
  cases sv with
  | b v => cases v <;> decide
  | i n =>
    have h0 : (0 : Int) ≤ n := h
    show typeValue (pyStrInt n) = .i n
    have he : pyStrInt n = pyStrNat n.toNat := by
      unfold pyStrInt
      rw [if_neg (by omega)]
    rw [he, typeValue_pyStrNat]
    congr 1
    omega
  | s v =>
    obtain ⟨_, _, h1, h2, h3⟩ := h
    show typeValue v = .s v
    unfold typeValue
    rw [if_neg (by simpa using h1), if_neg (by simpa using h2), h3]
    simp

/-- The strings produced for a valid settings value are strip-stable and
newline-free. -/
theorem settingValueStr_clean (sv : SettingValue) (h : settingValOK sv) :
    stripData (settingValueStr sv).data = (settingValueStr sv).data
      ∧ ¬ '\n' ∈ (settingValueStr sv).data := by
  cases sv with
  | b v => cases v <;> exact ⟨by decide, by decide⟩
  | i n =>
    refine ⟨stripData_pyStrInt n, ?_⟩
    intro hm
    have hm2 : '\n' ∈ (pyStrInt n).data := hm
    unfold pyStrInt at hm2
    split at hm2
    · rw [String.data_append] at hm2
      rcases List.mem_append.mp hm2 with h1 | h1
      · simp at h1
      · exact absurd (pyStrNat_all_digits _ _ h1) (by decide)
    · exact absurd (pyStrNat_all_digits _ _ hm2) (by decide)
  | s v => exact ⟨h.1, h.2.1⟩

/-- A `key: value` line in the `SETTINGS` section inserts the typed value. -/
theorem stepLine_settings_kv (gen : Nat → String) (now : Int) (st : ParseState)
    (rest : List String) (k v : String)
    (hsec : st.currentSection = some .settings)
    (hk1 : stripData k.data = k.data) (hk2 : k.data ≠ []) (hk3 : ¬ ':' ∈ k.data)
    (hk4 : k ≠ "Version")
    (hk5 : k.data.head? ≠ some '=') (hk6 : k.data.head? ≠ some '-')
    (hv : stripData v.data = v.data) :
    stepLine gen now st (k ++ ": " ++ v) rest
      = { st with settings := dictInsert k (typeValue v) st.settings } := by
  obtain ⟨c, t, hkd⟩ : ∃ c t, k.data = c :: t := by
    cases hk : k.data with
    | nil => exact absurd hk hk2
    | cons a b => exact ⟨a, b, rfl⟩
  have hlabstable : stripData (k ++ ":").data = (k ++ ":").data := by
    rw [String.data_append]
    show stripData (k.data ++ [':']) = k.data ++ [':']
    unfold stripData ldrop
    rw [List.dropWhile_append]
    have h1 : (List.dropWhile isPyWs k.data).isEmpty = false := by
      rw [show List.dropWhile isPyWs k.data = k.data from ldrop_eq_self_of_strip _ hk1]
      simpa [List.isEmpty_iff] using hk2
    rw [h1]
    simp only [Bool.false_eq_true, if_false]
    rw [show List.dropWhile isPyWs k.data = k.data from ldrop_eq_self_of_strip _ hk1]
    exact rdrop_append_singleton k.data ':' (by decide)
  have hgrp : (k ++ ": " ++ v : String) = (k ++ ":") ++ " " ++ v := by
    apply String.ext
    simp [String.data_append]
  have hS : pyStrip (k ++ ": " ++ v) = (k ++ ":") ++ optSp v := by
    rw [hgrp]
    exact pyStrip_label_value (k ++ ":") v hlabstable (by simp [String.data_append, hkd]) hv
  have hSd : ((k ++ ":") ++ optSp v).data = k.data ++ ':' :: (optSp v).data := by
    simp [String.data_append]
  have hSd2 : ((k ++ ":") ++ optSp v).data = c :: (t ++ ':' :: (optSp v).data) := by
    rw [hSd, hkd]
    simp
  have hch : isPyWs c = false := by
    have := hk1
    rw [hkd] at this
    exact head_not_ws_of_strip c t this
  have hc5 : ('=' == c) = false := by
    rw [beq_eq_false_iff_ne]
    intro he
    exact hk5 (by rw [hkd, ← he]; rfl)
  have hc6 : ('-' == c) = false := by
    rw [beq_eq_false_iff_ne]
    intro he
    exact hk6 (by rw [hkd, ← he]; rfl)
  rw [stepLine_dispatch gen now st _ rest _ hS
    (String_beq_false_of_ne _ _ (by rw [hSd2]; simp))
    (by unfold pyStartsWith; rw [hSd2]; simp [List.isPrefixOf, hc5])
    (by unfold pyStartsWith; rw [hSd2]; simp [List.isPrefixOf, hc6])
    (by
      unfold pyStartsWith
      rw [hSd]
      rw [show ("Version:" : String).data = "Version".data ++ [':'] from by decide]
      rw [colon_label_prefix_iff "Version".data k.data _ (by decide) hk3]
      simp only [decide_eq_false_iff_not]
      intro he
      exact hk4 (String.ext he.symm))
    (String_beq_false_of_colon _ _ (by rw [hSd]; simp [hkd]) (by decide))
    (String_beq_false_of_colon _ _ (by rw [hSd]; simp [hkd]) (by decide))
    (String_beq_false_of_colon _ _ (by rw [hSd]; simp [hkd]) (by decide))]
  simp only [hsec]
  unfold settingsStep
  have hcontains : pyContainsChar ((k ++ ":") ++ optSp v) ':' = true := by
    unfold pyContainsChar
    rw [hSd]
    simp
  have hbr : breakAtChar ':' ((k ++ ":") ++ optSp v).data = (k.data, some (optSp v).data) := by
    rw [hSd]
    exact breakAtChar_append_first ':' _ _ hk3
  have hkey : pyStrip (beforeFirst ':' ((k ++ ":") ++ optSp v)) = k := by
    unfold beforeFirst
    rw [hbr]
    show pyStrip ⟨k.data⟩ = k
    rw [mk_data]
    exact pyStrip_of_stable k hk1
  have hval : pyStrip (afterFirst ':' ((k ++ ":") ++ optSp v)) = v := by
    unfold afterFirst
    rw [hbr]
    show pyStrip ⟨(optSp v).data⟩ = v
    rw [mk_data]
    exact pyStrip_optSp v hv
  rw [hcontains]
  simp only [if_true]
  rw [hkey, hval, hsec]

/-! ## Noise lines and the basic loop equation -/

theorem processLines_cons (gen : Nat → String) (now : Int) (st : ParseState)
    (l : String) (rest : List String) :
    processLines gen now st (l :: rest)
      = processLines gen now (stepLine gen now st l rest) rest := rfl

theorem processLines_nil (gen : Nat → String) (now : Int) (st : ParseState) :
    processLines gen now st [] = st := rfl

theorem stepLine_blank (gen : Nat → String) (now : Int) (st : ParseState)
    (rest : List String) :
    stepLine gen now st "" rest = st := rfl

theorem stepLine_run_eq (gen : Nat → String) (now : Int) (st : ParseState)
    (rest : List String) (n : Nat) :
    stepLine gen now st (charRun '=' n) rest = st := by
  apply stepLine_skip gen now st _ rest (charRun '=' n)
  · apply pyStrip_of_stable
    apply stripData_of_all_not_ws
    intro x hx
    have hx2 : x = '=' := List.eq_of_mem_replicate hx
    subst hx2
    rfl
  · cases n with
    | zero => decide
    | succ m =>
      have h : pyStartsWith (charRun '=' (m + 1)) "=" = true := by
        unfold pyStartsWith charRun
        rw [data_mk, List.replicate_succ]
        simp [List.isPrefixOf]
      simp [h]

theorem stepLine_run_dash (gen : Nat → String) (now : Int) (st : ParseState)
    (rest : List String) (n : Nat) :
    stepLine gen now st (charRun '-' n) rest = st := by
  apply stepLine_skip gen now st _ rest (charRun '-' n)
  · apply pyStrip_of_stable
    apply stripData_of_all_not_ws
    intro x hx
    have hx2 : x = '-' := List.eq_of_mem_replicate hx
    subst hx2
    rfl
  · cases n with
    | zero => decide
    | succ m =>
      have h : pyStartsWith (charRun '-' (m + 1)) "-" = true := by
        unfold pyStartsWith charRun
        rw [data_mk, List.replicate_succ]
        simp [List.isPrefixOf]
      simp [h]

theorem stepLine_entry_noiseB (gen : Nat → String) (now : Int) (st : ParseState)
    (l : String) (rest : List String) (S : String) (hS : pyStrip l = S)
    (hsec : st.currentSection = some .entries) (hB : entryNoiseCheck S = true) :
    stepLine gen now st l rest = st := by
  unfold entryNoiseCheck at hB
  simp only [Bool.and_eq_true, Bool.not_eq_true', Bool.not_eq_eq_eq_not, Bool.not_true] at hB
  obtain ⟨⟨⟨⟨⟨⟨⟨⟨⟨⟨⟨⟨⟨⟨⟨⟨⟨⟨b1, b2⟩, b3⟩, b4⟩, b5⟩, b6⟩, b7⟩, b8⟩, b9⟩, b10⟩,
    b11⟩, b12⟩, b13⟩, b14⟩, b15⟩, b16⟩, b17⟩, b18⟩, b19⟩ := hB
  exact stepLine_entry_noise gen now st l rest S hS hsec b1 b2 b3 b4 b5 b6 b7 b8 b9 b10 b11
    b12 b13 b14 b15 b16 b17 b18 b19

/-! ## Representable values: the fields the text form can carry faithfully -/

/-! ## Block lemmas: one serialized record block at a time -/

/-! ## Constructor-form step lemmas, for chaining through serialized blocks -/

theorem stepLine_version' (gen : Nat → String) (now : Int) (i : Int)
    {ver : Int} {ents : List Entry} {cats : List Category}
    {sets : List (String × SettingValue)} {sec : Option SectionState}
    {curE : Option Entry} {curC : Option Category} {n : Nat} {rest : List String} :
    stepLine gen now ⟨ver, ents, cats, sets, sec, curE, curC, n⟩
        ("Version: " ++ pyStrInt i) rest
      = ⟨i, ents, cats, sets, sec, curE, curC, n⟩ :=
  stepLine_version gen now ⟨ver, ents, cats, sets, sec, curE, curC, n⟩ rest i

theorem stepLine_header_categories' (gen : Nat → String) (now : Int)
    {ver : Int} {ents : List Entry} {cats : List Category}
    {sets : List (String × SettingValue)} {sec : Option SectionState}
    {curE : Option Entry} {curC : Option Category} {n : Nat} {rest : List String} :
    stepLine gen now ⟨ver, ents, cats, sets, sec, curE, curC, n⟩ "CATEGORIES" rest
      = ⟨ver, ents, cats, sets, some .categories, curE, curC, n⟩ := rfl

theorem stepLine_header_entries' (gen : Nat → String) (now : Int)
    {ver : Int} {ents : List Entry} {cats : List Category}
    {sets : List (String × SettingValue)} {sec : Option SectionState}
    {curE : Option Entry} {curC : Option Category} {n : Nat} {rest : List String} :
    stepLine gen now ⟨ver, ents, cats, sets, sec, curE, curC, n⟩ "LORE ENTRIES" rest
      = ⟨ver, ents, cats, sets, some .entries, curE, curC, n⟩ := rfl

theorem stepLine_header_settings' (gen : Nat → String) (now : Int)
    {ver : Int} {ents : List Entry} {cats : List Category}
    {sets : List (String × SettingValue)} {sec : Option SectionState}
    {curE : Option Entry} {curC : Option Category} {n : Nat} {rest : List String} :
    stepLine gen now ⟨ver, ents, cats, sets, sec, curE, curC, n⟩ "SETTINGS" rest
      = ⟨ver, ents, cats, sets, some .settings, curE, curC, n⟩ := rfl

theorem stepLine_cat_category' (gen : Nat → String) (now : Int) (name : String)
    (hname : stripData name.data = name.data)
    {ver : Int} {ents : List Entry} {cats : List Category}
    {sets : List (String × SettingValue)}
    {curE : Option Entry} {curC : Option Category} {n : Nat} {rest : List String} :
    stepLine gen now ⟨ver, ents, cats, sets, some .categories, curE, curC, n⟩
        ("Category: " ++ name) rest
      = ⟨ver, ents, cats ++ optCategory curC, sets, some .categories, curE,
          some ⟨name, gen n, true, false, get_default_context_config, false, [], [], []⟩,
          n + 1⟩ :=
  stepLine_cat_category gen now ⟨ver, ents, cats, sets, some .categories, curE, curC, n⟩
    rest name rfl hname

theorem stepLine_cat_id' (gen : Nat → String) (now : Int) (cid : String)
    (hid : stripData cid.data = cid.data)
    {ver : Int} {ents : List Entry} {cats : List Category}
    {sets : List (String × SettingValue)}
    {curE : Option Entry} {cn ci : String} {ce cs : Bool} {sc : ContextConfig}
    {ud : Bool} {cd : List (String × SettingValue)} {cb : List BiasGroup}
    {cg : List (String × SettingValue)} {n : Nat} {rest : List String} :
    stepLine gen now ⟨ver, ents, cats, sets, some .categories, curE,
        some ⟨cn, ci, ce, cs, sc, ud, cd, cb, cg⟩, n⟩
        ("ID: " ++ cid) rest
      = ⟨ver, ents, cats, sets, some .categories, curE,
          some ⟨cn, cid, ce, cs, sc, ud, cd, cb, cg⟩, n⟩ :=
  stepLine_cat_id gen now ⟨ver, ents, cats, sets, some .categories, curE,
    some ⟨cn, ci, ce, cs, sc, ud, cd, cb, cg⟩, n⟩
    ⟨cn, ci, ce, cs, sc, ud, cd, cb, cg⟩ rest cid rfl rfl hid

theorem stepLine_cat_enabled' (gen : Nat → String) (now : Int) (b : Bool)
    {ver : Int} {ents : List Entry} {cats : List Category}
    {sets : List (String × SettingValue)}
    {curE : Option Entry} {cn ci : String} {ce cs : Bool} {sc : ContextConfig}
    {ud : Bool} {cd : List (String × SettingValue)} {cb : List BiasGroup}
    {cg : List (String × SettingValue)} {n : Nat} {rest : List String} :
    stepLine gen now ⟨ver, ents, cats, sets, some .categories, curE,
        some ⟨cn, ci, ce, cs, sc, ud, cd, cb, cg⟩, n⟩
        ("Enabled: " ++ pyBoolStr b) rest
      = ⟨ver, ents, cats, sets, some .categories, curE,
          some ⟨cn, ci, b, cs, sc, ud, cd, cb, cg⟩, n⟩ :=
  stepLine_cat_enabled gen now ⟨ver, ents, cats, sets, some .categories, curE,
    some ⟨cn, ci, ce, cs, sc, ud, cd, cb, cg⟩, n⟩
    ⟨cn, ci, ce, cs, sc, ud, cd, cb, cg⟩ rest b rfl rfl

theorem stepLine_entry_header' (gen : Nat → String) (now : Int) (k : Nat)
    {ver : Int} {ents : List Entry} {cats : List Category}
    {sets : List (String × SettingValue)}
    {curE : Option Entry} {curC : Option Category} {n : Nat} {rest : List String} :
    stepLine gen now ⟨ver, ents, cats, sets, some .entries, curE, curC, n⟩
        ("ENTRY #" ++ pyStrNat k) rest
      = ⟨ver, ents ++ optEntry curE, cats, sets, some .entries,
          some ⟨"", ⟨"", "\n", 100, 0, 400, "trimBottom", "newline", "sentence", -1⟩,
            now, "", gen n, [], 1000, true, false, false, false, "", [], []⟩,
          curC, n + 1⟩ :=
  stepLine_entry_header gen now ⟨ver, ents, cats, sets, some .entries, curE, curC, n⟩
    rest k rfl

theorem stepLine_entry_displayName' (gen : Nat → String) (now : Int) (dn : String)
    (hdn : stripData dn.data = dn.data)
    {ver : Int} {ents : List Entry} {cats : List Category}
    {sets : List (String × SettingValue)}
    {t : String} {cfg : ContextConfig} {lu : Int} {d0 i0 : String}
    {ks : List String} {sr : Int} {en fa kr ns : Bool} {ct : String}
    {lb : List BiasGroup} {ac : List AdvancedCondition}
    {curC : Option Category} {n : Nat} {rest : List String} :
    stepLine gen now ⟨ver, ents, cats, sets, some .entries,
        some ⟨t, cfg, lu, d0, i0, ks, sr, en, fa, kr, ns, ct, lb, ac⟩, curC, n⟩
        ("Display Name: " ++ dn) rest
      = ⟨ver, ents, cats, sets, some .entries,
          some ⟨t, cfg, lu, dn, i0, ks, sr, en, fa, kr, ns, ct, lb, ac⟩, curC, n⟩ :=
  stepLine_entry_displayName gen now ⟨ver, ents, cats, sets, some .entries,
    some ⟨t, cfg, lu, d0, i0, ks, sr, en, fa, kr, ns, ct, lb, ac⟩, curC, n⟩
    ⟨t, cfg, lu, d0, i0, ks, sr, en, fa, kr, ns, ct, lb, ac⟩ rest dn rfl rfl hdn

theorem stepLine_entry_id' (gen : Nat → String) (now : Int) (eid : String)
    (hid : stripData eid.data = eid.data)
    {ver : Int} {ents : List Entry} {cats : List Category}
    {sets : List (String × SettingValue)}
    {t : String} {cfg : ContextConfig} {lu : Int} {d0 i0 : String}
    {ks : List String} {sr : Int} {en fa kr ns : Bool} {ct : String}
    {lb : List BiasGroup} {ac : List AdvancedCondition}
    {curC : Option Category} {n : Nat} {rest : List String} :
    stepLine gen now ⟨ver, ents, cats, sets, some .entries,
        some ⟨t, cfg, lu, d0, i0, ks, sr, en, fa, kr, ns, ct, lb, ac⟩, curC, n⟩
        ("ID: " ++ eid) rest
      = ⟨ver, ents, cats, sets, some .entries,
          some ⟨t, cfg, lu, d0, eid, ks, sr, en, fa, kr, ns, ct, lb, ac⟩, curC, n⟩ :=
  stepLine_entry_id gen now ⟨ver, ents, cats, sets, some .entries,
    some ⟨t, cfg, lu, d0, i0, ks, sr, en, fa, kr, ns, ct, lb, ac⟩, curC, n⟩
    ⟨t, cfg, lu, d0, i0, ks, sr, en, fa, kr, ns, ct, lb, ac⟩ rest eid rfl rfl hid

theorem stepLine_entry_category' (gen : Nat → String) (now : Int) (revName cat : String)
    (hrn : stripData revName.data = revName.data) (hrne : revName.data ≠ [])
    (hrnp : ¬ '(' ∈ revName.data)
    (hcs : stripData cat.data = cat.data) (hcp1 : ¬ '(' ∈ cat.data)
    (hcp2 : ¬ ')' ∈ cat.data)
    {ver : Int} {ents : List Entry} {cats : List Category}
    {sets : List (String × SettingValue)}
    {t : String} {cfg : ContextConfig} {lu : Int} {d0 i0 : String}
    {ks : List String} {sr : Int} {en fa kr ns : Bool} {ct : String}
    {lb : List BiasGroup} {ac : List AdvancedCondition}
    {curC : Option Category} {n : Nat} {rest : List String} :
    stepLine gen now ⟨ver, ents, cats, sets, some .entries,
        some ⟨t, cfg, lu, d0, i0, ks, sr, en, fa, kr, ns, ct, lb, ac⟩, curC, n⟩
        ("Category: " ++ revName ++ " (" ++ cat ++ ")") rest
      = ⟨ver, ents, cats, sets, some .entries,
          some ⟨t, cfg, lu, d0, i0, ks, sr, en, fa, kr, ns, cat, lb, ac⟩, curC, n⟩ :=
  stepLine_entry_category gen now ⟨ver, ents, cats, sets, some .entries,
    some ⟨t, cfg, lu, d0, i0, ks, sr, en, fa, kr, ns, ct, lb, ac⟩, curC, n⟩
    ⟨t, cfg, lu, d0, i0, ks, sr, en, fa, kr, ns, ct, lb, ac⟩ rest revName cat rfl rfl
    hrn hrne hrnp hcs hcp1 hcp2

theorem stepLine_entry_keys' (gen : Nat → String) (now : Int) (keys : List String)
    (hne : keys ≠ [])
    (hks : ∀ k ∈ keys, stripData k.data = k.data ∧ k ≠ "" ∧ ¬ ',' ∈ k.data)
    {ver : Int} {ents : List Entry} {cats : List Category}
    {sets : List (String × SettingValue)}
    {t : String} {cfg : ContextConfig} {lu : Int} {d0 i0 : String}
    {ks : List String} {sr : Int} {en fa kr ns : Bool} {ct : String}
    {lb : List BiasGroup} {ac : List AdvancedCondition}
    {curC : Option Category} {n : Nat} {rest : List String} :
    stepLine gen now ⟨ver, ents, cats, sets, some .entries,
        some ⟨t, cfg, lu, d0, i0, ks, sr, en, fa, kr, ns, ct, lb, ac⟩, curC, n⟩
        ("Activation Keys: " ++ pyJoin ", " keys) rest
      = ⟨ver, ents, cats, sets, some .entries,
          some ⟨t, cfg, lu, d0, i0, keys, sr, en, fa, kr, ns, ct, lb, ac⟩, curC, n⟩ :=
  stepLine_entry_keys gen now ⟨ver, ents, cats, sets, some .entries,
    some ⟨t, cfg, lu, d0, i0, ks, sr, en, fa, kr, ns, ct, lb, ac⟩, curC, n⟩
    ⟨t, cfg, lu, d0, i0, ks, sr, en, fa, kr, ns, ct, lb, ac⟩ rest keys rfl rfl hne hks

theorem stepLine_entry_enabled' (gen : Nat → String) (now : Int) (b : Bool)
    {ver : Int} {ents : List Entry} {cats : List Category}
    {sets : List (String × SettingValue)}
    {t : String} {cfg : ContextConfig} {lu : Int} {d0 i0 : String}
    {ks : List String} {sr : Int} {en fa kr ns : Bool} {ct : String}
    {lb : List BiasGroup} {ac : List AdvancedCondition}
    {curC : Option Category} {n : Nat} {rest : List String} :
    stepLine gen now ⟨ver, ents, cats, sets, some .entries,
        some ⟨t, cfg, lu, d0, i0, ks, sr, en, fa, kr, ns, ct, lb, ac⟩, curC, n⟩
        ("Enabled: " ++ pyBoolStr b) rest
      = ⟨ver, ents, cats, sets, some .entries,
          some ⟨t, cfg, lu, d0, i0, ks, sr, b, fa, kr, ns, ct, lb, ac⟩, curC, n⟩ :=
  stepLine_entry_enabled gen now ⟨ver, ents, cats, sets, some .entries,
    some ⟨t, cfg, lu, d0, i0, ks, sr, en, fa, kr, ns, ct, lb, ac⟩, curC, n⟩
    ⟨t, cfg, lu, d0, i0, ks, sr, en, fa, kr, ns, ct, lb, ac⟩ rest b rfl rfl

theorem stepLine_entry_forceActivation' (gen : Nat → String) (now : Int) (b : Bool)
    {ver : Int} {ents : List Entry} {cats : List Category}
    {sets : List (String × SettingValue)}
    {t : String} {cfg : ContextConfig} {lu : Int} {d0 i0 : String}
    {ks : List String} {sr : Int} {en fa kr ns : Bool} {ct : String}
    {lb : List BiasGroup} {ac : List AdvancedCondition}
    {curC : Option Category} {n : Nat} {rest : List String} :
    stepLine gen now ⟨ver, ents, cats, sets, some .entries,
        some ⟨t, cfg, lu, d0, i0, ks, sr, en, fa, kr, ns, ct, lb, ac⟩, curC, n⟩
        ("Force Activation: " ++ pyBoolStr b) rest
      = ⟨ver, ents, cats, sets, some .entries,
          some ⟨t, cfg, lu, d0, i0, ks, sr, en, b, kr, ns, ct, lb, ac⟩, curC, n⟩ :=
  stepLine_entry_forceActivation gen now ⟨ver, ents, cats, sets, some .entries,
    some ⟨t, cfg, lu, d0, i0, ks, sr, en, fa, kr, ns, ct, lb, ac⟩, curC, n⟩
    ⟨t, cfg, lu, d0, i0, ks, sr, en, fa, kr, ns, ct, lb, ac⟩ rest b rfl rfl

theorem stepLine_entry_searchRange' (gen : Nat → String) (now : Int) (i : Int)
    {ver : Int} {ents : List Entry} {cats : List Category}
    {sets : List (String × SettingValue)}
    {t : String} {cfg : ContextConfig} {lu : Int} {d0 i0 : String}
    {ks : List String} {sr : Int} {en fa kr ns : Bool} {ct : String}
    {lb : List BiasGroup} {ac : List AdvancedCondition}
    {curC : Option Category} {n : Nat} {rest : List String} :
    stepLine gen now ⟨ver, ents, cats, sets, some .entries,
        some ⟨t, cfg, lu, d0, i0, ks, sr, en, fa, kr, ns, ct, lb, ac⟩, curC, n⟩
        ("Search Range: " ++ pyStrInt i) rest
      = ⟨ver, ents, cats, sets, some .entries,
          some ⟨t, cfg, lu, d0, i0, ks, i, en, fa, kr, ns, ct, lb, ac⟩, curC, n⟩ :=
  stepLine_entry_searchRange gen now ⟨ver, ents, cats, sets, some .entries,
    some ⟨t, cfg, lu, d0, i0, ks, sr, en, fa, kr, ns, ct, lb, ac⟩, curC, n⟩
    ⟨t, cfg, lu, d0, i0, ks, sr, en, fa, kr, ns, ct, lb, ac⟩ rest i rfl rfl

theorem stepLine_entry_tokenBudget' (gen : Nat → String) (now : Int) (i : Int)
    {ver : Int} {ents : List Entry} {cats : List Category}
    {sets : List (String × SettingValue)}
    {t : String} {p1 p2 : String} {p3 p4 p5 : Int} {p6 p7 p8 : String} {p9 : Int}
    {lu : Int} {d0 i0 : String}
    {ks : List String} {sr : Int} {en fa kr ns : Bool} {ct : String}
    {lb : List BiasGroup} {ac : List AdvancedCondition}
    {curC : Option Category} {n : Nat} {rest : List String} :
    stepLine gen now ⟨ver, ents, cats, sets, some .entries,
        some ⟨t, ⟨p1, p2, p3, p4, p5, p6, p7, p8, p9⟩, lu, d0, i0, ks, sr, en, fa,
          kr, ns, ct, lb, ac⟩, curC, n⟩
        ("Token Budget: " ++ pyStrInt i) rest
      = ⟨ver, ents, cats, sets, some .entries,
          some ⟨t, ⟨p1, p2, i, p4, p5, p6, p7, p8, p9⟩, lu, d0, i0, ks, sr, en, fa,
            kr, ns, ct, lb, ac⟩, curC, n⟩ :=
  stepLine_entry_tokenBudget gen now ⟨ver, ents, cats, sets, some .entries,
    some ⟨t, ⟨p1, p2, p3, p4, p5, p6, p7, p8, p9⟩, lu, d0, i0, ks, sr, en, fa,
      kr, ns, ct, lb, ac⟩, curC, n⟩
    ⟨t, ⟨p1, p2, p3, p4, p5, p6, p7, p8, p9⟩, lu, d0, i0, ks, sr, en, fa,
      kr, ns, ct, lb, ac⟩ rest i rfl rfl

theorem stepLine_entry_budgetPriority' (gen : Nat → String) (now : Int) (i : Int)
    {ver : Int} {ents : List Entry} {cats : List Category}
    {sets : List (String × SettingValue)}
    {t : String} {p1 p2 : String} {p3 p4 p5 : Int} {p6 p7 p8 : String} {p9 : Int}
    {lu : Int} {d0 i0 : String}
    {ks : List String} {sr : Int} {en fa kr ns : Bool} {ct : String}
    {lb : List BiasGroup} {ac : List AdvancedCondition}
    {curC : Option Category} {n : Nat} {rest : List String} :
    stepLine gen now ⟨ver, ents, cats, sets, some .entries,
        some ⟨t, ⟨p1, p2, p3, p4, p5, p6, p7, p8, p9⟩, lu, d0, i0, ks, sr, en, fa,
          kr, ns, ct, lb, ac⟩, curC, n⟩
        ("Budget Priority: " ++ pyStrInt i) rest
      = ⟨ver, ents, cats, sets, some .entries,
          some ⟨t, ⟨p1, p2, p3, p4, i, p6, p7, p8, p9⟩, lu, d0, i0, ks, sr, en, fa,
            kr, ns, ct, lb, ac⟩, curC, n⟩ :=
  stepLine_entry_budgetPriority gen now ⟨ver, ents, cats, sets, some .entries,
    some ⟨t, ⟨p1, p2, p3, p4, p5, p6, p7, p8, p9⟩, lu, d0, i0, ks, sr, en, fa,
      kr, ns, ct, lb, ac⟩, curC, n⟩
    ⟨t, ⟨p1, p2, p3, p4, p5, p6, p7, p8, p9⟩, lu, d0, i0, ks, sr, en, fa,
      kr, ns, ct, lb, ac⟩ rest i rfl rfl

theorem stepLine_entry_trimDirection' (gen : Nat → String) (now : Int) (td : String)
    (htd : stripData td.data = td.data)
    {ver : Int} {ents : List Entry} {cats : List Category}
    {sets : List (String × SettingValue)}
    {t : String} {p1 p2 : String} {p3 p4 p5 : Int} {p6 p7 p8 : String} {p9 : Int}
    {lu : Int} {d0 i0 : String}
    {ks : List String} {sr : Int} {en fa kr ns : Bool} {ct : String}
    {lb : List BiasGroup} {ac : List AdvancedCondition}
    {curC : Option Category} {n : Nat} {rest : List String} :
    stepLine gen now ⟨ver, ents, cats, sets, some .entries,
        some ⟨t, ⟨p1, p2, p3, p4, p5, p6, p7, p8, p9⟩, lu, d0, i0, ks, sr, en, fa,
          kr, ns, ct, lb, ac⟩, curC, n⟩
        ("Trim Direction: " ++ td) rest
      = ⟨ver, ents, cats, sets, some .entries,
          some ⟨t, ⟨p1, p2, p3, p4, p5, td, p7, p8, p9⟩, lu, d0, i0, ks, sr, en, fa,
            kr, ns, ct, lb, ac⟩, curC, n⟩ :=
  stepLine_entry_trimDirection gen now ⟨ver, ents, cats, sets, some .entries,
    some ⟨t, ⟨p1, p2, p3, p4, p5, p6, p7, p8, p9⟩, lu, d0, i0, ks, sr, en, fa,
      kr, ns, ct, lb, ac⟩, curC, n⟩
    ⟨t, ⟨p1, p2, p3, p4, p5, p6, p7, p8, p9⟩, lu, d0, i0, ks, sr, en, fa,
      kr, ns, ct, lb, ac⟩ rest td rfl rfl htd

theorem stepLine_entry_noiseC (gen : Nat → String) (now : Int) (l : String)
    (hB : entryNoiseCheck (pyStrip l) = true)
    {ver : Int} {ents : List Entry} {cats : List Category}
    {sets : List (String × SettingValue)}
    {curE : Option Entry} {curC : Option Category} {n : Nat} {rest : List String} :
    stepLine gen now ⟨ver, ents, cats, sets, some .entries, curE, curC, n⟩ l rest
      = ⟨ver, ents, cats, sets, some .entries, curE, curC, n⟩ :=
  stepLine_entry_noiseB gen now ⟨ver, ents, cats, sets, some .entries, curE, curC, n⟩
    l rest (pyStrip l) rfl rfl hB

theorem stepLine_settings_kv' (gen : Nat → String) (now : Int) (k v : String)
    (hk : RepresentableSettingKey k) (hv : stripData v.data = v.data)
    {ver : Int} {ents : List Entry} {cats : List Category}
    {sets : List (String × SettingValue)}
    {curE : Option Entry} {curC : Option Category} {n : Nat} {rest : List String} :
    stepLine gen now ⟨ver, ents, cats, sets, some .settings, curE, curC, n⟩
        (k ++ ": " ++ v) rest
      = ⟨ver, ents, cats, dictInsert k (typeValue v) sets, some .settings,
          curE, curC, n⟩ := by
  obtain ⟨h1, h2, h3, _, h4, h5, h6⟩ := hk
  exact stepLine_settings_kv gen now ⟨ver, ents, cats, sets, some .settings, curE, curC, n⟩
    rest k v rfl h1 h2 h3 h4 h5 h6 hv

/-! ## Block lemmas: one serialized record block at a time -/

/-- Processing the serialized block of one representable category: the pending
category is flushed and the block's category becomes pending. -/
theorem process_categoryLines (gen : Nat → String) (now : Int) (c : Category)
    (hc : RepresentableCategory c)
    {ver : Int} {ents : List Entry} {cats : List Category}
    {sets : List (String × SettingValue)}
    {curE : Option Entry} {curC : Option Category} {n : Nat} (rest : List String) :
    processLines gen now ⟨ver, ents, cats, sets, some .categories, curE, curC, n⟩
        (categoryLines c ++ rest)
      = processLines gen now
          ⟨ver, ents, cats ++ optCategory curC, sets, some .categories, curE,
            some c, n + 1⟩ rest := by
  obtain ⟨hn1, hn2, hn3, hn4, hi1, hi2, hcsx, hss, hud, hcd, hcb, hst⟩ := hc
  have hlines : categoryLines c ++ rest
      = ("Category: " ++ c.name) :: ("ID: " ++ c.id)
        :: ("Enabled: " ++ pyBoolStr c.enabled) :: "" :: rest := by
    unfold categoryLines
    rw [hcsx]
    simp
  rw [hlines]
  rw [processLines_cons, stepLine_cat_category' gen now c.name hn1]
  rw [processLines_cons, stepLine_cat_id' gen now c.id hi1]
  rw [processLines_cons, stepLine_cat_enabled' gen now c.enabled]
  rw [processLines_cons, stepLine_blank]
  have hE : (⟨c.name, c.id, c.enabled, false, get_default_context_config,
      false, [], [], []⟩ : Category) = c := by
    obtain ⟨nx, ix, enx, csx, ssx, udx, cdx, cbx, sx⟩ := c
    simp_all
  rw [hE]

/-- With all categories representable, the rendered category name on an entry
line is strip-stable, nonempty and free of `(` — whatever id is looked up. -/
theorem reverseCategoryLookup_repr (cats : List Category) (cid : String)
    (hc : ∀ c ∈ cats, RepresentableCategory c) :
    stripData (reverseCategoryLookup cats cid).data = (reverseCategoryLookup cats cid).data
    ∧ (reverseCategoryLookup cats cid).data ≠ []
    ∧ ¬ '(' ∈ (reverseCategoryLookup cats cid).data
    ∧ ¬ '\n' ∈ (reverseCategoryLookup cats cid).data := by
  unfold reverseCategoryLookup
  rcases hf : cats.reverse.find? (fun c => c.id == cid) with _ | c
  · simp only [hf]
    exact ⟨by decide, by decide, by decide, by decide⟩
  · simp only [hf]
    have hm : c ∈ cats := List.mem_reverse.mp (List.mem_of_find?_eq_some hf)
    obtain ⟨h1, h2, h3, h4, _⟩ := hc c hm
    refine ⟨h1, ?_, h4, h3⟩
    intro hnil
    exact h2 (String.ext hnil)

/-- The serialized block of a representable entry, fully reduced. -/
theorem entryLines_eq (allcats : List Category) (i : Nat) (e : Entry)
    (htext : e.text = "") (hadv : e.advancedConditions = [])
    (hbias : e.loreBiasGroups = [])
    (hpre : e.contextConfig.prefixStr = "") (hsuf : e.contextConfig.suffix = "\n") :
    entryLines allcats i e =
      ["ENTRY #" ++ pyStrNat i,
       charRun '=' 60,
       "Display Name: " ++ e.displayName,
       "ID: " ++ e.id,
       "Category: " ++ reverseCategoryLookup allcats e.category ++ " (" ++ e.category ++ ")",
       "Activation Keys: " ++ pyJoin ", " e.keys,
       "Enabled: " ++ pyBoolStr e.enabled,
       "Force Activation: " ++ pyBoolStr e.forceActivation,
       "Search Range: " ++ pyStrInt e.searchRange,
       "",
       "CONTENT:",
       charRun '-' 20,
       "",
       "",
       "CONTEXT CONFIGURATION:",
       charRun '-' 25,
       "Prefix: \x27\x27",
       "Suffix: \x27\\n\x27",
       "Token Budget: " ++ pyStrInt e.contextConfig.tokenBudget,
       "Budget Priority: " ++ pyStrInt e.contextConfig.budgetPriority,
       "Trim Direction: " ++ e.contextConfig.trimDirection,
       "",
       "ADVANCED CONDITIONS:",
       charRun '-' 22,
       "  (No advanced conditions)",
       "",
       "LORE BIAS GROUPS:",
       charRun '-' 18,
       "  (No lore bias groups)",
       "",
       ""] := by
  have hct : contentLines e.text = [""] := by
    rw [htext]
    decide
  have hpl : (if e.contextConfig.prefixStr ≠ "" then
        "Prefix: " ++ pyRepr e.contextConfig.prefixStr
      else "Prefix: \x27\x27") = "Prefix: \x27\x27" := by
    rw [hpre]
    decide
  have hsl : (if e.contextConfig.suffix ≠ "" then
        "Suffix: " ++ pyRepr e.contextConfig.suffix
      else "Suffix: \x27\\n\x27") = "Suffix: \x27\\n\x27" := by
    rw [hsuf]
    decide
  unfold entryLines
  rw [hct, hpl, hsl, hadv, hbias]
  simp

/-- Congruence of the line fold in the open-entry slot. -/
theorem processLines_congrEntry (gen : Nat → String) (now : Int)
    {ver : Int} {ents : List Entry} {cats : List Category}
    {sets : List (String × SettingValue)} {sec : Option SectionState}
    {curC : Option Category} {n : Nat} {rest : List String}
    {E1 E2 : Option Entry} (h : E1 = E2) :
    processLines gen now ⟨ver, ents, cats, sets, sec, E1, curC, n⟩ rest
      = processLines gen now ⟨ver, ents, cats, sets, sec, E2, curC, n⟩ rest := by
  rw [h]

/-- Processing the serialized block of one representable entry: the pending
entry is flushed and the block's entry, re-stamped, becomes pending. -/
theorem process_entryLines (gen : Nat → String) (now : Int) (allcats : List Category)
    (i : Nat) (e : Entry) (he : RepresentableEntry e)
    (hcatsr : ∀ c ∈ allcats, RepresentableCategory c)
    {ver : Int} {ents : List Entry} {cats : List Category}
    {sets : List (String × SettingValue)}
    {curE : Option Entry} {curC : Option Category} {n : Nat} (rest : List String) :
    processLines gen now ⟨ver, ents, cats, sets, some .entries, curE, curC, n⟩
        (entryLines allcats i e ++ rest)
      = processLines gen now
          ⟨ver, ents ++ optEntry curE, cats, sets, some .entries,
            some { e with lastUpdatedAt := now }, curC, n + 1⟩ rest := by
  obtain ⟨hdn1, hdn2, hid1, hid2, hcat1, hcat2, hcat3, hcat4, hkne, hks, htext,
    hkr, hnsa, hadv, hbias, hpre, hsuf, hres, hit, hmt, hip, htd1, htd2⟩ := he
  obtain ⟨hr1, hr2, hr3, hr4⟩ := reverseCategoryLookup_repr allcats e.category hcatsr
  rw [entryLines_eq allcats i e htext hadv hbias hpre hsuf]
  rw [List.cons_append, processLines_cons, stepLine_entry_header' gen now i]
  rw [List.cons_append, processLines_cons, stepLine_run_eq]
  rw [List.cons_append, processLines_cons,
    stepLine_entry_displayName' gen now e.displayName hdn1]
  rw [List.cons_append, processLines_cons, stepLine_entry_id' gen now e.id hid1]
  rw [List.cons_append, processLines_cons,
    stepLine_entry_category' gen now _ e.category hr1 hr2 hr3 hcat1 hcat3 hcat4]
  rw [List.cons_append, processLines_cons,
    stepLine_entry_keys' gen now e.keys hkne
      (fun k hk => ⟨(hks k hk).1, (hks k hk).2.1, (hks k hk).2.2.1⟩)]
  rw [List.cons_append, processLines_cons, stepLine_entry_enabled' gen now e.enabled]
  rw [List.cons_append, processLines_cons,
    stepLine_entry_forceActivation' gen now e.forceActivation]
  rw [List.cons_append, processLines_cons,
    stepLine_entry_searchRange' gen now e.searchRange]
  rw [List.cons_append, processLines_cons, stepLine_blank]
  rw [List.cons_append, processLines_cons,
    stepLine_entry_noiseC gen now "CONTENT:" (by decide)]
  rw [List.cons_append, processLines_cons, stepLine_run_dash]
  rw [List.cons_append, processLines_cons, stepLine_blank]
  rw [List.cons_append, processLines_cons, stepLine_blank]
  rw [List.cons_append, processLines_cons,
    stepLine_entry_noiseC gen now "CONTEXT CONFIGURATION:" (by decide)]
  rw [List.cons_append, processLines_cons, stepLine_run_dash]
  rw [List.cons_append, processLines_cons,
    stepLine_entry_noiseC gen now "Prefix: \x27\x27" (by decide)]
  rw [List.cons_append, processLines_cons,
    stepLine_entry_noiseC gen now "Suffix: \x27\\n\x27" (by decide)]
  rw [List.cons_append, processLines_cons,
    stepLine_entry_tokenBudget' gen now e.contextConfig.tokenBudget]
  rw [List.cons_append, processLines_cons,
    stepLine_entry_budgetPriority' gen now e.contextConfig.budgetPriority]
  rw [List.cons_append, processLines_cons,
    stepLine_entry_trimDirection' gen now e.contextConfig.trimDirection htd1]
  rw [List.cons_append, processLines_cons, stepLine_blank]
  rw [List.cons_append, processLines_cons,
    stepLine_entry_noiseC gen now "ADVANCED CONDITIONS:" (by decide)]
  rw [List.cons_append, processLines_cons, stepLine_run_dash]
  rw [List.cons_append, processLines_cons,
    stepLine_entry_noiseC gen now "  (No advanced conditions)" (by decide)]
  rw [List.cons_append, processLines_cons, stepLine_blank]
  rw [List.cons_append, processLines_cons,
    stepLine_entry_noiseC gen now "LORE BIAS GROUPS:" (by decide)]
  rw [List.cons_append, processLines_cons, stepLine_run_dash]
  rw [List.cons_append, processLines_cons,
    stepLine_entry_noiseC gen now "  (No lore bias groups)" (by decide)]
  rw [List.cons_append, processLines_cons, stepLine_blank]
  rw [List.cons_append, processLines_cons, stepLine_blank]
  rw [List.nil_append]
  apply processLines_congrEntry gen now
  obtain ⟨t, cfg, lu, dn, eid, ks, sr, en, fa, kr0, nsa, cat0, lbg, ac⟩ := e
  obtain ⟨p1, p2, p3, p4, p5, p6, p7, p8, p9⟩ := cfg
  simp only [newEntry, get_default_context_config] at *
  simp_all

/-- Folding all serialized category blocks: every category but the last is
flushed into the state; the last stays pending. -/
theorem process_catBlocks (gen : Nat → String) (now : Int) (cs : List Category)
    (hc : ∀ c ∈ cs, RepresentableCategory c)
    {ver : Int} {ents : List Entry} {cats : List Category}
    {sets : List (String × SettingValue)}
    {curE : Option Entry} {curC : Option Category} {n : Nat} (rest : List String) :
    processLines gen now ⟨ver, ents, cats, sets, some .categories, curE, curC, n⟩
        (cs.flatMap categoryLines ++ rest)
      = processLines gen now
          ⟨ver, ents,
            (if cs = [] then cats else cats ++ optCategory curC ++ cs.dropLast),
            sets, some .categories, curE,
            (if cs = [] then curC else cs.getLast?),
            n + cs.length⟩ rest := by
  induction cs generalizing cats curC n with
  | nil => simp
  | cons c cs ih =>
    rw [List.flatMap_cons, List.append_assoc]
    rw [process_categoryLines gen now c (hc c (by simp)) _]
    rw [ih (fun x hx => hc x (by simp [hx]))]
    by_cases hcs : cs = []
    · subst hcs
      simp [optCategory]
    · obtain ⟨b, l, rfl⟩ : ∃ b l, cs = b :: l := by
        cases cs with
        | nil => exact absurd rfl hcs
        | cons b l => exact ⟨b, l, rfl⟩
      have hgl : (c :: b :: l).getLast? = (b :: l).getLast? := rfl
      have hdl : (c :: b :: l).dropLast = c :: (b :: l).dropLast := rfl
      simp [hgl, hdl, optCategory, List.append_assoc, Nat.add_comm,
        Nat.add_left_comm, Nat.add_assoc]

/-- Folding all serialized entry blocks: every entry but the last is flushed,
re-stamped; the last, re-stamped, stays pending. -/
theorem process_entryBlocks (gen : Nat → String) (now : Int)
    (allcats : List Category) (es : List Entry) (i : Nat)
    (he : ∀ e ∈ es, RepresentableEntry e)
    (hcatsr : ∀ c ∈ allcats, RepresentableCategory c)
    {ver : Int} {ents : List Entry} {cats : List Category}
    {sets : List (String × SettingValue)}
    {curE : Option Entry} {curC : Option Category} {n : Nat} (rest : List String) :
    processLines gen now ⟨ver, ents, cats, sets, some .entries, curE, curC, n⟩
        (entriesLines allcats i es ++ rest)
      = processLines gen now
          ⟨ver,
            (if es = [] then ents
             else ents ++ optEntry curE ++ (es.map (stampEntry now)).dropLast),
            cats, sets, some .entries,
            (if es = [] then curE else (es.map (stampEntry now)).getLast?),
            curC, n + es.length⟩ rest := by
  induction es generalizing i ents curE n with
  | nil => simp [entriesLines]
  | cons e es ih =>
    rw [show entriesLines allcats i (e :: es)
        = entryLines allcats i e ++ entriesLines allcats (i + 1) es from rfl]
    rw [List.append_assoc]
    rw [process_entryLines gen now allcats i e (he e (by simp)) hcatsr]
    rw [ih (i + 1) (fun x hx => he x (by simp [hx]))]
    by_cases hes : es = []
    · subst hes
      simp [optEntry, stampEntry, entriesLines]
    · obtain ⟨b, l, rfl⟩ : ∃ b l, es = b :: l := by
        cases es with
        | nil => exact absurd rfl hes
        | cons b l => exact ⟨b, l, rfl⟩
      have hgl : ((e :: b :: l).map (stampEntry now)).getLast?
          = ((b :: l).map (stampEntry now)).getLast? := rfl
      have hdl : ((e :: b :: l).map (stampEntry now)).dropLast
          = stampEntry now e :: ((b :: l).map (stampEntry now)).dropLast := rfl
      simp [hgl, hdl, optEntry, stampEntry, List.append_assoc, Nat.add_comm,
        Nat.add_left_comm, Nat.add_assoc]

/-- Folding the serialized settings lines: each line re-inserts its typed
value into the settings dict. -/
theorem process_settingsLines (gen : Nat → String) (now : Int)
    (q : List (String × SettingValue))
    (hq : ∀ p ∈ q, RepresentableSettingKey p.1 ∧ settingValOK p.2)
    {ver : Int} {ents : List Entry} {cats : List Category}
    {sets : List (String × SettingValue)}
    {curE : Option Entry} {curC : Option Category} {n : Nat} (rest : List String) :
    processLines gen now ⟨ver, ents, cats, sets, some .settings, curE, curC, n⟩
        (q.map (fun p => p.1 ++ ": " ++ settingValueStr p.2) ++ rest)
      = processLines gen now
          ⟨ver, ents, cats, q.foldl (fun m p => dictInsert p.1 p.2 m) sets,
            some .settings, curE, curC, n⟩ rest := by
  induction q generalizing sets with
  | nil => simp
  | cons p q ih =>
    rw [List.map_cons, List.cons_append, processLines_cons]
    rw [stepLine_settings_kv' gen now p.1 (settingValueStr p.2) (hq p (by simp)).1
      (settingValueStr_clean p.2 (hq p (by simp)).2).1]
    rw [typeValue_settingValueStr p.2 (hq p (by simp)).2]
    rw [ih (fun x hx => hq x (by simp [hx]))]
    rfl

/-- `d[k] = v` on a dict without the key appends the pair. -/
theorem dictInsert_not_mem (k : String) (v : SettingValue)
    (m : List (String × SettingValue)) (hk : ¬ k ∈ m.map Prod.fst) :
    dictInsert k v m = m ++ [(k, v)] := by
  unfold dictInsert
  rw [if_neg]
  intro hany
  rcases List.any_eq_true.mp hany with ⟨p, hp, he⟩
  exact hk (List.mem_map.mpr ⟨p, hp, beq_iff_eq.mp he⟩)

/-- Re-inserting key-disjoint pairs with unique keys appends them in order. -/
theorem foldl_dictInsert_disjoint (q : List (String × SettingValue))
    (m : List (String × SettingValue))
    (hdis : ∀ p ∈ q, ¬ p.1 ∈ m.map Prod.fst)
    (hnod : (q.map Prod.fst).Nodup) :
    q.foldl (fun m p => dictInsert p.1 p.2 m) m = m ++ q := by
  induction q generalizing m with
  | nil => simp
  | cons p q ih =>
    rw [List.foldl_cons, dictInsert_not_mem p.1 p.2 m (hdis p (by simp))]
    rw [ih (m ++ [(p.1, p.2)])]
    · simp
    · intro x hx
      rw [List.map_append, List.mem_append]
      rintro (h1 | h2)
      · exact hdis x (by simp [hx]) h1
      · have hx1 : x.1 = p.1 := by simpa using h2
        have hpq : ¬ p.1 ∈ q.map Prod.fst := by
          have := hnod
          rw [List.map_cons, List.nodup_cons] at this
          exact this.1
        exact hpq (List.mem_map.mpr ⟨x, hx, hx1⟩)
    · have := hnod
      rw [List.map_cons, List.nodup_cons] at this
      exact this.2

/-- Re-inserting a representable settings map over the parser's seed yields
exactly the original map. -/
theorem settings_foldl_roundtrip (s : List (String × SettingValue))
    (hs : RepresentableSettings s) :
    s.foldl (fun m p => dictInsert p.1 p.2 m)
        [("orderByKeyLocations", SettingValue.b false)] = s := by
  obtain ⟨⟨v0, srest, rfl⟩, hnod, hall⟩ := hs
  rw [List.foldl_cons]
  have h1 : dictInsert "orderByKeyLocations" v0
      [("orderByKeyLocations", SettingValue.b false)]
      = [("orderByKeyLocations", v0)] := rfl
  rw [h1]
  rw [foldl_dictInsert_disjoint srest [("orderByKeyLocations", v0)]]
  · simp
  · intro p hp hmem
    have hp1 : p.1 = "orderByKeyLocations" := by simpa using hmem
    have : ¬ "orderByKeyLocations" ∈ srest.map Prod.fst := by
      have := hnod
      rw [List.map_cons, List.nodup_cons] at this
      exact this.1
    exact this (List.mem_map.mpr ⟨p, hp, hp1⟩)
  · have := hnod
    rw [List.map_cons, List.nodup_cons] at this
    exact this.2

/-! ## Newline-freeness of all serialized lines -/

theorem nl_append {a b : String} (ha : ¬ '\n' ∈ a.data) (hb : ¬ '\n' ∈ b.data) :
    ¬ '\n' ∈ (a ++ b).data := by
  rw [String.data_append]
  intro hm
  rcases List.mem_append.mp hm with h | h
  · exact ha h
  · exact hb h

theorem nl_charRun (c : Char) (n : Nat) (hc : ¬ c = '\n') :
    ¬ '\n' ∈ (charRun c n).data := by
  intro h
  exact hc (List.eq_of_mem_replicate h).symm

theorem nl_pyStrNat (n : Nat) : ¬ '\n' ∈ (pyStrNat n).data := by
  intro h
  exact absurd (pyStrNat_all_digits _ _ h) (by decide)

theorem nl_pyStrInt (i : Int) : ¬ '\n' ∈ (pyStrInt i).data := by
  intro hm
  unfold pyStrInt at hm
  split at hm
  · rw [String.data_append] at hm
    rcases List.mem_append.mp hm with h1 | h1
    · simp at h1
    · exact nl_pyStrNat _ h1
  · exact nl_pyStrNat _ hm

theorem nl_pyBoolStr (b : Bool) : ¬ '\n' ∈ (pyBoolStr b).data := by
  cases b <;> decide

theorem nl_pyJoin (sep : String) (hsep : ¬ '\n' ∈ sep.data) (xs : List String)
    (h : ∀ x ∈ xs, ¬ '\n' ∈ x.data) : ¬ '\n' ∈ (pyJoin sep xs).data := by
  induction xs with
  | nil => intro hx; simp [pyJoin] at hx
  | cons x xs ih =>
    cases xs with
    | nil => exact h x (by simp)
    | cons y ys =>
      show ¬ '\n' ∈ (x ++ sep ++ pyJoin sep (y :: ys)).data
      exact nl_append (nl_append (h x (by simp)) hsep)
        (ih (fun z hz => h z (by simp [hz])))

/-- Every line of a representable category block is newline-free. -/
theorem categoryLines_nl (c : Category) (hc : RepresentableCategory c) :
    ∀ l ∈ categoryLines c, ¬ '\n' ∈ l.data := by
  obtain ⟨hn1, hn2, hn3, hn4, hi1, hi2, hcsx, hss, hud, hcd, hcb, hst⟩ := hc
  intro l hl
  rw [show categoryLines c
      = ["Category: " ++ c.name, "ID: " ++ c.id,
         "Enabled: " ++ pyBoolStr c.enabled, ""] from by
    unfold categoryLines
    rw [hcsx]
    simp] at hl
  simp only [List.mem_cons, List.not_mem_nil, or_false] at hl
  rcases hl with rfl | rfl | rfl | rfl
  · exact nl_append (by decide) hn3
  · exact nl_append (by decide) hi2
  · exact nl_append (by decide) (nl_pyBoolStr c.enabled)
  · decide

/-- Every line of a representable entry block is newline-free. -/
theorem entryLines_nl (allcats : List Category) (i : Nat) (e : Entry)
    (he : RepresentableEntry e)
    (hcatsr : ∀ c ∈ allcats, RepresentableCategory c) :
    ∀ l ∈ entryLines allcats i e, ¬ '\n' ∈ l.data := by
  obtain ⟨hdn1, hdn2, hid1, hid2, hcat1, hcat2, hcat3, hcat4, hkne, hks, htext,
    hkr, hnsa, hadv, hbias, hpre, hsuf, hres, hit, hmt, hip, htd1, htd2⟩ := he
  obtain ⟨hr1, hr2, hr3, hr4⟩ := reverseCategoryLookup_repr allcats e.category hcatsr
  intro l hl
  rw [entryLines_eq allcats i e htext hadv hbias hpre hsuf] at hl
  simp only [List.mem_cons, List.not_mem_nil, or_false] at hl
  rcases hl with rfl | rfl | rfl | rfl | rfl | rfl | rfl | rfl | rfl | rfl | rfl |
    rfl | rfl | rfl | rfl | rfl | rfl | rfl | rfl | rfl | rfl | rfl | rfl | rfl |
    rfl | rfl | rfl | rfl | rfl | rfl | rfl
  · exact nl_append (by decide) (nl_pyStrNat i)
  · exact nl_charRun '=' 60 (by decide)
  · exact nl_append (by decide) hdn2
  · exact nl_append (by decide) hid2
  · exact nl_append (nl_append (nl_append (nl_append (by decide) hr4) (by decide))
      hcat2) (by decide)
  · exact nl_append (by decide)
      (nl_pyJoin ", " (by decide) e.keys (fun k hk => (hks k hk).2.2.2))
  · exact nl_append (by decide) (nl_pyBoolStr e.enabled)
  · exact nl_append (by decide) (nl_pyBoolStr e.forceActivation)
  · exact nl_append (by decide) (nl_pyStrInt e.searchRange)
  · decide
  · decide
  · exact nl_charRun '-' 20 (by decide)
  · decide
  · decide
  · decide
  · exact nl_charRun '-' 25 (by decide)
  · decide
  · decide
  · exact nl_append (by decide) (nl_pyStrInt e.contextConfig.tokenBudget)
  · exact nl_append (by decide) (nl_pyStrInt e.contextConfig.budgetPriority)
  · exact nl_append (by decide) htd2
  · decide
  · decide
  · exact nl_charRun '-' 22 (by decide)
  · decide
  · decide
  · decide
  · exact nl_charRun '-' 18 (by decide)
  · decide
  · decide
  · decide

/-- Every line of the numbered entry blocks is newline-free. -/
theorem entriesLines_nl (allcats : List Category) (i : Nat) (es : List Entry)
    (he : ∀ e ∈ es, RepresentableEntry e)
    (hcatsr : ∀ c ∈ allcats, RepresentableCategory c) :
    ∀ l ∈ entriesLines allcats i es, ¬ '\n' ∈ l.data := by
  induction es generalizing i with
  | nil => intro l hl; simp [entriesLines] at hl
  | cons e es ih =>
    intro l hl
    rw [show entriesLines allcats i (e :: es)
        = entryLines allcats i e ++ entriesLines allcats (i + 1) es from rfl] at hl
    rcases List.mem_append.mp hl with h | h
    · exact entryLines_nl allcats i e (he e (by simp)) hcatsr l h
    · exact ih (i + 1) (fun x hx => he x (by simp [hx])) l h

/-- Every line generated by the serializer for a representable lorebook is
newline-free. -/
theorem generateLines_nl (exportedAt : String) (L : Lorebook)
    (hL : RepresentableLorebook L) (hexp : ¬ '\n' ∈ exportedAt.data) :
    ∀ l ∈ generateLines exportedAt L, ¬ '\n' ∈ l.data := by
  obtain ⟨hcats, hents, hsets⟩ := hL
  intro l hl
  unfold generateLines at hl
  simp only [List.mem_append, List.mem_cons, List.not_mem_nil, or_false] at hl
  rcases hl with (((rfl | rfl | rfl | rfl | rfl | rfl) | h) | h) | h
  · exact nl_charRun '=' 80 (by decide)
  · decide
  · exact nl_charRun '=' 80 (by decide)
  · exact nl_append (by decide) (nl_pyStrInt L.lorebookVersion)
  · exact nl_append (by decide) hexp
  · decide
  · rcases hcl : L.categories with _ | ⟨c0, cs0⟩
    · rw [hcl] at h
      simp at h
    · rw [hcl] at h
      rw [if_pos (by simp)] at h
      simp only [List.cons_append, List.nil_append, List.mem_cons] at h
      rcases h with rfl | rfl | h
      · decide
      · exact nl_charRun '-' 40 (by decide)
      · rcases List.mem_flatMap.mp h with ⟨c, hcmem, hlm⟩
        exact categoryLines_nl c (hcats c (by rw [hcl]; exact hcmem)) l hlm
  · rcases hel : L.entries with _ | ⟨e0, es0⟩
    · rw [hel] at h
      simp at h
    · rw [hel] at h
      rw [if_pos (by simp)] at h
      simp only [List.cons_append, List.nil_append, List.mem_cons] at h
      rcases h with rfl | rfl | h
      · decide
      · exact nl_charRun '-' 40 (by decide)
      · exact entriesLines_nl L.categories 1 (e0 :: es0)
          (fun x hx => hents x (by rw [hel]; exact hx)) hcats l h
  · rcases hsl : L.settings with _ | ⟨p0, ps0⟩
    · rw [hsl] at h
      simp at h
    · rw [hsl] at h
      rw [if_pos (by simp)] at h
      simp only [List.cons_append, List.nil_append, List.mem_cons] at h
      rcases h with rfl | rfl | h
      · decide
      · exact nl_charRun '-' 40 (by decide)
      · rcases List.mem_map.mp h with ⟨p, hpmem, rfl⟩
        have hp := hsets.2.2 p (by rw [hsl]; exact hpmem)
        exact nl_append (nl_append hp.1.2.2.2.1 (by decide))
          (settingValueStr_clean p.2 hp.2).2

/-! ## The full parse of a serialized representable lorebook -/

theorem stepLine_none_noiseC (gen : Nat → String) (now : Int) (l : String)
    (hB : noneNoiseCheck (pyStrip l) = true)
    {ver : Int} {ents : List Entry} {cats : List Category}
    {sets : List (String × SettingValue)}
    {curE : Option Entry} {curC : Option Category} {n : Nat} {rest : List String} :
    stepLine gen now ⟨ver, ents, cats, sets, none, curE, curC, n⟩ l rest
      = ⟨ver, ents, cats, sets, none, curE, curC, n⟩ := by
  unfold noneNoiseCheck at hB
  simp only [Bool.and_eq_true, Bool.not_eq_true', Bool.not_eq_eq_eq_not,
    Bool.not_true] at hB
  obtain ⟨⟨⟨⟨⟨⟨b1, b2⟩, b3⟩, b4⟩, b5⟩, b6⟩, b7⟩ := hB
  exact stepLine_none_noise gen now _ l rest (pyStrip l) rfl rfl b1 b2 b3 b4 b5 b6 b7

theorem stepLine_exported' (gen : Nat → String) (now : Int) (ts : String)
    {ver : Int} {ents : List Entry} {cats : List Category}
    {sets : List (String × SettingValue)}
    {curE : Option Entry} {curC : Option Category} {n : Nat} {rest : List String} :
    stepLine gen now ⟨ver, ents, cats, sets, none, curE, curC, n⟩
        ("Exported: " ++ ts) rest
      = ⟨ver, ents, cats, sets, none, curE, curC, n⟩ :=
  stepLine_exported gen now _ rest ts rfl

/-- Settings-section processing of the whole rendered settings map. -/
theorem process_settingsAll (gen : Nat → String) (now : Int)
    (q : List (String × SettingValue))
    (hq : ∀ p ∈ q, RepresentableSettingKey p.1 ∧ settingValOK p.2)
    {ver : Int} {ents : List Entry} {cats : List Category}
    {sets : List (String × SettingValue)}
    {curE : Option Entry} {curC : Option Category} {n : Nat} :
    processLines gen now ⟨ver, ents, cats, sets, some .settings, curE, curC, n⟩
        (q.map (fun p => p.1 ++ ": " ++ settingValueStr p.2))
      = ⟨ver, ents, cats, q.foldl (fun m p => dictInsert p.1 p.2 m) sets,
          some .settings, curE, curC, n⟩ := by
  rw [show (q.map (fun p => p.1 ++ ": " ++ settingValueStr p.2))
      = q.map (fun p => p.1 ++ ": " ++ settingValueStr p.2) ++ []
    from (List.append_nil _).symm]
  rw [process_settingsLines gen now q hq []]
  rw [processLines_nil]

theorem dropLast_optEntry_getLast (l : List Entry) (h : l ≠ []) :
    l.dropLast ++ optEntry l.getLast? = l := by
  rw [List.getLast?_eq_getLast_of_ne_nil h]
  exact List.dropLast_append_getLast h

theorem dropLast_optCategory_getLast (l : List Category) (h : l ≠ []) :
    l.dropLast ++ optCategory l.getLast? = l := by
  rw [List.getLast?_eq_getLast_of_ne_nil h]
  exact List.dropLast_append_getLast h

/-- Parsing the serialized line list of a representable lorebook recovers the
lorebook, with every entry re-stamped. -/
theorem parseLines_generateLines (gen : Nat → String) (now : Int)
    (exportedAt : String) (L : Lorebook) (hL : RepresentableLorebook L) :
    parseLines gen now (generateLines exportedAt L)
      = { L with entries := L.entries.map (stampEntry now) } := by
  obtain ⟨hcats, hents, hsets⟩ := hL
  have hsne : L.settings ≠ [] := by
    obtain ⟨⟨v0, srest, hs⟩, _, _⟩ := hsets
    rw [hs]
    simp
  unfold parseLines generateLines
  rw [show initState = (⟨6, [], [], [("orderByKeyLocations", SettingValue.b false)],
    none, none, none, 0⟩ : ParseState) from rfl]
  rw [if_pos hsne]
  by_cases hce : L.categories = []
  · rw [if_neg (by simp [hce])]
    by_cases hee : L.entries = []
    · rw [if_neg (by simp [hee])]
      simp only [List.append_assoc, List.cons_append, List.nil_append]
      rw [processLines_cons, stepLine_run_eq]
      rw [processLines_cons, stepLine_none_noiseC gen now "NOVELAI LOREBOOK" (by decide)]
      rw [processLines_cons, stepLine_run_eq]
      rw [processLines_cons, stepLine_version' gen now L.lorebookVersion]
      rw [processLines_cons, stepLine_exported' gen now exportedAt]
      rw [processLines_cons, stepLine_blank]
      rw [processLines_cons, stepLine_header_settings' gen now]
      rw [processLines_cons, stepLine_run_dash]
      rw [process_settingsAll gen now L.settings hsets.2.2]
      rw [settings_foldl_roundtrip L.settings hsets]
      unfold finishParse
      simp [optEntry, optCategory, hce, hee]
    · rw [if_pos hee]
      simp only [List.append_assoc, List.cons_append, List.nil_append]
      rw [processLines_cons, stepLine_run_eq]
      rw [processLines_cons, stepLine_none_noiseC gen now "NOVELAI LOREBOOK" (by decide)]
      rw [processLines_cons, stepLine_run_eq]
      rw [processLines_cons, stepLine_version' gen now L.lorebookVersion]
      rw [processLines_cons, stepLine_exported' gen now exportedAt]
      rw [processLines_cons, stepLine_blank]
      rw [processLines_cons, stepLine_header_entries' gen now]
      rw [processLines_cons, stepLine_run_dash]
      rw [process_entryBlocks gen now L.categories L.entries 1 hents hcats]
      simp only [if_neg hee]
      rw [processLines_cons, stepLine_header_settings' gen now]
      rw [processLines_cons, stepLine_run_dash]
      rw [process_settingsAll gen now L.settings hsets.2.2]
      rw [settings_foldl_roundtrip L.settings hsets]
      unfold finishParse
      have hde : (L.entries.map (stampEntry now)).dropLast
          ++ optEntry (L.entries.map (stampEntry now)).getLast?
          = L.entries.map (stampEntry now) :=
        dropLast_optEntry_getLast _ (by simp [hee])
      simp only [show optEntry (none : Option Entry) = ([] : List Entry) from rfl,
        show optCategory (none : Option Category) = ([] : List Category) from rfl,
        List.nil_append, List.append_nil]
      rw [hde]
      simp [hce]
  · rw [if_pos hce]
    by_cases hee : L.entries = []
    · rw [if_neg (by simp [hee])]
      simp only [List.append_assoc, List.cons_append, List.nil_append]
      rw [processLines_cons, stepLine_run_eq]
      rw [processLines_cons, stepLine_none_noiseC gen now "NOVELAI LOREBOOK" (by decide)]
      rw [processLines_cons, stepLine_run_eq]
      rw [processLines_cons, stepLine_version' gen now L.lorebookVersion]
      rw [processLines_cons, stepLine_exported' gen now exportedAt]
      rw [processLines_cons, stepLine_blank]
      rw [processLines_cons, stepLine_header_categories' gen now]
      rw [processLines_cons, stepLine_run_dash]
      rw [process_catBlocks gen now L.categories hcats]
      simp only [if_neg hce]
      rw [processLines_cons, stepLine_header_settings' gen now]
      rw [processLines_cons, stepLine_run_dash]
      rw [process_settingsAll gen now L.settings hsets.2.2]
      rw [settings_foldl_roundtrip L.settings hsets]
      unfold finishParse
      have hdc : L.categories.dropLast ++ optCategory L.categories.getLast?
          = L.categories := dropLast_optCategory_getLast _ hce
      simp only [show optEntry (none : Option Entry) = ([] : List Entry) from rfl,
        show optCategory (none : Option Category) = ([] : List Category) from rfl,
        List.nil_append, List.append_nil]
      rw [hdc]
      simp [hee]
    · rw [if_pos hee]
      simp only [List.append_assoc, List.cons_append, List.nil_append]
      rw [processLines_cons, stepLine_run_eq]
      rw [processLines_cons, stepLine_none_noiseC gen now "NOVELAI LOREBOOK" (by decide)]
      rw [processLines_cons, stepLine_run_eq]
      rw [processLines_cons, stepLine_version' gen now L.lorebookVersion]
      rw [processLines_cons, stepLine_exported' gen now exportedAt]
      rw [processLines_cons, stepLine_blank]
      rw [processLines_cons, stepLine_header_categories' gen now]
      rw [processLines_cons, stepLine_run_dash]
      rw [process_catBlocks gen now L.categories hcats]
      simp only [if_neg hce]
      rw [processLines_cons, stepLine_header_entries' gen now]
      rw [processLines_cons, stepLine_run_dash]
      rw [process_entryBlocks gen now L.categories L.entries 1 hents hcats]
      simp only [if_neg hee]
      rw [processLines_cons, stepLine_header_settings' gen now]
      rw [processLines_cons, stepLine_run_dash]
      rw [process_settingsAll gen now L.settings hsets.2.2]
      rw [settings_foldl_roundtrip L.settings hsets]
      unfold finishParse
      have hde : (L.entries.map (stampEntry now)).dropLast
          ++ optEntry (L.entries.map (stampEntry now)).getLast?
          = L.entries.map (stampEntry now) :=
        dropLast_optEntry_getLast _ (by simp [hee])
      have hdc : L.categories.dropLast ++ optCategory L.categories.getLast?
          = L.categories := dropLast_optCategory_getLast _ hce
      simp only [show optEntry (none : Option Entry) = ([] : List Entry) from rfl,
        show optCategory (none : Option Category) = ([] : List Category) from rfl,
        List.nil_append, List.append_nil]
      rw [hde, hdc]

/-- `parse(serialize L)` for a representable lorebook: field-wise identity up
to the per-entry `lastUpdatedAt` re-stamp. -/
theorem parse_generate_roundtrip (gen : Nat → String) (now : Int)
    (exportedAt : String) (L : Lorebook) (hL : RepresentableLorebook L)
    (hexp : ¬ '\n' ∈ exportedAt.data) :
    parse_txt_content gen now (generate_txt_content exportedAt L)
      = { L with entries := L.entries.map (stampEntry now) } := by
  unfold parse_txt_content generate_txt_content
  rw [pySplitChar_pyJoin_newline (generateLines exportedAt L)
    (generateLines_nl exportedAt L hL hexp)
    (by unfold generateLines; simp)]
  exact parseLines_generateLines gen now exportedAt L hL

/-! ## The key sanity checker (`lorebook_key_sanity_checker.py`) -/

/-- Without a `Type:`-prefixed line, the loop never writes `entry_type`. -/
theorem extractLoop_entry_type (lines : List String) :
    (∀ l ∈ lines, pyStartsWith l "Type:" = false) →
    ∀ title et desc, (extractLoop lines title et desc).2.1 = et := by
  induction lines with
  | nil =>
    intro _ t et d
    rfl
  | cons line rest ih =>
    intro h t et d
    have hl : pyStartsWith line "Type:" = false := h line (by simp)
    have hrest : ∀ l ∈ rest, pyStartsWith l "Type:" = false :=
      fun x hx => h x (by simp [hx])
    unfold extractLoop
    by_cases h4 : pyStartsWith line "----" = true
    · rw [if_pos h4]
      exact ih hrest t et d
    · rw [if_neg h4, if_neg (by simp [hl])]
      by_cases h5 : (pyStrip line != "" && !pyStartsWith line "Type:") = true
      · rw [if_pos h5]
        by_cases h6 : t = ""
        · rw [if_pos h6]
          exact ih hrest _ et d
        · rw [if_neg h6]
          exact ih hrest t et _
      · rw [if_neg h5]
        exact ih hrest t et d

/-! ## Parser invariant: context-config fields the parser never writes -/

theorem stateCfgInv_mk (ver : Int) (ents : List Entry) (cats : List Category)
    (sets : List (String × SettingValue)) (sec : Option SectionState)
    (curE : Option Entry) (curC : Option Category) (n : Nat)
    (h1 : ∀ e ∈ ents, defaultCfgInv e) (h2 : ∀ e, curE = some e → defaultCfgInv e) :
    stateCfgInv ⟨ver, ents, cats, sets, sec, curE, curC, n⟩ := ⟨h1, h2⟩

theorem stateCfgInv_update (st : ParseState) (h : stateCfgInv st) (x : Entry)
    (hx : defaultCfgInv x) (cats2 : List Category)
    (sets2 : List (String × SettingValue)) (curC2 : Option Category) (n2 : Nat) :
    stateCfgInv ⟨st.version, st.entries, cats2, sets2, st.currentSection,
      some x, curC2, n2⟩ :=
  ⟨h.1, fun y hy => by
    injection hy with h2
    rw [← h2]
    exact hx⟩

theorem entryStep_cfgInv (gen : Nat → String) (now : Int) (st : ParseState)
    (line : String) (rest : List String) (h : stateCfgInv st) :
    stateCfgInv (entryStep gen now st line rest) := by
  unfold entryStep
  by_cases hE : pyStartsWith line "ENTRY #" = true
  · rw [if_pos hE]
    refine stateCfgInv_mk _ _ _ _ _ _ _ _ (fun x hx => ?_) (fun x hx => ?_)
    · rcases List.mem_append.mp hx with h1 | h1
      · exact h.1 x h1
      · cases hc : st.currentEntry with
        | none =>
          rw [hc] at h1
          simp [optEntry] at h1
        | some e0 =>
          rw [hc] at h1
          simp only [optEntry, List.mem_singleton] at h1
          subst h1
          exact h.2 _ hc
    · injection hx with h2
      rw [← h2]
      exact ⟨rfl, rfl, rfl, rfl, rfl, rfl⟩
  · rw [if_neg hE]
    rcases hcur : st.currentEntry with _ | e
    · simp only [hcur]
      exact h
    · simp only [hcur]
      by_cases h1 : pyStartsWith line "Display Name:" = true
      · rw [if_pos h1]
        refine stateCfgInv_update st h _ ?_ _ _ _ _
        exact h.2 e hcur
      · rw [if_neg h1]
        by_cases h2 : pyStartsWith line "ID:" = true
        · rw [if_pos h2]
          refine stateCfgInv_update st h _ ?_ _ _ _ _
          exact h.2 e hcur
        · rw [if_neg h2]
          by_cases h3 : pyStartsWith line "Category:" = true
          · rw [if_pos h3]
            by_cases hp : pyContainsChar (pyStrip (afterFirst ':' line)) '(' = true
            · rw [if_pos hp]
              refine stateCfgInv_update st h _ ?_ _ _ _ _
              exact h.2 e hcur
            · rw [if_neg hp]
              refine stateCfgInv_update st h _ ?_ _ _ _ _
              exact h.2 e hcur
          · rw [if_neg h3]
            by_cases h4 : pyStartsWith line "Activation Keys:" = true
            · rw [if_pos h4]
              refine stateCfgInv_update st h _ ?_ _ _ _ _
              exact h.2 e hcur
            · rw [if_neg h4]
              by_cases h5 : pyStartsWith line "Enabled:" = true
              · rw [if_pos h5]
                refine stateCfgInv_update st h _ ?_ _ _ _ _
                exact h.2 e hcur
              · rw [if_neg h5]
                by_cases h6 : pyStartsWith line "Force Activation:" = true
                · rw [if_pos h6]
                  refine stateCfgInv_update st h _ ?_ _ _ _ _
                  exact h.2 e hcur
                · rw [if_neg h6]
                  by_cases h7 : pyStartsWith line "Search Range:" = true
                  · rw [if_pos h7]
                    rcases hpi : pyParseInt (pyStrip (afterFirst ':' line)) with _ | k
                    · simp only [hpi]
                      exact h
                    · simp only [hpi]
                      refine stateCfgInv_update st h _ ?_ _ _ _ _
                      exact h.2 e hcur
                  · rw [if_neg h7]
                    by_cases h8 : pyStartsWith line "Title:" = true
                    · rw [if_pos h8]
                      refine stateCfgInv_update st h _ ?_ _ _ _ _
                      exact h.2 e hcur
                    · rw [if_neg h8]
                      by_cases h9 : pyStartsWith line "Token Budget:" = true
                      · rw [if_pos h9]
                        rcases hpi : pyParseInt (pyStrip (afterFirst ':' line)) with _ | k
                        · simp only [hpi]
                          exact h
                        · simp only [hpi]
                          refine stateCfgInv_update st h _ ?_ _ _ _ _
                          exact h.2 e hcur
                      · rw [if_neg h9]
                        by_cases h10 : pyStartsWith line "Budget Priority:" = true
                        · rw [if_pos h10]
                          rcases hpi : pyParseInt (pyStrip (afterFirst ':' line)) with _ | k
                          · simp only [hpi]
                            exact h
                          · simp only [hpi]
                            refine stateCfgInv_update st h _ ?_ _ _ _ _
                            exact h.2 e hcur
                        · rw [if_neg h10]
                          by_cases h11 : pyStartsWith line "Trim Direction:" = true
                          · rw [if_pos h11]
                            refine stateCfgInv_update st h _ ?_ _ _ _ _
                            exact h.2 e hcur
                          · rw [if_neg h11]
                            exact h

theorem categoryStep_cfgInv (gen : Nat → String) (st : ParseState)
    (line : String) (h : stateCfgInv st) :
    stateCfgInv (categoryStep gen st line) := by
  unfold categoryStep
  repeat' split
  all_goals
    first
      | exact h
      | exact stateCfgInv_mk _ _ _ _ _ _ _ _ h.1 h.2

theorem settingsStep_cfgInv (st : ParseState) (line : String) (h : stateCfgInv st) :
    stateCfgInv (settingsStep st line) := by
  unfold settingsStep
  repeat' split
  all_goals
    first
      | exact h
      | exact stateCfgInv_mk _ _ _ _ _ _ _ _ h.1 h.2

theorem stepLine_cfgInv (gen : Nat → String) (now : Int) (st : ParseState)
    (l : String) (rest : List String) (h : stateCfgInv st) :
    stateCfgInv (stepLine gen now st l rest) := by
  unfold stepLine
  dsimp only
  repeat' split
  all_goals
    first
      | exact h
      | exact stateCfgInv_mk _ _ _ _ _ _ _ _ h.1 h.2
      | exact entryStep_cfgInv gen now st _ rest h
      | exact categoryStep_cfgInv gen st _ h
      | exact settingsStep_cfgInv st _ h

theorem processLines_cfgInv (gen : Nat → String) (now : Int) (st : ParseState)
    (lines : List String) (h : stateCfgInv st) :
    stateCfgInv (processLines gen now st lines) := by
  induction lines generalizing st with
  | nil => exact h
  | cons l rest ih => exact ih _ (stepLine_cfgInv gen now st l rest h)

theorem initState_cfgInv : stateCfgInv initState :=
  ⟨fun e he => absurd he (List.not_mem_nil e), fun e he => by
    simp [initState] at he⟩

/-! ## Parser invariant: the seeded `orderByKeyLocations` key -/

theorem dictInsert_key_mem (k : String) (v : SettingValue)
    (m : List (String × SettingValue)) (k0 : String)
    (hm : k0 ∈ m.map Prod.fst) : k0 ∈ (dictInsert k v m).map Prod.fst := by
  unfold dictInsert
  split
  · have hmap : (m.map (fun p => if p.1 == k then (k, v) else p)).map Prod.fst
        = m.map Prod.fst := by
      rw [List.map_map]
      apply List.map_congr_left
      intro p _
      by_cases hp : p.1 == k
      · simp only [Function.comp, hp, if_pos]
        exact (beq_iff_eq.mp hp).symm
      · simp only [Function.comp, hp, if_neg]
        rfl
    rw [hmap]
    exact hm
  · rw [List.map_append]
    exact List.mem_append_left _ hm

theorem entryStep_obkl (gen : Nat → String) (now : Int) (st : ParseState)
    (line : String) (rest : List String) (h : hasOBKL st) :
    hasOBKL (entryStep gen now st line rest) := by
  unfold entryStep
  by_cases hE : pyStartsWith line "ENTRY #" = true
  · rw [if_pos hE]
    exact h
  · rw [if_neg hE]
    rcases hcur : st.currentEntry with _ | e
    · simp only [hcur]
      exact h
    · simp only [hcur]
      by_cases h1 : pyStartsWith line "Display Name:" = true
      · rw [if_pos h1]
        exact h
      · rw [if_neg h1]
        by_cases h2 : pyStartsWith line "ID:" = true
        · rw [if_pos h2]
          exact h
        · rw [if_neg h2]
          by_cases h3 : pyStartsWith line "Category:" = true
          · rw [if_pos h3]
            by_cases hp : pyContainsChar (pyStrip (afterFirst ':' line)) '(' = true
            · rw [if_pos hp]
              exact h
            · rw [if_neg hp]
              exact h
          · rw [if_neg h3]
            by_cases h4 : pyStartsWith line "Activation Keys:" = true
            · rw [if_pos h4]
              exact h
            · rw [if_neg h4]
              by_cases h5 : pyStartsWith line "Enabled:" = true
              · rw [if_pos h5]
                exact h
              · rw [if_neg h5]
                by_cases h6 : pyStartsWith line "Force Activation:" = true
                · rw [if_pos h6]
                  exact h
                · rw [if_neg h6]
                  by_cases h7 : pyStartsWith line "Search Range:" = true
                  · rw [if_pos h7]
                    rcases hpi : pyParseInt (pyStrip (afterFirst ':' line)) with _ | k
                    · simp only [hpi]
                      exact h
                    · simp only [hpi]
                      exact h
                  · rw [if_neg h7]
                    by_cases h8 : pyStartsWith line "Title:" = true
                    · rw [if_pos h8]
                      exact h
                    · rw [if_neg h8]
                      by_cases h9 : pyStartsWith line "Token Budget:" = true
                      · rw [if_pos h9]
                        rcases hpi : pyParseInt (pyStrip (afterFirst ':' line)) with _ | k
                        · simp only [hpi]
                          exact h
                        · simp only [hpi]
                          exact h
                      · rw [if_neg h9]
                        by_cases h10 : pyStartsWith line "Budget Priority:" = true
                        · rw [if_pos h10]
                          rcases hpi : pyParseInt (pyStrip (afterFirst ':' line)) with _ | k
                          · simp only [hpi]
                            exact h
                          · simp only [hpi]
                            exact h
                        · rw [if_neg h10]
                          by_cases h11 : pyStartsWith line "Trim Direction:" = true
                          · rw [if_pos h11]
                            exact h
                          · rw [if_neg h11]
                            exact h

theorem categoryStep_obkl (gen : Nat → String) (st : ParseState)
    (line : String) (h : hasOBKL st) :
    hasOBKL (categoryStep gen st line) := by
  unfold categoryStep
  repeat' split
  all_goals exact h

theorem settingsStep_obkl (st : ParseState) (line : String) (h : hasOBKL st) :
    hasOBKL (settingsStep st line) := by
  unfold settingsStep
  split
  · exact dictInsert_key_mem _ _ _ _ h
  · exact h

theorem stepLine_obkl (gen : Nat → String) (now : Int) (st : ParseState)
    (l : String) (rest : List String) (h : hasOBKL st) :
    hasOBKL (stepLine gen now st l rest) := by
  unfold stepLine
  dsimp only
  repeat' split
  all_goals
    first
      | exact h
      | exact entryStep_obkl gen now st _ rest h
      | exact categoryStep_obkl gen st _ h
      | exact settingsStep_obkl st _ h

theorem processLines_obkl (gen : Nat → String) (now : Int) (st : ParseState)
    (lines : List String) (h : hasOBKL st) :
    hasOBKL (processLines gen now st lines) := by
  induction lines generalizing st with
  | nil => exact h
  | cons l rest ih => exact ih _ (stepLine_obkl gen now st l rest h)

theorem initState_obkl : hasOBKL initState := by
  unfold hasOBKL
  simp [initState]

/-! ## The seeded key keeps its value unless a settings-section line
carries it -/

theorem categoryStep_settings (gen : Nat → String) (st : ParseState)
    (line : String) :
    (categoryStep gen st line).settings = st.settings := by
  unfold categoryStep
  repeat' split
  all_goals rfl

theorem settingsStep_section (st : ParseState) (line : String) :
    (settingsStep st line).currentSection = st.currentSection := by
  unfold settingsStep
  repeat' split
  all_goals rfl

theorem categoryStep_section (gen : Nat → String) (st : ParseState)
    (line : String) :
    (categoryStep gen st line).currentSection = st.currentSection := by
  unfold categoryStep
  repeat' split
  all_goals rfl

theorem entryStep_settings (gen : Nat → String) (now : Int) (st : ParseState)
    (line : String) (rest : List String) :
    (entryStep gen now st line rest).settings = st.settings := by
  unfold entryStep
  by_cases hE : pyStartsWith line "ENTRY #" = true
  · rw [if_pos hE]
  · rw [if_neg hE]
    rcases hcur : st.currentEntry with _ | e
    · simp only [hcur]
    · simp only [hcur]
      by_cases h1 : pyStartsWith line "Display Name:" = true
      · rw [if_pos h1]
      · rw [if_neg h1]
        by_cases h2 : pyStartsWith line "ID:" = true
        · rw [if_pos h2]
        · rw [if_neg h2]
          by_cases h3 : pyStartsWith line "Category:" = true
          · rw [if_pos h3]
            by_cases hp : pyContainsChar (pyStrip (afterFirst ':' line)) '(' = true
            · rw [if_pos hp]
            · rw [if_neg hp]
          · rw [if_neg h3]
            by_cases h4 : pyStartsWith line "Activation Keys:" = true
            · rw [if_pos h4]
            · rw [if_neg h4]
              by_cases h5 : pyStartsWith line "Enabled:" = true
              · rw [if_pos h5]
              · rw [if_neg h5]
                by_cases h6 : pyStartsWith line "Force Activation:" = true
                · rw [if_pos h6]
                · rw [if_neg h6]
                  by_cases h7 : pyStartsWith line "Search Range:" = true
                  · rw [if_pos h7]
                    rcases hpi : pyParseInt (pyStrip (afterFirst ':' line)) with _ | k
                    · simp [hpi]
                    · simp [hpi]
                  · rw [if_neg h7]
                    by_cases h8 : pyStartsWith line "Title:" = true
                    · rw [if_pos h8]
                    · rw [if_neg h8]
                      by_cases h9 : pyStartsWith line "Token Budget:" = true
                      · rw [if_pos h9]
                        rcases hpi : pyParseInt (pyStrip (afterFirst ':' line)) with _ | k
                        · simp [hpi]
                        · simp [hpi]
                      · rw [if_neg h9]
                        by_cases h10 : pyStartsWith line "Budget Priority:" = true
                        · rw [if_pos h10]
                          rcases hpi : pyParseInt (pyStrip (afterFirst ':' line)) with _ | k
                          · simp [hpi]
                          · simp [hpi]
                        · rw [if_neg h10]
                          by_cases h11 : pyStartsWith line "Trim Direction:" = true
                          · rw [if_pos h11]
                          · rw [if_neg h11]

theorem entryStep_section (gen : Nat → String) (now : Int) (st : ParseState)
    (line : String) (rest : List String) :
    (entryStep gen now st line rest).currentSection = st.currentSection := by
  unfold entryStep
  by_cases hE : pyStartsWith line "ENTRY #" = true
  · rw [if_pos hE]
  · rw [if_neg hE]
    rcases hcur : st.currentEntry with _ | e
    · simp only [hcur]
    · simp only [hcur]
      by_cases h1 : pyStartsWith line "Display Name:" = true
      · rw [if_pos h1]
      · rw [if_neg h1]
        by_cases h2 : pyStartsWith line "ID:" = true
        · rw [if_pos h2]
        · rw [if_neg h2]
          by_cases h3 : pyStartsWith line "Category:" = true
          · rw [if_pos h3]
            by_cases hp : pyContainsChar (pyStrip (afterFirst ':' line)) '(' = true
            · rw [if_pos hp]
            · rw [if_neg hp]
          · rw [if_neg h3]
            by_cases h4 : pyStartsWith line "Activation Keys:" = true
            · rw [if_pos h4]
            · rw [if_neg h4]
              by_cases h5 : pyStartsWith line "Enabled:" = true
              · rw [if_pos h5]
              · rw [if_neg h5]
                by_cases h6 : pyStartsWith line "Force Activation:" = true
                · rw [if_pos h6]
                · rw [if_neg h6]
                  by_cases h7 : pyStartsWith line "Search Range:" = true
                  · rw [if_pos h7]
                    rcases hpi : pyParseInt (pyStrip (afterFirst ':' line)) with _ | k
                    · simp [hpi]
                    · simp [hpi]
                  · rw [if_neg h7]
                    by_cases h8 : pyStartsWith line "Title:" = true
                    · rw [if_pos h8]
                    · rw [if_neg h8]
                      by_cases h9 : pyStartsWith line "Token Budget:" = true
                      · rw [if_pos h9]
                        rcases hpi : pyParseInt (pyStrip (afterFirst ':' line)) with _ | k
                        · simp [hpi]
                        · simp [hpi]
                      · rw [if_neg h9]
                        by_cases h10 : pyStartsWith line "Budget Priority:" = true
                        · rw [if_pos h10]
                          rcases hpi : pyParseInt (pyStrip (afterFirst ':' line)) with _ | k
                          · simp [hpi]
                          · simp [hpi]
                        · rw [if_neg h10]
                          by_cases h11 : pyStartsWith line "Trim Direction:" = true
                          · rw [if_pos h11]
                          · rw [if_neg h11]

theorem stepLine_section (gen : Nat → String) (now : Int) (st : ParseState)
    (l : String) (rest : List String) :
    (stepLine gen now st l rest).currentSection = sectionStep st.currentSection l := by
  unfold stepLine sectionStep
  dsimp only
  by_cases h1 : (pyStrip l == "" || pyStartsWith (pyStrip l) "="
      || pyStartsWith (pyStrip l) "-") = true
  · rw [if_pos h1, if_pos h1]
  · rw [if_neg h1, if_neg h1]
    by_cases h2 : pyStartsWith (pyStrip l) "Version:" = true
    · rw [if_pos h2, if_pos h2]
      rcases hpi : pyParseInt (pyStrip (afterFirst ':' (pyStrip l))) with _ | n
      · simp [hpi]
      · simp [hpi]
    · rw [if_neg h2, if_neg h2]
      by_cases h3 : (pyStrip l == "CATEGORIES") = true
      · rw [if_pos h3, if_pos h3]
      · rw [if_neg h3, if_neg h3]
        by_cases h4 : (pyStrip l == "LORE ENTRIES") = true
        · rw [if_pos h4, if_pos h4]
        · rw [if_neg h4, if_neg h4]
          by_cases h5 : (pyStrip l == "SETTINGS") = true
          · rw [if_pos h5, if_pos h5]
          · rw [if_neg h5, if_neg h5]
            rcases hsec : st.currentSection with _ | sec
            · simp only [hsec]
            · rcases sec
              · simp only [hsec]
                rw [categoryStep_section]
                exact hsec
              · simp only [hsec]
                rw [entryStep_section]
                exact hsec
              · simp only [hsec]
                rw [settingsStep_section]
                exact hsec

theorem find?_map_preserve (k k0 : String) (v : SettingValue)
    (m : List (String × SettingValue)) (hne : ¬ k = k0) :
    (m.map (fun p => if p.1 == k then (k, v) else p)).find? (fun p => p.1 == k0)
      = m.find? (fun p => p.1 == k0) := by
  induction m with
  | nil => rfl
  | cons q t ih =>
    rw [List.map_cons]
    by_cases hq : (q.1 == k) = true
    · rw [if_pos hq]
      rw [@List.find?_cons_of_neg (String × SettingValue) (fun p => p.1 == k0) (k, v)
        (List.map (fun p => if p.1 == k then (k, v) else p) t) (by simp [hne])]
      rw [@List.find?_cons_of_neg (String × SettingValue) (fun p => p.1 == k0) q t (by
        have hqe : q.1 = k := beq_iff_eq.mp hq
        show ¬ (q.1 == k0) = true
        rw [hqe]
        simp [hne])]
      exact ih
    · rw [if_neg hq]
      by_cases hq0 : (q.1 == k0) = true
      · rw [@List.find?_cons_of_pos (String × SettingValue) (fun p => p.1 == k0) q
          (List.map (fun p => if p.1 == k then (k, v) else p) t) hq0]
        rw [@List.find?_cons_of_pos (String × SettingValue) (fun p => p.1 == k0) q t hq0]
      · rw [@List.find?_cons_of_neg (String × SettingValue) (fun p => p.1 == k0) q
          (List.map (fun p => if p.1 == k then (k, v) else p) t) (by simpa using hq0)]
        rw [@List.find?_cons_of_neg (String × SettingValue) (fun p => p.1 == k0) q t
          (by simpa using hq0)]
        exact ih

/-- `d[k] = v` for a different key `k` does not change what `k0` maps to. -/
theorem dictInsert_find?_other (k k0 : String) (v : SettingValue)
    (m : List (String × SettingValue)) (hne : ¬ k = k0) :
    (dictInsert k v m).find? (fun p => p.1 == k0) = m.find? (fun p => p.1 == k0) := by
  unfold dictInsert
  split
  · exact find?_map_preserve k k0 v m hne
  · rw [List.find?_append]
    rcases hf : m.find? (fun p => p.1 == k0) with _ | q
    · rw [hf]
      simp [List.find?, beq_eq_false_iff_ne.mpr hne]
    · rw [hf]
      rfl

/-- One parser step either keeps the seeded value or is an override line. -/
theorem stepLine_obklFalse (gen : Nat → String) (now : Int) (st : ParseState)
    (l : String) (rest : List String) (h : obklFalse st) :
    obklFalse (stepLine gen now st l rest) ∨ isOverrideAt st.currentSection l := by
  unfold stepLine
  dsimp only
  by_cases h1 : (pyStrip l == "" || pyStartsWith (pyStrip l) "="
      || pyStartsWith (pyStrip l) "-") = true
  · rw [if_pos h1]
    exact Or.inl h
  · rw [if_neg h1]
    by_cases h2 : pyStartsWith (pyStrip l) "Version:" = true
    · rw [if_pos h2]
      rcases hpi : pyParseInt (pyStrip (afterFirst ':' (pyStrip l))) with _ | n
      · simp only [hpi]
        exact Or.inl h
      · simp only [hpi]
        exact Or.inl h
    · rw [if_neg h2]
      by_cases h3 : (pyStrip l == "CATEGORIES") = true
      · rw [if_pos h3]
        exact Or.inl h
      · rw [if_neg h3]
        by_cases h4 : (pyStrip l == "LORE ENTRIES") = true
        · rw [if_pos h4]
          exact Or.inl h
        · rw [if_neg h4]
          by_cases h5 : (pyStrip l == "SETTINGS") = true
          · rw [if_pos h5]
            exact Or.inl h
          · rw [if_neg h5]
            rcases hsec : st.currentSection with _ | sec
            · simp only [hsec]
              exact Or.inl h
            · rcases sec
              · simp only [hsec]
                refine Or.inl ?_
                unfold obklFalse
                rw [categoryStep_settings]
                exact h
              · simp only [hsec]
                refine Or.inl ?_
                unfold obklFalse
                rw [entryStep_settings]
                exact h
              · simp only [hsec]
                unfold settingsStep
                by_cases hc : pyContainsChar (pyStrip l) ':' = true
                · rw [if_pos hc]
                  by_cases hk : pyStrip (beforeFirst ':' (pyStrip l))
                      = "orderByKeyLocations"
                  · exact Or.inr ⟨rfl, hc, hk⟩
                  · refine Or.inl ?_
                    unfold obklFalse
                    show (dictInsert (pyStrip (beforeFirst ':' (pyStrip l))) _
                        st.settings).find? _ = _
                    rw [dictInsert_find?_other _ _ _ _ hk]
                    exact h
                · rw [if_neg hc]
                  exact Or.inl h

/-- Over a whole line list: the seeded value survives unless some line, in
the section current when it is reached, carries the key. -/
theorem processLines_obklFalse (gen : Nat → String) (now : Int) (st : ParseState)
    (lines : List String) (h : obklFalse st) :
    obklFalse (processLines gen now st lines)
      ∨ OverrideInLines st.currentSection lines := by
  induction lines generalizing st with
  | nil => exact Or.inl h
  | cons l rest ih =>
    rcases stepLine_obklFalse gen now st l rest h with h1 | hov
    · rcases ih (stepLine gen now st l rest) h1 with h2 | hov2
      · exact Or.inl h2
      · rw [stepLine_section gen now st l rest] at hov2
        exact Or.inr (Or.inr hov2)
    · exact Or.inr (Or.inl hov)

theorem initState_obklFalse : obklFalse initState := rfl

/-! ## Malformed numeric literals leave the state unchanged -/

/-- A `Version:` line whose value does not parse as an integer is a no-op. -/
theorem stepLine_version_fail (gen : Nat → String) (now : Int) (st : ParseState)
    (rest : List String) (v : String) (hv : stripData v.data = v.data)
    (hnone : pyParseInt v = none) :
    stepLine gen now st ("Version: " ++ v) rest = st := by
  have hS : pyStrip ("Version: " ++ v) = "Version:" ++ optSp v :=
    pyStrip_labelline "Version:" "Version: " v (by decide) (by decide) (by decide) hv
  have hex : pyStrip (afterFirst ':' ("Version:" ++ optSp v)) = v :=
    afterFirst_labelline "Version" "Version:" v (by decide) (by decide) hv
  unfold stepLine
  simp only [hS]
  rw [if_neg (by
    simp only [Bool.or_eq_true, not_or]
    refine ⟨⟨?_, ?_⟩, ?_⟩
    · simp [String.ext_iff, String.data_append, optSp]
    · simp [pyStartsWith, String.data_append, List.isPrefixOf]
    · simp [pyStartsWith, String.data_append, List.isPrefixOf])]
  rw [if_pos (pyStartsWith_append "Version:" (optSp v))]
  rw [hex, hnone]

/-- A `Search Range:` line whose value does not parse is a no-op in the
entries section, with or without an open entry. -/
theorem stepLine_searchRange_fail (gen : Nat → String) (now : Int) (st : ParseState)
    (rest : List String) (v : String) (hsec : st.currentSection = some .entries)
    (hv : stripData v.data = v.data) (hnone : pyParseInt v = none) :
    stepLine gen now st ("Search Range: " ++ v) rest = st := by
  have hS : pyStrip ("Search Range: " ++ v) = "Search Range:" ++ optSp v :=
    pyStrip_labelline "Search Range:" "Search Range: " v (by decide) (by decide)
      (by decide) hv
  have hex : pyStrip (afterFirst ':' ("Search Range:" ++ optSp v)) = v :=
    afterFirst_labelline "Search Range" "Search Range:" v (by decide) (by decide) hv
  rw [stepLine_dispatch gen now st _ rest _ hS
    (String_beq_false_of_ne _ _ (by simp [String.data_append]))
    (by simp [pyStartsWith, String.data_append, List.isPrefixOf])
    (by simp [pyStartsWith, String.data_append, List.isPrefixOf])
    (by simp [pyStartsWith, String.data_append, List.isPrefixOf])
    (String_beq_false_of_ne _ _ (by simp [String.data_append]))
    (String_beq_false_of_ne _ _ (by simp [String.data_append]))
    (String_beq_false_of_ne _ _ (by simp [String.data_append]))]
  simp only [hsec]
  unfold entryStep
  rcases hcur : st.currentEntry with _ | e
  · simp only [hcur]
    simp [pyStartsWith, String.data_append, List.isPrefixOf]
  · simp only [hcur]
    rw [hex, hnone]
    simp [pyStartsWith, String.data_append, List.isPrefixOf]

/-! ## The claims -/

/-- C1: round-trip stability.  As spec'd, `parse(serialize L)` should equal
`L` except for the banner timestamp and freshly re-generated empty ids.  In
fact every entry additionally gets `lastUpdatedAt` re-stamped, an empty
`keys` list comes back as `[""]`, and only representable field values
survive; for every representable lorebook the round trip is exact up to the
re-stamp. -/
theorem C1_round_trip_restamped (gen : Nat → String) (now : Int)
    (exportedAt : String) (L : Lorebook) (hL : RepresentableLorebook L)
    (hexp : ¬ '\n' ∈ exportedAt.data) :
    parse_txt_content gen now (generate_txt_content exportedAt L)
      = { L with entries := L.entries.map (stampEntry now) } :=
  parse_generate_roundtrip gen now exportedAt L hL hexp

theorem C1_round_trip_restamped_witness :
    RepresentableLorebook C1wit_book
    ∧ ¬ '\n' ∈ ("2025-06-01 12:00:00" : String).data
    ∧ parse_txt_content uuidStub 9 (generate_txt_content "2025-06-01 12:00:00" C1wit_book)
      = { C1wit_book with entries := C1wit_book.entries.map (stampEntry 9) } :=
  ⟨by decide, by decide,
   C1_round_trip_restamped uuidStub 9 "2025-06-01 12:00:00" C1wit_book
     (by decide) (by decide)⟩

theorem C1_counterexample :
    (parse_txt_content uuidStub 0 (generate_txt_content "2025-01-01" C1ex_book)).entries.map
        (fun e => e.keys) = [[""]]
    ∧ C1ex_book.entries.map (fun e => e.keys) = [[]]
    ∧ parse_txt_content uuidStub 0 (generate_txt_content "2025-01-01" C1ex_book)
      ≠ C1ex_book := by decide

/-- The model reproduces the truncation of `split('(')[1].split(')')[0]`:
for the line `Category: Unknown (a(b)` the recovered id is `a`, exactly as
in Python. -/
theorem category_id_truncates_at_paren :
    stepLine uuidStub 0
        ⟨6, [], [], [], some SectionState.entries, some (newEntry "e1" 0), none, 0⟩
        "Category: Unknown (a(b)" []
      = ⟨6, [], [], [], some SectionState.entries,
          some { newEntry "e1" 0 with category := "a" }, none, 0⟩ := by decide

/-- C2: an unresolved category id renders as `Unknown`, but the rendering is
not lossy as the spec says: the id is printed in parentheses on the same
line and the parser recovers exactly that id into the re-parsed entry, for
ids free of parentheses and newlines (the parser reads the id with
`split('(')[1].split(')')[0]`, which truncates an id at an embedded
parenthesis). -/
theorem C2_unknown_and_recovery :
    (∀ (cats : List Category) (cid : String), (∀ c ∈ cats, c.id ≠ cid) →
      reverseCategoryLookup cats cid = "Unknown")
    ∧ (∀ (gen : Nat → String) (now : Int) (st : ParseState) (e : Entry)
        (rest : List String) (cid : String),
        st.currentSection = some SectionState.entries → st.currentEntry = some e →
        stripData cid.data = cid.data → ¬ '(' ∈ cid.data → ¬ ')' ∈ cid.data →
        stepLine gen now st ("Category: " ++ "Unknown" ++ " (" ++ cid ++ ")") rest
          = { st with currentEntry := some { e with category := cid } }) := by
  constructor
  · intro cats cid h
    unfold reverseCategoryLookup
    have hf : cats.reverse.find? (fun c => c.id == cid) = none := by
      rw [List.find?_eq_none]
      intro c hc
      intro hb
      exact h c (List.mem_reverse.mp hc) (beq_iff_eq.mp hb)
    simp only [hf]
  · intro gen now st e rest cid hsec hcur hcs hcp1 hcp2
    exact stepLine_entry_category gen now st e rest "Unknown" cid hsec hcur
      (by decide) (by decide) (by decide) hcs hcp1 hcp2

theorem C2_unknown_and_recovery_witness :
    (∀ c ∈ ([⟨"Place", "cid", true, false, get_default_context_config,
        false, [], [], []⟩] : List Category), c.id ≠ "ghost")
    ∧ reverseCategoryLookup [⟨"Place", "cid", true, false,
        get_default_context_config, false, [], [], []⟩] "ghost" = "Unknown"
    ∧ stepLine uuidStub 0
        ⟨6, [], [], [], some SectionState.entries, some (newEntry "e1" 0), none, 0⟩
        ("Category: " ++ "Unknown" ++ " (" ++ "ghost" ++ ")") []
      = ⟨6, [], [], [], some SectionState.entries,
          some { newEntry "e1" 0 with category := "ghost" }, none, 0⟩ :=
  ⟨by decide,
   C2_unknown_and_recovery.1 _ "ghost" (by decide),
   C2_unknown_and_recovery.2 uuidStub 0
     ⟨6, [], [], [], some SectionState.entries, some (newEntry "e1" 0), none, 0⟩
     (newEntry "e1" 0) [] "ghost" rfl rfl (by decide) (by decide) (by decide)⟩

theorem C2_counterexample :
    (∀ c ∈ C2ex_book.categories, c.id ≠ "ghost")
    ∧ "Category: Unknown (ghost)" ∈ generateLines "TS" C2ex_book
    ∧ (parse_txt_content uuidStub 0 (generate_txt_content "TS" C2ex_book)).entries.map
        (fun e => e.category) = ["ghost"] := by decide

/-- C3: the spec says booleans render as `True`/`False` and are recovered by
a case-insensitive comparison with `true`, so `createSubcontext = true`
should survive the round trip.  The serializer instead renders the literal
`Creates Subcontext: Yes`, which the parser's `'yes'.lower() == 'true'` test
maps to `false`: the category comes back with `createSubcontext = false`. -/
theorem C3_creates_subcontext_bug :
    (∀ c ∈ C3ex_book.categories, c.createSubcontext = true)
    ∧ "Creates Subcontext: Yes" ∈ generateLines "TS" C3ex_book
    ∧ (parse_txt_content uuidStub 0 (generate_txt_content "TS" C3ex_book)).categories.map
        (fun c => c.createSubcontext) = [false] := by decide

/-- C4: unrecognized lines are skipped and malformed numeric literals leave
the state unchanged (the embedded parser is a total function, so no input
aborts the conversion). -/
theorem C4_skip_and_fallback :
    (∀ (gen : Nat → String) (now : Int) (st : ParseState) (l : String)
        (rest : List String),
      st.currentSection = some SectionState.entries →
      entryNoiseCheck (pyStrip l) = true →
      stepLine gen now st l rest = st)
    ∧ (∀ (gen : Nat → String) (now : Int) (st : ParseState) (rest : List String)
        (v : String), stripData v.data = v.data → pyParseInt v = none →
      stepLine gen now st ("Version: " ++ v) rest = st)
    ∧ (∀ (gen : Nat → String) (now : Int) (st : ParseState) (rest : List String)
        (v : String), st.currentSection = some SectionState.entries →
      stripData v.data = v.data → pyParseInt v = none →
      stepLine gen now st ("Search Range: " ++ v) rest = st) :=
  ⟨fun gen now st l rest hsec hB =>
    stepLine_entry_noiseB gen now st l rest _ rfl hsec hB,
   fun gen now st rest v hv hnone =>
    stepLine_version_fail gen now st rest v hv hnone,
   fun gen now st rest v hsec hv hnone =>
    stepLine_searchRange_fail gen now st rest v hsec hv hnone⟩

theorem C4_skip_and_fallback_witness :
    (C4wit_state.currentSection = some SectionState.entries
      ∧ entryNoiseCheck (pyStrip "Random chatter") = true
      ∧ stepLine uuidStub 0 C4wit_state "Random chatter" [] = C4wit_state)
    ∧ (stripData ("12abc" : String).data = ("12abc" : String).data
      ∧ pyParseInt "12abc" = none
      ∧ stepLine uuidStub 0 C4wit_state ("Version: " ++ "12abc") [] = C4wit_state)
    ∧ (stripData ("ten" : String).data = ("ten" : String).data
      ∧ pyParseInt "ten" = none
      ∧ stepLine uuidStub 0 C4wit_state ("Search Range: " ++ "ten") [] = C4wit_state) :=
  ⟨⟨rfl, by decide,
    C4_skip_and_fallback.1 uuidStub 0 C4wit_state "Random chatter" [] rfl (by decide)⟩,
   ⟨by decide, by decide,
    C4_skip_and_fallback.2.1 uuidStub 0 C4wit_state [] "12abc" (by decide) (by decide)⟩,
   ⟨by decide, by decide,
    C4_skip_and_fallback.2.2 uuidStub 0 C4wit_state [] "ten" rfl (by decide) (by decide)⟩⟩

/-- C5: a document whose only lines are the `LORE ENTRIES` header and
`ENTRY #1` parses to exactly one entry carrying the default skeleton (the
claim's bare `ENTRY #1` document parses to none: the header is required
before any entry line is processed). -/
theorem C5_minimal_entry_defaults (gen : Nat → String) (now : Int) :
    parse_txt_content gen now "LORE ENTRIES\nENTRY #1"
      = ⟨6, [newEntry (gen 0) now], [], [("orderByKeyLocations", SettingValue.b false)]⟩
    ∧ newEntry (gen 0) now
      = ⟨"", get_default_context_config, now, "", gen 0, [], 1000, true, false,
          false, false, "", [], []⟩ :=
  ⟨rfl, rfl⟩

theorem C5_counterexample :
    parse_txt_content uuidStub 0 "ENTRY #1"
      = ⟨6, [], [], [("orderByKeyLocations", SettingValue.b false)]⟩
    ∧ (parse_txt_content uuidStub 0 "ENTRY #1").entries = [] := by decide

/-- C6: the category resolver is idempotent: a second resolution of the same
name against the updated list returns the same id and leaves the list
unchanged. -/
theorem C6_resolver_idempotent (freshId1 freshId2 name : String)
    (cats : List Category) :
    find_or_create_core freshId2 name (find_or_create_core freshId1 name cats).2
      = ((find_or_create_core freshId1 name cats).1,
         (find_or_create_core freshId1 name cats).2) := by
  unfold find_or_create_core
  rcases hf : cats.find? (fun c => c.name == name) with _ | c
  · simp only [hf]
    have hf2 : ((cats ++ [⟨name, freshId1, true, false, get_default_context_config,
        false, [], [], []⟩] : List Category).find? (fun c => c.name == name))
        = some ⟨name, freshId1, true, false, get_default_context_config,
            false, [], [], []⟩ := by
      rw [List.find?_append, hf]
      simp [List.find?]
    simp only [hf2]
  · simp only [hf]

/-- C7: `Activation Keys: sword, magic sword` in an open entry parses to the
two keys `sword` and `magic sword` (comma split plus strip, not three). -/
theorem C7_keys_two_elements (gen : Nat → String) (now : Int) (st : ParseState)
    (e : Entry) (rest : List String)
    (hsec : st.currentSection = some SectionState.entries)
    (hcur : st.currentEntry = some e) :
    stepLine gen now st "Activation Keys: sword, magic sword" rest
      = { st with currentEntry := some { e with keys := ["sword", "magic sword"] } } := by
  have h := stepLine_entry_keys gen now st e rest ["sword", "magic sword"]
    hsec hcur (by decide) (by decide)
  rw [show ("Activation Keys: " ++ pyJoin ", " ["sword", "magic sword"] : String)
      = "Activation Keys: sword, magic sword" from by decide] at h
  exact h

theorem C7_keys_two_elements_witness :
    (⟨6, [], [], [], some SectionState.entries, some (newEntry "e7" 0), none, 0⟩
        : ParseState).currentSection = some SectionState.entries
    ∧ stepLine uuidStub 0
        ⟨6, [], [], [], some SectionState.entries, some (newEntry "e7" 0), none, 0⟩
        "Activation Keys: sword, magic sword" []
      = ⟨6, [], [], [], some SectionState.entries,
          some { newEntry "e7" 0 with keys := ["sword", "magic sword"] }, none, 0⟩ :=
  ⟨rfl,
   C7_keys_two_elements uuidStub 0
     ⟨6, [], [], [], some SectionState.entries, some (newEntry "e7" 0), none, 0⟩
     (newEntry "e7" 0) [] rfl rfl⟩

/-- C8: an entry text without any `Type:`-prefixed line yields an empty
entry type from `extract_entry_info`, and `should_check_entry` excludes the
empty type from key-sanity processing. -/
theorem C8_no_type_line_excluded (text dn : String)
    (h : ∀ l ∈ pySplitChar '\n' text, pyStartsWith l "Type:" = false) :
    (extract_entry_info text dn).2.1 = ""
    ∧ should_check_entry (extract_entry_info text dn).2.1 = false := by
  have h1 : (extract_entry_info text dn).2.1 = "" :=
    extractLoop_entry_type (pySplitChar '\n' text) h "" "" ""
  refine ⟨h1, ?_⟩
  rw [h1]
  decide

theorem C8_no_type_line_excluded_witness :
    (∀ l ∈ pySplitChar '\n' "Alice\nA brave knight.",
      pyStartsWith l "Type:" = false)
    ∧ (extract_entry_info "Alice\nA brave knight." "Alice").2.1 = ""
    ∧ should_check_entry (extract_entry_info "Alice\nA brave knight." "Alice").2.1
      = false :=
  ⟨by decide,
   (C8_no_type_line_excluded "Alice\nA brave knight." "Alice" (by decide)).1,
   (C8_no_type_line_excluded "Alice\nA brave knight." "Alice" (by decide)).2⟩

/-- C9: every entry the parser produces keeps the six context-config fields
the parser has no rule for at their defaults: prefix `""`, suffix `"\n"`,
reservedTokens `0`, insertionType `newline`, maximumTrimType `sentence`,
insertionPosition `-1`. -/
theorem C9_context_config_invariant (gen : Nat → String) (now : Int)
    (txt : String) (e : Entry)
    (he : e ∈ (parse_txt_content gen now txt).entries) : defaultCfgInv e := by
  have hE : (parse_txt_content gen now txt).entries
      = (processLines gen now initState (pySplitChar '\n' txt)).entries
        ++ optEntry (processLines gen now initState (pySplitChar '\n' txt)).currentEntry :=
    rfl
  rw [hE] at he
  have hst := processLines_cfgInv gen now initState (pySplitChar '\n' txt) initState_cfgInv
  rcases List.mem_append.mp he with h1 | h1
  · exact hst.1 e h1
  · rcases hc : (processLines gen now initState (pySplitChar '\n' txt)).currentEntry
      with _ | e0
    · rw [hc] at h1
      simp [optEntry] at h1
    · rw [hc] at h1
      simp only [optEntry, List.mem_singleton] at h1
      subst h1
      exact hst.2 _ hc

theorem C9_context_config_invariant_witness :
    newEntry "u" 0 ∈ (parse_txt_content uuidStub 0 "LORE ENTRIES\nENTRY #1").entries
    ∧ defaultCfgInv (newEntry "u" 0) :=
  ⟨by decide,
   C9_context_config_invariant uuidStub 0 "LORE ENTRIES\nENTRY #1" (newEntry "u" 0)
     (by decide)⟩

/-- C10: every parse result carries the seeded `orderByKeyLocations` settings
key; the key maps to the seeded value `False` unless some input line, reached
while the `SETTINGS` section is current, carries exactly that key; and
parsing the empty string yields exactly the seeded lorebook with
`lorebookVersion` 6 and `orderByKeyLocations = False`. -/
theorem C10_settings_seed_invariant :
    (∀ (gen : Nat → String) (now : Int) (txt : String),
      "orderByKeyLocations" ∈ (parse_txt_content gen now txt).settings.map Prod.fst)
    ∧ (∀ (gen : Nat → String) (now : Int) (txt : String),
      (parse_txt_content gen now txt).settings.find?
          (fun p => p.1 == "orderByKeyLocations")
        = some ("orderByKeyLocations", SettingValue.b false)
      ∨ OverrideInLines none (pySplitChar '\n' txt))
    ∧ (∀ (gen : Nat → String) (now : Int),
      parse_txt_content gen now ""
        = ⟨6, [], [], [("orderByKeyLocations", SettingValue.b false)]⟩) := by
  refine ⟨?_, ?_, ?_⟩
  · intro gen now txt
    exact processLines_obkl gen now initState (pySplitChar '\n' txt) initState_obkl
  · intro gen now txt
    exact processLines_obklFalse gen now initState (pySplitChar '\n' txt)
      initState_obklFalse
  · intro gen now
    rfl

end NAI
